import Mathlib

/-!
Verification development for the Regicide rules engine and its AI partner
(`src/js/game.js`, `src/js/ai.js`).  The JavaScript source is shallowly
embedded: pure helpers become Lean functions, the mutating methods of
`RegicideGame` become functions from a `GameState` to a result/state pair,
and JavaScript arrays are Lean lists with `push` at the end (so `pop` takes
the last element and `unshift` prepends).  Machine numbers are `Nat`/`Int`;
enemy HP is `Int` because it can go negative on overkill.
-/

inductive Suit
  | hearts | diamonds | clubs | spades | joker
deriving DecidableEq, Repr

inductive Rank
  | A | n2 | n3 | n4 | n5 | n6 | n7 | n8 | n9 | n10 | J | Q | K | Joker
deriving DecidableEq, Repr

structure Card where
  suit : Suit
  rank : Rank
  id : String
deriving DecidableEq, Repr

/-- `SUITS` constant from game.js (the four real suits, in source order). -/
def SUITS : List Suit := [.hearts, .diamonds, .clubs, .spades]

/-- `RANKS` constant from game.js (the ten non-face ranks). -/
def RANKS : List Rank := [.A, .n2, .n3, .n4, .n5, .n6, .n7, .n8, .n9, .n10]

/-- `FACE_RANKS` constant from game.js. -/
def FACE_RANKS : List Rank := [.J, .Q, .K]

/-- String form of a rank, as used in card ids (`${rank}_${suit}`). -/
def rankStr : Rank → String
  | .A => "A" | .n2 => "2" | .n3 => "3" | .n4 => "4" | .n5 => "5"
  | .n6 => "6" | .n7 => "7" | .n8 => "8" | .n9 => "9" | .n10 => "10"
  | .J => "J" | .Q => "Q" | .K => "K" | .Joker => "Joker"

/-- String form of a suit, as used in card ids. -/
def suitStr : Suit → String
  | .hearts => "hearts" | .diamonds => "diamonds" | .clubs => "clubs"
  | .spades => "spades" | .joker => "joker"

/-- `SUIT_SYMBOLS` table from game.js. -/
def suitSymbol : Suit → String
  | .hearts => "♥" | .diamonds => "♦" | .clubs => "♣" | .spades => "♠"
  | .joker => "🃏"

/-- The id string `${rank}_${suit}` built in `createDeck`/`createEnemyDeck`. -/
def mkId (r : Rank) (su : Suit) : String := rankStr r ++ "_" ++ suitStr su

/-- `cardValue` from game.js. -/
def cardValue (c : Card) : Nat :=
  match c.rank with
  | .Joker => 0
  | .A => 1
  | .J => 10
  | .Q => 15
  | .K => 20
  | .n2 => 2 | .n3 => 3 | .n4 => 4 | .n5 => 5 | .n6 => 6
  | .n7 => 7 | .n8 => 8 | .n9 => 9 | .n10 => 10

/-- `enemyMaxHP` from game.js. -/
def enemyMaxHP (c : Card) : Nat :=
  match c.rank with
  | .J => 20 | .Q => 30 | .K => 40
  | _ => 0

/-- `enemyAttack` from game.js. -/
def enemyAttack (c : Card) : Nat :=
  match c.rank with
  | .J => 10 | .Q => 15 | .K => 20
  | _ => 0

/-- `createDeck` from game.js: 40 numbered/ace cards suit-major, plus
2 Jokers for 2 players, 1 for 3 players, 0 otherwise. -/
def createDeck (playerCount : Nat) : List Card :=
  let base := SUITS.flatMap (fun su => RANKS.map (fun r => ⟨su, r, mkId r su⟩))
  let jokerCount : Nat :=
    if playerCount ≥ 2 then
      if playerCount = 2 then 2 else if playerCount = 3 then 1 else 0
    else 0
  base ++ (List.range jokerCount).map
    (fun i => ⟨.joker, .Joker, "Joker_" ++ Nat.repr (i + 1)⟩)

/-- The 12 enemy cards of `createEnemyDeck` in their unshuffled order:
Jacks, then Queens, then Kings, suits in source order within each tier.
`createEnemyDeck` shuffles within each tier; that nondeterminism is
captured by the `CastleOk` predicate below. -/
def enemyCards : List Card :=
  FACE_RANKS.flatMap (fun r => SUITS.map (fun su => ⟨su, r, mkId r su⟩))

/-- The Jack tier of the enemy deck. -/
def jackCards : List Card := SUITS.map (fun su => ⟨su, .J, mkId .J su⟩)

/-- The Queen tier of the enemy deck. -/
def queenCards : List Card := SUITS.map (fun su => ⟨su, .Q, mkId .Q su⟩)

/-- The King tier of the enemy deck. -/
def kingCards : List Card := SUITS.map (fun su => ⟨su, .K, mkId .K su⟩)

/-- Possible outputs of `createEnemyDeck`: each tier is some permutation of
its four cards, tiers stacked Jacks then Queens then Kings. -/
def CastleOk (cas : List Card) : Prop :=
  ∃ js qs ks, js.Perm jackCards ∧ qs.Perm queenCards ∧ ks.Perm kingCards ∧
    cas = js ++ qs ++ ks

/-- `isValidCombo` from game.js, with the source's exact check order. -/
def isValidCombo (cards : List Card) : Bool :=
  if cards.length = 0 then false
  else if cards.any (fun c => c.rank = .Joker) then false
  else if cards.length = 1 then true
  else
    let aces := cards.filter (fun c => c.rank = .A)
    let nonAces := cards.filter (fun c => ¬ c.rank = .A)
    if nonAces.any (fun c => FACE_RANKS.contains c.rank) then false
    else if nonAces.length = 0 then aces.length ≤ 4
    else if aces.length > 0 ∧ nonAces.length = 1 then true
    else if aces.length = 0 then
      match nonAces with
      | [] => false
      | c0 :: _ =>
        if ¬ nonAces.all (fun c => c.rank = c0.rank) then false
        else if FACE_RANKS.contains c0.rank then false
        else if nonAces.length > 4 then false
        else (nonAces.map cardValue).sum ≤ 10
    else false

/-- `comboValue` from game.js. -/
def comboValue (cards : List Card) : Nat := (cards.map cardValue).sum

/-- `comboSuits` from game.js (`[...new Set(...)]`); only ever consumed via
`includes`, so it is used through `List.contains` below. -/
def comboSuits (cards : List Card) : List Suit := (cards.map (fun c => c.suit)).dedup

inductive Phase
  | play | discard | gameover | victory
deriving DecidableEq, Repr

/-- The mutable fields of a `RegicideGame` instance (see `reset` in game.js).
`removed` is a ghost field not present in the source: the source simply
drops an overkilled enemy card (it is pushed nowhere); `removed` records
exactly those dropped cards so that conservation can be stated. -/
structure GameState where
  playerCount : Nat
  tavern : List Card
  castle : List Card
  discard : List Card
  hands : List (List Card)
  currentPlayer : Nat
  phase : Phase
  currentEnemy : Option Card
  currentEnemyHP : Int
  currentEnemyMaxHP : Int
  currentEnemyAttack : Nat
  shieldAmount : Nat
  log : List String
  discardNeeded : Nat
  discardedSoFar : List Card
  enemiesDefeated : Nat
  yieldUsed : Bool
  jokersAvailable : Nat
  jokersUsed : Nat
  removed : List Card
deriving DecidableEq, Repr

/-- The tagged events pushed into the `events` array by `playCards`
(the derived `message` text of each event is presentation and elided). -/
inductive GEvent
  | immunity (power : Suit)
  | clubs (total : Nat)
  | damage (amount : Nat)
  | diamonds (drawn : Nat)
  | spades (eff : Nat)
  | hearts (healed : Nat)
  | defeat
  | enemyAttack (amount : Nat)
  | shielded
  | gameover
deriving DecidableEq, Repr

def GEvent.isImmunity : GEvent → Bool
  | .immunity _ => true
  | _ => false

/-- The union of the result-object shapes returned by the engine methods;
fields absent from a given JS return site keep their `baseRes` value. -/
structure OpResult where
  success : Bool
  message : String
  events : List GEvent
  defeated : Bool
  drawn : Nat
  survived : Bool
  gameover : Bool
  remaining : Nat
  phaseR : Option Phase
  attackDamage : Nat
deriving DecidableEq, Repr

def baseRes : OpResult :=
  { success := false, message := "", events := [], defeated := false,
    drawn := 0, survived := false, gameover := false, remaining := 0,
    phaseR := none, attackDamage := 0 }

def failRes (msg : String) : OpResult := { baseRes with message := msg }

/-- `addLog` from game.js: push, then drop the oldest entry past 50. -/
def addLog (log : List String) (msg : String) : List String :=
  let l := log ++ [msg]
  if l.length > 50 then l.drop 1 else l

/-- `getHand` from game.js (`this.hands[playerIndex] || []`). -/
def getHand (s : GameState) (i : Nat) : List Card := s.hands.getD i []

def setHand (s : GameState) (i : Nat) (h : List Card) : GameState :=
  { s with hands := s.hands.set i h }

/-- `getMaxHandSize` from game.js. -/
def getMaxHandSize (pc : Nat) : Nat :=
  if pc = 1 then 8 else if pc = 2 then 7 else if pc = 3 then 6 else 5

/-- The hand-size ternary chain in `reset` (same table as `getMaxHandSize`). -/
def handSizeFor (pc : Nat) : Nat :=
  if pc = 1 then 8 else if pc = 2 then 7 else if pc = 3 then 6 else 5

/-- The display name `${rank}${SUIT_SYMBOLS[suit]}` used in log lines. -/
def cardName (c : Card) : String := rankStr c.rank ++ suitSymbol c.suit

def cardNames (cards : List Card) : String :=
  String.intercalate (", ") (cards.map cardName)

/-- The active enemy; the source only dereferences `currentEnemy` in states
where it is non-null, the default is for totality only. -/
def enemyOf (s : GameState) : Card := s.currentEnemy.getD ⟨.joker, .Joker, ""⟩

/-- The card-removal loop of `playCards` (`indexOf` + `splice`, skipping
cards no longer present). -/
def removeCards (hand : List Card) : List Card → List Card
  | [] => hand
  | c :: rest => removeCards (hand.erase c) rest

/-- A draw loop `for (...) { if (tavern.length > 0) hand.push(tavern.pop()) }`
running `n` times, as used in `reset` and `playJoker`. -/
def drawUpTo : Nat → List Card → List Card → List Card × List Card
  | 0, hand, tavern => (hand, tavern)
  | n + 1, hand, tavern =>
    match tavern.getLast? with
    | none => drawUpTo n hand tavern
    | some c => drawUpTo n (hand ++ [c]) tavern.dropLast

/-- The diamonds draw loop of `playCards`: `n` remaining iterations with
`i` the current loop index; a slot whose target hand is full draws
nothing (the iteration is skipped, the card stays in the tavern). -/
def diamondsDraw (pc maxHand pIdx : Nat) :
    Nat → Nat → List (List Card) → List Card → Nat →
    List (List Card) × List Card × Nat
  | _, 0, hands, tavern, drawn => (hands, tavern, drawn)
  | i, n + 1, hands, tavern, drawn =>
    match tavern.getLast? with
    | none => diamondsDraw pc maxHand pIdx (i + 1) n hands tavern drawn
    | some c =>
      let target := (pIdx + i) % pc
      if (hands.getD target []).length < maxHand then
        diamondsDraw pc maxHand pIdx (i + 1) n
          (hands.set target ((hands.getD target []) ++ [c])) tavern.dropLast (drawn + 1)
      else
        diamondsDraw pc maxHand pIdx (i + 1) n hands tavern drawn

/-- The hearts heal loop of `playCards`: move `n` cards from the top of the
discard pile to the bottom (front) of the tavern. -/
def heartsHeal : Nat → List Card → List Card → List Card × List Card
  | 0, tavern, discard => (tavern, discard)
  | n + 1, tavern, discard =>
    match discard.getLast? with
    | none => heartsHeal n tavern discard
    | some c => heartsHeal n (c :: tavern) discard.dropLast

/-- The removal loop of `discardCards`: each card found in the hand is
spliced out and pushed onto both `discard` and `discardedSoFar`. -/
def discardLoop : List Card → List Card → List Card → List Card →
    List Card × List Card × List Card
  | [], hand, discard, dsf => (hand, discard, dsf)
  | c :: rest, hand, discard, dsf =>
    if c ∈ hand then discardLoop rest (hand.erase c) (discard ++ [c]) (dsf ++ [c])
    else discardLoop rest hand discard dsf

/-- The per-player dealing loop of `reset` (player 0 draws first). -/
def dealHands : Nat → Nat → List Card → List (List Card) × List Card
  | 0, _, tavern => ([], tavern)
  | k + 1, handSize, tavern =>
    let (h, tav) := drawUpTo handSize [] tavern
    let (rest, tav2) := dealHands k handSize tav
    (h :: rest, tav2)

/-- `revealEnemy` from game.js. -/
def revealEnemy (s : GameState) : GameState :=
  match s.castle with
  | [] =>
    { s with phase := .victory,
             log := addLog s.log ("🎉 All enemies defeated! Victory!") }
  | e :: rest =>
    { s with castle := rest,
             currentEnemy := some e,
             currentEnemyHP := (enemyMaxHP e : Int),
             currentEnemyMaxHP := (enemyMaxHP e : Int),
             currentEnemyAttack := enemyAttack e,
             shieldAmount := 0,
             log := addLog s.log ("⚔️ A " ++ cardName e ++ " appears! HP: " ++
               Nat.repr (enemyMaxHP e) ++ ", Attack: " ++ Nat.repr (enemyAttack e)) }

/-- `reset` from game.js, with the shuffled tavern and castle orders passed
in explicitly (the source shuffles with `Math.random`). -/
def resetState (pc : Nat) (tav cas : List Card) : GameState :=
  let dealt := dealHands pc (handSizeFor pc) tav
  revealEnemy
    { playerCount := pc, tavern := dealt.2, castle := cas, discard := [],
      hands := dealt.1, currentPlayer := 0, phase := .play,
      currentEnemy := none, currentEnemyHP := 0, currentEnemyMaxHP := 0,
      currentEnemyAttack := 0, shieldAmount := 0, log := [],
      discardNeeded := 0, discardedSoFar := [], enemiesDefeated := 0,
      yieldUsed := false, jokersAvailable := if pc = 1 then 2 else 0,
      jokersUsed := 0, removed := [] }

/-- Lines 319-330 of `playCards`: remove the played cards from the hand and
log the play. -/
def removalStage (s : GameState) (playerIndex : Nat) (cards : List Card) : GameState :=
  let hand := getHand s playerIndex
  let s1 := setHand s playerIndex (removeCards hand cards)
  { s1 with log := addLog s1.log ("Player " ++ Nat.repr (playerIndex + 1) ++
      " plays " ++ cardNames cards) }

/-- Lines 336-347 of `playCards`: clubs double the damage unless the enemy
is clubs-suited; returns the total damage, the updated state and the
events pushed. -/
def clubsStage (damage : Nat) (suits : List Suit) (s : GameState) :
    Nat × GameState × List GEvent :=
  if suits.contains .clubs then
    if (enemyOf s).suit = .clubs then
      (damage,
        { s with log := addLog s.log ("❌ Enemy is immune to ♣ Clubs power!") },
        [GEvent.immunity .clubs])
    else
      (damage * 2,
        { s with log := addLog s.log ("♣ Damage doubled to " ++
            Nat.repr (damage * 2) ++ "!") },
        [GEvent.clubs (damage * 2)])
  else (damage, s, [])

/-- Lines 349-352 of `playCards`: apply the (possibly doubled) damage to
the enemy HP. -/
def damageStage (totalDamage : Nat) (s : GameState) : GameState :=
  let s1 := { s with currentEnemyHP := s.currentEnemyHP - (totalDamage : Int) }
  { s1 with log := addLog s1.log ("💥 Dealt " ++ Nat.repr totalDamage ++
      " damage! Enemy HP: " ++ toString (max 0 s1.currentEnemyHP)) }

/-- Lines 354-377 of `playCards`: the diamonds draw power (skipped with an
immunity event against a diamonds enemy). -/
def diamondsStage (damage : Nat) (suits : List Suit) (playerIndex : Nat)
    (s : GameState) : GameState × List GEvent :=
  if suits.contains .diamonds then
    if (enemyOf s).suit = .diamonds then
      ({ s with log := addLog s.log ("❌ Enemy is immune to ♦ Diamonds power!") },
        [GEvent.immunity .diamonds])
    else
      let maxHand := getMaxHandSize s.playerCount
      let drawCount := min damage s.tavern.length
      let d := diamondsDraw s.playerCount maxHand playerIndex 0 drawCount
        s.hands s.tavern 0
      let newTavern := d.2.1
      let s1 := { s with hands := d.1, tavern := newTavern }
      if d.2.2 > 0 then
        ({ s1 with log := addLog s1.log ("♦ Drew " ++ Nat.repr d.2.2 ++ " card(s)!") },
          [GEvent.diamonds d.2.2])
      else (s1, [])
  else (s, [])

/-- Lines 379-390 of `playCards`: the spades shield power (skipped with an
immunity event against a spades enemy). -/
def spadesStage (damage : Nat) (suits : List Suit) (s : GameState) :
    GameState × List GEvent :=
  if suits.contains .spades then
    if (enemyOf s).suit = .spades then
      ({ s with log := addLog s.log ("❌ Enemy is immune to ♠ Spades power!") },
        [GEvent.immunity .spades])
    else
      let s1 := { s with shieldAmount := s.shieldAmount + damage }
      let eff := s1.currentEnemyAttack - s1.shieldAmount
      ({ s1 with log := addLog s1.log ("♠ Enemy attack reduced to " ++
          Nat.repr eff ++ "!") }, [GEvent.spades eff])
  else (s, [])

/-- Lines 392-409 of `playCards`: the hearts heal power (skipped with an
immunity event against a hearts enemy). -/
def heartsStage (damage : Nat) (suits : List Suit) (s : GameState) :
    GameState × List GEvent :=
  if suits.contains .hearts then
    if (enemyOf s).suit = .hearts then
      ({ s with log := addLog s.log ("❌ Enemy is immune to ♥ Hearts power!") },
        [GEvent.immunity .hearts])
    else
      let healCount := min damage s.discard.length
      let h := heartsHeal healCount s.tavern s.discard
      let s1 := { s with tavern := h.1, discard := h.2 }
      if healCount > 0 then
        ({ s1 with log := addLog s1.log ("♥ Shuffled " ++ Nat.repr healCount ++
            " card(s) back to tavern!") }, [GEvent.hearts healCount])
      else (s1, [])
  else (s, [])

/-- Lines 319-409 of `playCards`: removal, then the suit powers in source
order clubs → damage application → diamonds → spades → hearts, with the
events accumulated in that order. -/
def applyPowers (s : GameState) (playerIndex : Nat) (cards : List Card) :
    GameState × List GEvent :=
  let damage := comboValue cards
  let suits := comboSuits cards
  let s1 := removalStage s playerIndex cards
  let cl := clubsStage damage suits s1
  let s2 := damageStage cl.1 cl.2.1
  let dia := diamondsStage damage suits playerIndex s2
  let spa := spadesStage damage suits dia.1
  let hea := heartsStage damage suits spa.1
  (hea.1, cl.2.2 ++ [GEvent.damage cl.1] ++ dia.2 ++ spa.2 ++ hea.2)

/-- Lines 412-435 of `playCards`: the enemy-defeated branch: played cards
to discard, the enemy card to discard exactly when HP is exactly 0 (on
overkill the source drops the card; the ghost `removed` records it),
turn passed, next enemy revealed. -/
def defeatFinish (s : GameState) (cards : List Card) (events : List GEvent) :
    OpResult × GameState :=
  let enemy := enemyOf s
  let events := events ++ [GEvent.defeat]
  let s1 := { s with
    log := addLog s.log ("👑 " ++ cardName enemy ++ " has been defeated!"),
    enemiesDefeated := s.enemiesDefeated + 1 }
  let s2 := { s1 with discard := s1.discard ++ cards }
  let s3 :=
    if s2.currentEnemyHP = 0 then
      { s2 with discard := s2.discard ++ [enemy],
                log := addLog s2.log ("The " ++ cardName enemy ++
                  " joins the discard pile.") }
    else
      { s2 with removed := s2.removed ++ [enemy] }
  let s4 := { s3 with phase := .play,
                      currentPlayer := (s3.currentPlayer + 1) % s3.playerCount }
  let s5 := revealEnemy s4
  ({ baseRes with success := true, events := events, defeated := true }, s5)

/-- Lines 442-474 of `playCards`: the surviving-enemy attack resolution. -/
def attackResolutionPlay (s : GameState) (events : List GEvent) :
    OpResult × GameState :=
  let effectiveAttack := s.currentEnemyAttack - s.shieldAmount
  if effectiveAttack > 0 then
    let s1 := { s with discardNeeded := effectiveAttack, discardedSoFar := [],
                       phase := .discard }
    let events := events ++ [GEvent.enemyAttack effectiveAttack]
    let s1 := { s1 with log := addLog s1.log ("⚡ Enemy attacks for " ++
      Nat.repr effectiveAttack ++ "! Discard cards to survive.") }
    let totalHandValue := ((getHand s1 s1.currentPlayer).map cardValue).sum
    let s2 :=
      if totalHandValue < effectiveAttack ∧ (getHand s1 s1.currentPlayer).length > 0 then
        { s1 with log := addLog s1.log ("Player " ++ Nat.repr (s1.currentPlayer + 1) ++
          " cannot fully absorb the attack.") }
      else s1
    let fin : GameState × List GEvent :=
      if (getHand s2 s2.currentPlayer).length = 0 ∧ effectiveAttack > 0 then
        if ¬ s2.hands.any (fun h => h.length > 0) ∧ s2.tavern.length = 0 then
          ({ s2 with phase := .gameover,
                     log := addLog s2.log ("💀 Game Over! No cards to absorb damage.") },
            events ++ [GEvent.gameover])
        else (s2, events)
      else (s2, events)
    ({ baseRes with success := true, events := fin.2 }, fin.1)
  else
    let events := events ++ [GEvent.shielded]
    let s1 := { s with log := addLog s.log ("🛡️ Attack fully shielded!"),
                       currentPlayer := (s.currentPlayer + 1) % s.playerCount }
    ({ baseRes with success := true, events := events }, s1)

/-- Lines 437-474 of `playCards`: push played cards to discard, then resolve
the enemy attack. -/
def surviveFinish (s : GameState) (cards : List Card) (events : List GEvent) :
    OpResult × GameState :=
  attackResolutionPlay { s with discard := s.discard ++ cards } events

/-- The validated body of `playCards` (after the guard checks). -/
def playCardsGo (s : GameState) (playerIndex : Nat) (cards : List Card) :
    OpResult × GameState :=
  let r := applyPowers s playerIndex cards
  if r.1.currentEnemyHP ≤ 0 then defeatFinish r.1 cards r.2
  else surviveFinish r.1 cards r.2

/-- The ids→cards resolution of `playCards`/`discardCards`
(`cardIds.map(id => hand.find(...)).filter(Boolean)`). -/
def selectCards (hand : List Card) (cardIds : List String) : List Card :=
  cardIds.filterMap (fun i => hand.find? (fun c => c.id = i))

/-- `playCards` from game.js. -/
def playCards (s : GameState) (playerIndex : Nat) (cardIds : List String) :
    OpResult × GameState :=
  if ¬ s.phase = .play then (failRes ("Not in play phase"), s)
  else if ¬ playerIndex = s.currentPlayer then (failRes ("Not your turn"), s)
  else
    let cards := selectCards (getHand s playerIndex) cardIds
    if ¬ cards.length = cardIds.length then (failRes ("Invalid cards selected"), s)
    else if ¬ isValidCombo cards then
      (failRes ("Invalid card combination. Play a single card or multiple cards of the same rank."), s)
    else playCardsGo s playerIndex cards

/-- `discardCards` from game.js. -/
def discardCards (s : GameState) (playerIndex : Nat) (cardIds : List String) :
    OpResult × GameState :=
  if ¬ s.phase = .discard then (failRes ("Not in discard phase"), s)
  else if ¬ playerIndex = s.currentPlayer then (failRes ("Not your turn to discard"), s)
  else
    let hand := getHand s playerIndex
    let cards := selectCards hand cardIds
    if cards.length = 0 then (failRes ("No valid cards selected"), s)
    else
      let discardValue := (cards.map cardValue).sum
      let totalSoFar := (s.discardedSoFar.map cardValue).sum + discardValue
      let lp := discardLoop cards hand s.discard s.discardedSoFar
      let newDiscard := lp.2.1
      let newDsf := lp.2.2
      let sh := setHand s playerIndex lp.1
      let s1 := { sh with discard := newDiscard, discardedSoFar := newDsf }
      let s1 := { s1 with log := addLog s1.log ("Player " ++
        Nat.repr (playerIndex + 1) ++ " discards " ++ cardNames cards ++ " (" ++
        Nat.repr discardValue ++ " damage absorbed)") }
      if totalSoFar ≥ s1.discardNeeded then
        let s2 := { s1 with phase := .play, discardNeeded := 0, discardedSoFar := [],
                            currentPlayer := (s1.currentPlayer + 1) % s1.playerCount }
        let s2 := { s2 with log := addLog s2.log ("Player survives! Next player turn.") }
        ({ baseRes with success := true, survived := true,
                        message := "Attack survived!" }, s2)
      else
        let remaining := s1.discardNeeded - totalSoFar
        if (getHand s1 playerIndex).length = 0 then
          -- dead inner re-check of `totalSoFar >= discardNeeded` kept from the source
          if totalSoFar ≥ s1.discardNeeded then
            ({ baseRes with success := true, survived := true,
                            message := "Attack survived!" },
              { s1 with phase := .play,
                        currentPlayer := (s1.currentPlayer + 1) % s1.playerCount })
          else
            ({ baseRes with success := true, gameover := true,
                            message := "Game Over! Not enough cards to survive." },
              { s1 with phase := .gameover,
                        log := addLog s1.log ("💀 Game Over! Could not absorb enough damage.") })
        else
          ({ baseRes with success := true, remaining := remaining,
                          message := "Need " ++ Nat.repr remaining ++ " more damage to absorb." },
            s1)

/-- Lines 568-591 of `yieldTurn`: the enemy attack after the yield. -/
def yieldAttackResolution (s : GameState) : OpResult × GameState :=
  let effectiveAttack := s.currentEnemyAttack - s.shieldAmount
  if effectiveAttack > 0 then
    let s1 := { s with discardNeeded := effectiveAttack, discardedSoFar := [],
                       phase := .discard }
    let s1 := { s1 with log := addLog s1.log ("⚡ Enemy attacks for " ++
      Nat.repr effectiveAttack ++ "!") }
    if (getHand s1 s1.currentPlayer).length = 0 then
      if ¬ s1.hands.any (fun h => h.length > 0) ∧ s1.tavern.length = 0 then
        ({ baseRes with success := true, gameover := true },
          { s1 with phase := .gameover, log := addLog s1.log ("💀 Game Over!") })
      else
        ({ baseRes with success := true, phaseR := some .discard,
                        attackDamage := effectiveAttack }, s1)
    else
      ({ baseRes with success := true, phaseR := some .discard,
                      attackDamage := effectiveAttack }, s1)
  else
    ({ baseRes with success := true, phaseR := some .play },
      { s with currentPlayer := (s.currentPlayer + 1) % s.playerCount })

/-- `yieldTurn` from game.js: optionally discard one named card (silently
skipped when the id is not in the hand), then the enemy attacks. -/
def yieldTurn (s : GameState) (playerIndex : Nat) (discardCardId : Option String) :
    OpResult × GameState :=
  if ¬ s.phase = .play then (failRes ("Not in play phase"), s)
  else if ¬ playerIndex = s.currentPlayer then (failRes ("Not your turn"), s)
  else
    let hand := getHand s playerIndex
    let s1 :=
      match discardCardId with
      | some cid =>
        match hand.find? (fun c => c.id = cid) with
        | some card =>
          { (setHand s playerIndex (hand.erase card)) with
            discard := s.discard ++ [card],
            log := addLog s.log ("Player " ++ Nat.repr (playerIndex + 1) ++
              " yields and discards " ++ cardName card) }
        | none => s
      | none =>
        { s with log := addLog s.log ("Player " ++ Nat.repr (playerIndex + 1) ++
          " yields their turn") }
    yieldAttackResolution s1

/-- `playJoker` from game.js (solo counter-based branch and multiplayer
hand-card branch). -/
def playJoker (s : GameState) (playerIndex : Nat) : OpResult × GameState :=
  if ¬ s.phase = .play then (failRes ("Not in play phase"), s)
  else if ¬ playerIndex = s.currentPlayer then (failRes ("Not your turn"), s)
  else
    let hand := getHand s playerIndex
    if s.playerCount = 1 then
      if s.jokersAvailable ≤ 0 then (failRes ("No Jokers available"), s)
      else
        let s1 := setHand { s with discard := s.discard ++ hand } playerIndex []
        let dr := drawUpTo (getMaxHandSize s1.playerCount) [] s1.tavern
        let s2 := setHand { s1 with tavern := dr.2 } playerIndex dr.1
        let s3 := { s2 with jokersAvailable := s2.jokersAvailable - 1,
                            jokersUsed := s2.jokersUsed + 1 }
        let s3 := { s3 with log := addLog s3.log ("🃏 Joker played! Hand reset. Drew " ++
          Nat.repr dr.1.length ++ " new cards. (" ++ Nat.repr s3.jokersAvailable ++
          " Joker(s) remaining)") }
        ({ baseRes with success := true, drawn := dr.1.length,
                        message := "Hand reset! Drew " ++ Nat.repr dr.1.length ++
                          " new cards." }, s3)
    else
      match hand.find? (fun c => c.rank = .Joker) with
      | none => (failRes ("No Joker in hand"), s)
      | some jokerCard =>
        let hand2 := hand.erase jokerCard
        let s1 := { s with discard := (s.discard ++ [jokerCard]) ++ hand2 }
        let s1 := setHand s1 playerIndex []
        let dr := drawUpTo (getMaxHandSize s1.playerCount) [] s1.tavern
        let s2 := setHand { s1 with tavern := dr.2 } playerIndex dr.1
        let s3 := { s2 with jokersUsed := s2.jokersUsed + 1 }
        let s3 := { s3 with log := addLog s3.log ("🃏 Joker played from hand! Hand reset. Drew " ++
          Nat.repr dr.1.length ++ " new cards.") }
        ({ baseRes with success := true, drawn := dr.1.length,
                        message := "Hand reset! Drew " ++ Nat.repr dr.1.length ++
                          " new cards." }, s3)

/-- Stable insertion used to model the JS stable `sort` with comparator
`cardValue(a) - cardValue(b)`: an element passes over strictly smaller
values and stops before the first value ≥ its own, so earlier-listed
equal-valued cards stay first. -/
def insertByAsc (c : Card) : List Card → List Card
  | [] => [c]
  | d :: rest =>
    if cardValue d < cardValue c then d :: insertByAsc c rest else c :: d :: rest

/-- Stable sort by ascending `cardValue` (`(a, b) => cardValue(a) - cardValue(b)`). -/
def sortByValueAsc : List Card → List Card
  | [] => []
  | c :: rest => insertByAsc c (sortByValueAsc rest)

/-- Stable insertion for the descending comparator. -/
def insertByDesc (c : Card) : List Card → List Card
  | [] => [c]
  | d :: rest =>
    if cardValue c < cardValue d then d :: insertByDesc c rest else c :: d :: rest

/-- Stable sort by descending `cardValue` (`(a, b) => cardValue(b) - cardValue(a)`). -/
def sortByValueDesc : List Card → List Card
  | [] => []
  | c :: rest => insertByDesc c (sortByValueDesc rest)

/-- The greedy accumulation loop of `findOptimalDiscard`: push cards in
order, stopping as soon as the running total reaches the requirement. -/
def greedyTake : List Card → Nat → List Card
  | [], _ => []
  | c :: rest, needed =>
    if cardValue c ≥ needed then [c] else c :: greedyTake rest (needed - cardValue c)

/-- `findOptimalDiscard` from ai.js. -/
def findOptimalDiscard (hand : List Card) (needed : Nat) : List Card :=
  let singles := hand.filter (fun c => cardValue c ≥ needed)
  if singles.length > 0 then
    match sortByValueAsc singles with
    | [] => []
    | c :: _ => [c]
  else
    let result := greedyTake (sortByValueDesc hand) needed
    if (result.map cardValue).sum ≥ needed then result else hand

/-- `decideDiscard` from ai.js, as a function of the snapshot fields it
reads (the AI hand, `discardNeeded`, `discardedSoFar`). -/
def decideDiscard (hand : List Card) (discardNeeded : Nat)
    (discardedSoFar : List Card) : List String :=
  let needed : Int := (discardNeeded : Int) - ((discardedSoFar.map cardValue).sum : Int)
  if hand.length = 0 ∨ needed ≤ 0 then []
  else (findOptimalDiscard hand needed.toNat).map (fun c => c.id)

/-- One engine call with arbitrary arguments (the transition relation of
the state machine). -/
def Step (s t : GameState) : Prop :=
  (∃ p ids, t = (playCards s p ids).2) ∨
  (∃ p ids, t = (discardCards s p ids).2) ∨
  (∃ p oid, t = (yieldTurn s p oid).2) ∨
  (∃ p, t = (playJoker s p).2)

/-- As `Step`, but `playCards` calls pass a duplicate-free id list. -/
def StepND (s t : GameState) : Prop :=
  (∃ p ids, ids.Nodup ∧ t = (playCards s p ids).2) ∨
  (∃ p ids, t = (discardCards s p ids).2) ∨
  (∃ p oid, t = (yieldTurn s p oid).2) ∨
  (∃ p, t = (playJoker s p).2)

/-- A fresh game: some shuffle of the tavern deck and of the castle tiers,
dealt by `reset`. -/
def InitialState (pc : Nat) (s : GameState) : Prop :=
  ∃ tav cas, tav.Perm (createDeck pc) ∧ CastleOk cas ∧ s = resetState pc tav cas

def Reachable (pc : Nat) (s : GameState) : Prop :=
  ∃ s0, InitialState pc s0 ∧ Relation.ReflTransGen Step s0 s

def ReachableND (pc : Nat) (s : GameState) : Prop :=
  ∃ s0, InitialState pc s0 ∧ Relation.ReflTransGen StepND s0 s

/-- The active-enemy slot counts only while the enemy is unresolved: once
the castle is exhausted (`victory`) `currentEnemy` is a stale pointer to
the already-resolved final enemy. -/
def enemySlot (s : GameState) : List Card :=
  if s.phase = .victory then [] else s.currentEnemy.toList

/-- All cards in play: tavern, castle, discard, hands, and the unresolved
active enemy.  (`discardedSoFar` is excluded: the source pushes each
absorbed card onto both `discard` and `discardedSoFar`.) -/
def presentCards (s : GameState) : List Card :=
  s.tavern ++ s.castle ++ s.discard ++ s.hands.flatten ++ enemySlot s

/-- The multiset of card ids in play plus the overkill-removed enemies. -/
def trackedIds (s : GameState) : Multiset String :=
  (((presentCards s ++ s.removed).map (fun c => c.id) : List String) : Multiset String)

/-- The ids of the full initial deck plus the 12 enemy cards. -/
def initialIds (pc : Nat) : Multiset String :=
  ((((createDeck pc ++ enemyCards).map (fun c => c.id)) : List String) : Multiset String)

/-- Every list a step can move a card out of (used for the monotonicity
lemma: no step introduces a card that was not already somewhere). -/
def fullCards (s : GameState) : List Card :=
  s.tavern ++ s.castle ++ s.discard ++ s.hands.flatten ++
    s.currentEnemy.toList ++ s.discardedSoFar

/-- The per-card count of the conservation multiset: tavern, castle,
discard, hands, the unresolved enemy slot, and the overkill-removed
enemies. -/
def trackedCount (s : GameState) (x : Card) : Nat :=
  s.tavern.count x + s.castle.count x + s.discard.count x +
    s.hands.flatten.count x + (enemySlot s).count x + s.removed.count x

/-- Structural well-formedness: a positive player count, one hand slot per
player, an in-range current player, and a non-null active-enemy pointer.
Established by `reset` and preserved by every engine call. -/
def WF (s : GameState) : Prop :=
  0 < s.playerCount ∧ s.hands.length = s.playerCount ∧
    s.currentPlayer < s.playerCount ∧ s.currentEnemy.isSome = true

/-- The state assembled by `reset` just before the first `revealEnemy` call. -/
def preRevealState (pc : Nat) (tav cas : List Card) : GameState :=
  { playerCount := pc, tavern := (dealHands pc (handSizeFor pc) tav).2,
    castle := cas, discard := [],
    hands := (dealHands pc (handSizeFor pc) tav).1, currentPlayer := 0,
    phase := .play, currentEnemy := none, currentEnemyHP := 0,
    currentEnemyMaxHP := 0, currentEnemyAttack := 0, shieldAmount := 0,
    log := [], discardNeeded := 0, discardedSoFar := [], enemiesDefeated := 0,
    yieldUsed := false, jokersAvailable := if pc = 1 then 2 else 0,
    jokersUsed := 0, removed := [] }

/-- 2-player fresh game with the identity shuffle (a legal shuffle outcome). -/
def s0two : GameState := resetState 2 (createDeck 2) enemyCards

/-- 4-player fresh game with the identity shuffle. -/
def s0four : GameState := resetState 4 (createDeck 4) enemyCards

/-- Player 0 yields without discarding: the Jack attacks for 10. -/
def yState : GameState := (yieldTurn s0two 0 none).2

/-- Player 0 absorbs the attack with the 10 of spades. -/
def dState : GameState := (discardCards yState 0 ["10_spades"]).2

/-- Player 1 plays the ace of spades with its id listed twice: the ace is
removed from the hand once but pushed onto the discard pile twice. -/
def dupState : GameState := (playCards dState 1 ["A_spades", "A_spades"]).2

def aceSpades : Card := ⟨.spades, .A, "A_spades"⟩

def jackHearts : Card := ⟨.hearts, .J, "J_hearts"⟩

/-- A 2-player play-phase position: fresh Jack of hearts, player 0 holding
the ace of spades and one more card. -/
def sC1 : GameState :=
  { playerCount := 2, tavern := [⟨.clubs, .n6, "6_clubs"⟩],
    castle := [⟨.diamonds, .J, "J_diamonds"⟩], discard := [],
    hands := [[aceSpades, ⟨.hearts, .n2, "2_hearts"⟩], [⟨.hearts, .n3, "3_hearts"⟩]],
    currentPlayer := 0, phase := .play, currentEnemy := some jackHearts,
    currentEnemyHP := 20, currentEnemyMaxHP := 20, currentEnemyAttack := 10,
    shieldAmount := 0, log := [], discardNeeded := 0, discardedSoFar := [],
    enemiesDefeated := 0, yieldUsed := false, jokersAvailable := 0,
    jokersUsed := 0, removed := [] }

def fullHand7 : List Card :=
  [⟨.hearts, .n2, "2_hearts"⟩, ⟨.hearts, .n3, "3_hearts"⟩, ⟨.hearts, .n4, "4_hearts"⟩,
   ⟨.hearts, .n5, "5_hearts"⟩, ⟨.hearts, .n6, "6_hearts"⟩, ⟨.hearts, .n7, "7_hearts"⟩,
   ⟨.hearts, .n8, "8_hearts"⟩]

/-- A 2-player position where player 1 already holds the maximum 7 cards:
a diamonds play by player 0 will skip player 1's round-robin slot. -/
def sC5 : GameState :=
  { playerCount := 2,
    tavern := [⟨.clubs, .n3, "3_clubs"⟩, ⟨.clubs, .n4, "4_clubs"⟩, ⟨.clubs, .n5, "5_clubs"⟩],
    castle := [⟨.diamonds, .J, "J_diamonds"⟩], discard := [],
    hands := [[⟨.diamonds, .n2, "2_diamonds"⟩], fullHand7],
    currentPlayer := 0, phase := .play, currentEnemy := some jackHearts,
    currentEnemyHP := 20, currentEnemyMaxHP := 20, currentEnemyAttack := 10,
    shieldAmount := 0, log := [], discardNeeded := 0, discardedSoFar := [],
    enemiesDefeated := 0, yieldUsed := false, jokersAvailable := 0,
    jokersUsed := 0, removed := [] }

/-- A 2-player position with the Jack of hearts at 1 HP: a single ace is an
exact kill. -/
def sC6 : GameState :=
  { playerCount := 2, tavern := [⟨.clubs, .n6, "6_clubs"⟩],
    castle := [⟨.diamonds, .Q, "Q_diamonds"⟩], discard := [],
    hands := [[aceSpades, ⟨.hearts, .n2, "2_hearts"⟩], [⟨.hearts, .n3, "3_hearts"⟩]],
    currentPlayer := 0, phase := .play, currentEnemy := some jackHearts,
    currentEnemyHP := 1, currentEnemyMaxHP := 20, currentEnemyAttack := 10,
    shieldAmount := 0, log := [], discardNeeded := 0, discardedSoFar := [],
    enemiesDefeated := 0, yieldUsed := false, jokersAvailable := 0,
    jokersUsed := 0, removed := [] }

def fourThrees : List Card :=
  [⟨.hearts, .n3, "3_hearts"⟩, ⟨.diamonds, .n3, "3_diamonds"⟩,
   ⟨.clubs, .n3, "3_clubs"⟩, ⟨.spades, .n3, "3_spades"⟩]

def fourTwos : List Card :=
  [⟨.hearts, .n2, "2_hearts"⟩, ⟨.diamonds, .n2, "2_diamonds"⟩,
   ⟨.clubs, .n2, "2_clubs"⟩, ⟨.spades, .n2, "2_spades"⟩]

def twoJokers : List Card :=
  [⟨.joker, .Joker, "Joker_1"⟩, ⟨.joker, .Joker, "Joker_2"⟩]

/-- CLAIM C2 counterexample: `isValidCombo` rejects one ace plus one King
(the face-card check precedes the animal-companion check), so the claimed
acceptance fails on this concrete pair. -/
theorem C2_counterexample :
    isValidCombo [⟨.spades, .A, "A_spades"⟩, ⟨.hearts, .K, "K_hearts"⟩] = false := by
  decide

/-- CLAIM C2 (amended): for every ace card and every King card,
`isValidCombo` of the pair returns false (face cards cannot be played from
hand), and two aces plus a King plus a Queen are likewise rejected. -/
theorem C2_amended :
    (∀ a k : Card, a.rank = .A → k.rank = .K → isValidCombo [a, k] = false) ∧
    (∀ a1 a2 k q : Card, a1.rank = .A → a2.rank = .A → k.rank = .K → q.rank = .Q →
      isValidCombo [a1, a2, k, q] = false) := by
  constructor
  · intro a k ha hk
    simp [isValidCombo, ha, hk, FACE_RANKS]
  · intro a1 a2 k q h1 h2 hk hq
    simp [isValidCombo, h1, h2, hk, hq, FACE_RANKS]

/-- CLAIM C2 witness: the amended statement instantiated at the ace of
spades with the King of hearts (and at a concrete 2-ace/King/Queen set). -/
theorem C2_amended_witness :
    isValidCombo [(⟨.spades, .A, "A_spades"⟩ : Card), ⟨.hearts, .K, "K_hearts"⟩] = false ∧
    isValidCombo [(⟨.spades, .A, "A_spades"⟩ : Card), ⟨.hearts, .A, "A_hearts"⟩,
      ⟨.hearts, .K, "K_hearts"⟩, ⟨.clubs, .Q, "Q_clubs"⟩] = false :=
  ⟨C2_amended.1 ⟨.spades, .A, "A_spades"⟩ ⟨.hearts, .K, "K_hearts"⟩ rfl rfl,
   C2_amended.2 ⟨.spades, .A, "A_spades"⟩ ⟨.hearts, .A, "A_hearts"⟩
     ⟨.hearts, .K, "K_hearts"⟩ ⟨.clubs, .Q, "Q_clubs"⟩ rfl rfl rfl rfl⟩

/-- CLAIM C8 counterexample: the set of the two Jokers contains no ace,
all its cards share the non-face rank Joker, has count 2 ≤ 4 and value
sum 0 ≤ 10, yet `isValidCombo` rejects it (the Joker check fires first),
so the claimed equivalence fails. -/
theorem C8_counterexample :
    isValidCombo twoJokers = false ∧
    2 ≤ twoJokers.length ∧ (∀ c ∈ twoJokers, ¬ c.rank = Rank.A) ∧
    (∃ r, FACE_RANKS.contains r = false ∧ ∀ c ∈ twoJokers, c.rank = r) ∧
    twoJokers.length ≤ 4 ∧ (twoJokers.map cardValue).sum ≤ 10 := by
  refine ⟨by decide, by decide, by decide, ⟨Rank.Joker, by decide, by decide⟩, by decide, by decide⟩

/-- CLAIM C8 (amended): for every set of two or more cards containing no
ace and no Joker, `isValidCombo` accepts it iff all cards share one
non-face rank, the count is at most 4, and the summed values are at most
10; in particular four 3s (sum 12) are rejected and four 2s (sum 8)
accepted. -/
theorem C8_amended :
    (∀ cards : List Card, 2 ≤ cards.length →
      (∀ c ∈ cards, ¬ c.rank = Rank.A) → (∀ c ∈ cards, ¬ c.rank = Rank.Joker) →
      (isValidCombo cards = true ↔
        ((∃ r, FACE_RANKS.contains r = false ∧ ∀ c ∈ cards, c.rank = r) ∧
         cards.length ≤ 4 ∧ (cards.map cardValue).sum ≤ 10))) ∧
    isValidCombo fourThrees = false ∧ isValidCombo fourTwos = true := by
  refine ⟨?_, by decide, by decide⟩
  intro cards h2 hA hJ
  have hlen0 : ¬ cards.length = 0 := by omega
  have hlen1 : ¬ cards.length = 1 := by omega
  have hJany : cards.any (fun c => c.rank = Rank.Joker) = false := by
    simp only [List.any_eq_false, decide_eq_true_eq]
    exact hJ
  have hfilA : cards.filter (fun c => c.rank = Rank.A) = [] := by
    apply List.filter_eq_nil_iff.mpr
    intro c hc
    simpa using hA c hc
  have hfilNA : cards.filter (fun c => ¬ c.rank = Rank.A) = cards := by
    apply List.filter_eq_self.mpr
    intro c hc
    simpa using hA c hc
  rw [isValidCombo]
  simp only [hJany, hfilA, hfilNA, hlen0, hlen1, if_false, Bool.false_eq_true,
    if_neg hlen0, if_neg hlen1]
  by_cases hface : cards.any (fun c => FACE_RANKS.contains c.rank) = true
  · rw [if_pos hface]
    simp only [Bool.false_eq_true, false_iff]
    rintro ⟨⟨r, hrf, hall⟩, -, -⟩
    obtain ⟨c, hc, hcf⟩ := List.any_eq_true.mp hface
    rw [hall c hc] at hcf
    rw [hrf] at hcf
    exact absurd hcf (by simp)
  · rw [if_neg hface]
    rcases cards with _ | ⟨c0, rest⟩
    · simp at h2
    · have hne0 : ¬ (c0 :: rest).length = 0 := hlen0
      simp only [List.length_cons, if_neg (by omega : ¬ rest.length + 1 = 0)]
      rw [if_neg (by simp), if_pos (show ([] : List Card).length = 0 from rfl)]
      have hface2 : ((c0 :: rest).any fun c => FACE_RANKS.contains c.rank) = false := by
        cases hb : (c0 :: rest).any fun c => FACE_RANKS.contains c.rank
        · rfl
        · exact absurd hb hface
      have hc0face : FACE_RANKS.contains c0.rank = false := by
        have h3 := List.any_eq_false.mp hface2 c0 (by simp)
        simp only [Bool.not_eq_true] at h3
        exact h3
      by_cases hall : ((c0 :: rest).all fun c => c.rank = c0.rank) = true
      · rw [if_neg (by simp [hall]),
            if_neg (show ¬ FACE_RANKS.contains c0.rank = true by
              simp only [hc0face]; decide)]
        constructor
        · intro h
          refine ⟨⟨c0.rank, hc0face, ?_⟩, ?_, ?_⟩
          · intro c hc
            have hcc := List.all_eq_true.mp hall c hc
            simpa using hcc
          · by_contra hgt
            rw [if_pos (by omega : rest.length + 1 > 4)] at h
            simp at h
          · have h4 : ¬ rest.length + 1 > 4 := by
              by_contra hgt
              rw [if_pos hgt] at h
              simp at h
            rw [if_neg h4] at h
            simpa using h
        · rintro ⟨-, hle4, hsum⟩
          rw [if_neg (by omega : ¬ rest.length + 1 > 4)]
          simpa using hsum
      · rw [if_pos (by simpa using hall)]
        simp only [Bool.false_eq_true, false_iff]
        rintro ⟨⟨r, -, hallr⟩, -, -⟩
        apply hall
        apply List.all_eq_true.mpr
        intro c hc
        have hr1 := hallr c hc
        have hr0 := hallr c0 (by simp)
        simp [hr1, hr0]

/-- CLAIM C8 witness: the amended equivalence instantiated at a concrete
pair of 2s (all hypotheses discharged), giving acceptance. -/
theorem C8_amended_witness :
    isValidCombo [(⟨.hearts, .n2, "2_hearts"⟩ : Card), ⟨.clubs, .n2, "2_clubs"⟩] = true :=
  (C8_amended.1 [⟨.hearts, .n2, "2_hearts"⟩, ⟨.clubs, .n2, "2_clubs"⟩]
    (by decide) (by decide) (by decide)).mpr
    ⟨⟨Rank.n2, by decide, by decide⟩, by decide, by decide⟩

theorem insertByAsc_perm (c : Card) (l : List Card) :
    (insertByAsc c l).Perm (c :: l) := by
  induction l with
  | nil => simp [insertByAsc]
  | cons d rest ih =>
    rw [insertByAsc]
    split
    · exact ((ih.cons d).trans (List.Perm.swap c d rest)).symm.symm
    · exact List.Perm.refl _

theorem sortByValueAsc_perm (l : List Card) : (sortByValueAsc l).Perm l := by
  induction l with
  | nil => simp [sortByValueAsc]
  | cons c rest ih =>
    exact (insertByAsc_perm c (sortByValueAsc rest)).trans (ih.cons c)

theorem insertByAsc_pairwise (c : Card) (l : List Card)
    (h : l.Pairwise (fun a b => cardValue a ≤ cardValue b)) :
    (insertByAsc c l).Pairwise (fun a b => cardValue a ≤ cardValue b) := by
  induction l with
  | nil => simp [insertByAsc]
  | cons d rest ih =>
    rw [insertByAsc]
    split
    · rename_i hdc
      rw [List.pairwise_cons] at h
      refine List.pairwise_cons.mpr ⟨?_, ih h.2⟩
      intro x hx
      have hx2 := (insertByAsc_perm c rest).mem_iff.mp hx
      rcases List.mem_cons.mp hx2 with hx3 | hx3
      · subst hx3; omega
      · exact h.1 x hx3
    · rename_i hdc
      refine List.pairwise_cons.mpr ⟨?_, h⟩
      intro x hx
      rcases List.mem_cons.mp hx with hx3 | hx3
      · subst hx3; omega
      · rw [List.pairwise_cons] at h
        have := h.1 x hx3
        omega

theorem sortByValueAsc_pairwise (l : List Card) :
    (sortByValueAsc l).Pairwise (fun a b => cardValue a ≤ cardValue b) := by
  induction l with
  | nil => simp [sortByValueAsc]
  | cons c rest ih => exact insertByAsc_pairwise c _ ih

theorem insertByDesc_perm (c : Card) (l : List Card) :
    (insertByDesc c l).Perm (c :: l) := by
  induction l with
  | nil => simp [insertByDesc]
  | cons d rest ih =>
    rw [insertByDesc]
    split
    · exact ((ih.cons d).trans (List.Perm.swap c d rest)).symm.symm
    · exact List.Perm.refl _

theorem sortByValueDesc_perm (l : List Card) : (sortByValueDesc l).Perm l := by
  induction l with
  | nil => simp [sortByValueDesc]
  | cons c rest ih =>
    exact (insertByDesc_perm c (sortByValueDesc rest)).trans (ih.cons c)

theorem insertByDesc_pairwise (c : Card) (l : List Card)
    (h : l.Pairwise (fun a b => cardValue b ≤ cardValue a)) :
    (insertByDesc c l).Pairwise (fun a b => cardValue b ≤ cardValue a) := by
  induction l with
  | nil => simp [insertByDesc]
  | cons d rest ih =>
    rw [insertByDesc]
    split
    · rename_i hdc
      rw [List.pairwise_cons] at h
      refine List.pairwise_cons.mpr ⟨?_, ih h.2⟩
      intro x hx
      have hx2 := (insertByDesc_perm c rest).mem_iff.mp hx
      rcases List.mem_cons.mp hx2 with hx3 | hx3
      · subst hx3; omega
      · exact h.1 x hx3
    · rename_i hdc
      refine List.pairwise_cons.mpr ⟨?_, h⟩
      intro x hx
      rcases List.mem_cons.mp hx with hx3 | hx3
      · subst hx3; omega
      · rw [List.pairwise_cons] at h
        have := h.1 x hx3
        omega

theorem sortByValueDesc_pairwise (l : List Card) :
    (sortByValueDesc l).Pairwise (fun a b => cardValue b ≤ cardValue a) := by
  induction l with
  | nil => simp [sortByValueDesc]
  | cons c rest ih => exact insertByDesc_pairwise c _ ih

theorem greedyTake_prefix (l : List Card) (needed : Nat) :
    ∃ rest, l = greedyTake l needed ++ rest := by
  induction l generalizing needed with
  | nil => exact ⟨[], rfl⟩
  | cons c t ih =>
    rw [greedyTake]
    split
    · exact ⟨t, rfl⟩
    · obtain ⟨rest, hr⟩ := ih (needed - cardValue c)
      exact ⟨rest, by simpa using congrArg (List.cons c) hr⟩

theorem greedyTake_sum (l : List Card) (needed : Nat)
    (h : needed ≤ (l.map cardValue).sum) :
    needed ≤ ((greedyTake l needed).map cardValue).sum := by
  induction l generalizing needed with
  | nil => simpa [greedyTake] using h
  | cons c t ih =>
    rw [greedyTake]
    split
    · simpa using (by assumption : cardValue c ≥ needed)
    · rename_i hlt
      have h2 : needed - cardValue c ≤ (t.map cardValue).sum := by
        simp only [List.map_cons, List.sum_cons] at h
        omega
      have := ih (needed - cardValue c) h2
      simp only [List.map_cons, List.sum_cons]
      omega

theorem greedyTake_minimal (l : List Card) (needed : Nat) (hpos : 0 < needed)
    (hne : greedyTake l needed ≠ []) :
    ∃ r0 c, greedyTake l needed = r0 ++ [c] ∧ (r0.map cardValue).sum < needed := by
  induction l generalizing needed with
  | nil => simp [greedyTake] at hne
  | cons c t ih =>
    rw [greedyTake] at hne ⊢
    split
    · exact ⟨[], c, rfl, by simpa using hpos⟩
    · rename_i hlt
      have hvc : cardValue c < needed := by omega
      by_cases ht : greedyTake t (needed - cardValue c) = []
      · rw [ht]
        exact ⟨[], c, rfl, by simpa using hpos⟩
      · obtain ⟨r0, cl, hr, hsum⟩ := ih (needed - cardValue c) (by omega) ht
        refine ⟨c :: r0, cl, by rw [hr]; rfl, ?_⟩
        simp only [List.map_cons, List.sum_cons]
        omega

/-- CLAIM C9: for every hand and positive remaining requirement,
`findOptimalDiscard` returns (a) the single card with the least value among
those alone meeting the requirement, when one exists; else (b) a greedy
highest-value selection: a block of top-valued cards whose total meets the
requirement and whose total without its last-added card does not; else
(c) the entire hand. -/
theorem C9_findOptimalDiscard_spec (hand : List Card) (needed : Nat)
    (hpos : 0 < needed) :
    ((∃ c ∈ hand, needed ≤ cardValue c) →
      ∃ c, findOptimalDiscard hand needed = [c] ∧ c ∈ hand ∧ needed ≤ cardValue c ∧
        ∀ d ∈ hand, needed ≤ cardValue d → cardValue c ≤ cardValue d) ∧
    ((∀ c ∈ hand, cardValue c < needed) → needed ≤ (hand.map cardValue).sum →
      (∃ rest, ((findOptimalDiscard hand needed) ++ rest).Perm hand ∧
        (∀ a ∈ findOptimalDiscard hand needed, ∀ b ∈ rest, cardValue b ≤ cardValue a)) ∧
      needed ≤ ((findOptimalDiscard hand needed).map cardValue).sum ∧
      (∃ r0 c, findOptimalDiscard hand needed = r0 ++ [c] ∧
        (r0.map cardValue).sum < needed)) ∧
    ((hand.map cardValue).sum < needed → findOptimalDiscard hand needed = hand) := by
  refine ⟨?_, ?_, ?_⟩
  · intro ⟨c, hc, hcv⟩
    have hmem : c ∈ hand.filter (fun c => cardValue c ≥ needed) :=
      List.mem_filter.mpr ⟨hc, by simpa using hcv⟩
    have hlen : 0 < (hand.filter (fun c => cardValue c ≥ needed)).length :=
      List.length_pos.mpr (List.ne_nil_of_mem hmem)
    rw [findOptimalDiscard]
    rw [if_pos hlen]
    set singles := hand.filter (fun c => cardValue c ≥ needed) with hs
    have hperm := sortByValueAsc_perm singles
    have hsorted := sortByValueAsc_pairwise singles
    rcases hhead : sortByValueAsc singles with _ | ⟨c1, tl⟩
    · rw [hhead] at hperm
      have h0 : singles = [] := hperm.symm.eq_nil
      rw [h0] at hmem
      simp at hmem
    · have hc1mem : c1 ∈ singles := hperm.mem_iff.mp (by rw [hhead]; simp)
      have hc1f := List.mem_filter.mp hc1mem
      refine ⟨c1, rfl, hc1f.1, by simpa using hc1f.2, ?_⟩
      intro d hd hdv
      have hdmem : d ∈ singles := List.mem_filter.mpr ⟨hd, by simpa using hdv⟩
      have hdsort : d ∈ sortByValueAsc singles := hperm.mem_iff.mpr hdmem
      rw [hhead] at hdsort
      rcases List.mem_cons.mp hdsort with h1 | h1
      · subst h1; exact le_refl _
      · rw [hhead] at hsorted
        exact (List.pairwise_cons.mp hsorted).1 d h1
  · intro hall hsum
    have hfil : hand.filter (fun c => cardValue c ≥ needed) = [] := by
      apply List.filter_eq_nil_iff.mpr
      intro c hc
      have := hall c hc
      simp
      omega
    rw [findOptimalDiscard, hfil]
    simp only [List.length_nil, lt_irrefl, if_false]
    have hsum2 : needed ≤ ((sortByValueDesc hand).map cardValue).sum := by
      have := (sortByValueDesc_perm hand).map cardValue
      rw [this.sum_eq]
      exact hsum
    have hg := greedyTake_sum (sortByValueDesc hand) needed hsum2
    rw [if_pos hg]
    obtain ⟨rest, hrest⟩ := greedyTake_prefix (sortByValueDesc hand) needed
    refine ⟨⟨rest, ?_, ?_⟩, hg, ?_⟩
    · rw [← hrest]
      exact sortByValueDesc_perm hand
    · intro a ha b hb
      have hp := sortByValueDesc_pairwise hand
      rw [hrest] at hp
      have := List.pairwise_append.mp hp
      exact this.2.2 a ha b hb
    · apply greedyTake_minimal _ _ hpos
      intro hnil
      rw [hnil] at hg
      simp at hg
      omega
  · intro hlt
    have hfil : hand.filter (fun c => cardValue c ≥ needed) = [] := by
      apply List.filter_eq_nil_iff.mpr
      intro c hc
      have h1 : cardValue c ≤ (hand.map cardValue).sum :=
        List.single_le_sum (by simp) _ (List.mem_map_of_mem cardValue hc)
      simp
      omega
    rw [findOptimalDiscard, hfil]
    simp only [List.length_nil, lt_irrefl, if_false]
    rw [if_neg ?hneg]
    case hneg =>
      obtain ⟨rest, hrest⟩ := greedyTake_prefix (sortByValueDesc hand) needed
      have hpm := (sortByValueDesc_perm hand).map cardValue
      have heq : (List.map cardValue (sortByValueDesc hand)).sum =
          (List.map cardValue hand).sum := hpm.sum_eq
      have hsplit : (List.map cardValue (sortByValueDesc hand)).sum =
          (List.map cardValue (greedyTake (sortByValueDesc hand) needed)).sum +
            (List.map cardValue rest).sum := by
        conv_lhs => rw [hrest]
        simp
      omega

/-- CLAIM C9 witness: the specification applied to a concrete hand for each
of the three cases. -/
theorem C9_findOptimalDiscard_witness :
    findOptimalDiscard [⟨.hearts, .n2, "2_hearts"⟩, ⟨.clubs, .n9, "9_clubs"⟩] 5 =
      [⟨.clubs, .n9, "9_clubs"⟩] ∧
    findOptimalDiscard [⟨.hearts, .n2, "2_hearts"⟩, ⟨.clubs, .n4, "4_clubs"⟩,
      ⟨.spades, .n3, "3_spades"⟩] 6 ≠ [] ∧
    findOptimalDiscard [⟨.hearts, .n2, "2_hearts"⟩] 5 = [⟨.hearts, .n2, "2_hearts"⟩] := by
  have h1 := (C9_findOptimalDiscard_spec
    [⟨.hearts, .n2, "2_hearts"⟩, ⟨.clubs, .n9, "9_clubs"⟩] 5 (by decide)).1
    ⟨⟨.clubs, .n9, "9_clubs"⟩, by decide, by decide⟩
  have h2 := ((C9_findOptimalDiscard_spec
    [⟨.hearts, .n2, "2_hearts"⟩, ⟨.clubs, .n4, "4_clubs"⟩,
      ⟨.spades, .n3, "3_spades"⟩] 6 (by decide)).2.1
    (by decide) (by decide)).2.2
  have h3 := (C9_findOptimalDiscard_spec
    [⟨.hearts, .n2, "2_hearts"⟩] 5 (by decide)).2.2 (by decide)
  refine ⟨?_, ?_, h3⟩
  · obtain ⟨c, hc, hmem, hv, -⟩ := h1
    rcases List.mem_cons.mp hmem with h | h
    · rw [h] at hv
      exact absurd hv (by decide)
    · rw [hc]
      rcases List.mem_cons.mp h with h9 | h9
      · rw [h9]
      · exact absurd h9 (by simp)
  · obtain ⟨r0, c, hr, -⟩ := h2
    rw [hr]
    simp

theorem allEmpty_cond (hands : List (List Card)) (cur : Nat) (tavern : List Card)
    (hcur : cur < hands.length) :
    ((hands.getD cur []).length = 0 ∧ ¬ (hands.any fun h => h.length > 0) = true ∧
      tavern.length = 0) ↔ ((∀ h ∈ hands, h = []) ∧ tavern = []) := by
  constructor
  · rintro ⟨h1, h2, h3⟩
    refine ⟨?_, by simpa [List.length_eq_zero] using h3⟩
    intro h hh
    have h4 : (hands.any fun h => h.length > 0) = false := by
      cases hb : hands.any fun h => h.length > 0
      · rfl
      · exact absurd hb h2
    have := List.any_eq_false.mp h4 h hh
    simpa [List.length_eq_zero] using this
  · rintro ⟨h1, h2⟩
    refine ⟨?_, ?_, by simp [h2]⟩
    · have hmem : hands.getD cur [] ∈ hands := by
        rw [List.getD_eq_getElem hands [] hcur]
        exact List.getElem_mem hcur
      rw [h1 _ hmem]
      rfl
    · simp only [Bool.not_eq_true, List.any_eq_false]
      intro h hh
      simp [h1 h hh]

set_option maxHeartbeats 1600000 in
/-- CLAIM C7: for a play-phase state, the post-card-removal attack
resolution of `yieldTurn` agrees with the surviving-enemy resolution of
`playCards` on phase, discard bookkeeping and turn order: both use
effective attack `max(0, attack - shield)`; when it is positive both enter
the discard phase with `discardNeeded` set and `discardedSoFar` cleared,
declaring gameover exactly when every hand and the tavern are empty; when
it is zero both pass the turn and stay in the play phase. -/
theorem C7_yield_play_resolution_equiv (s : GameState) (hphase : s.phase = .play)
    (hcur : s.currentPlayer < s.hands.length) :
    ((attackResolutionPlay s []).2.phase = (yieldAttackResolution s).2.phase ∧
     (attackResolutionPlay s []).2.discardNeeded = (yieldAttackResolution s).2.discardNeeded ∧
     (attackResolutionPlay s []).2.discardedSoFar = (yieldAttackResolution s).2.discardedSoFar ∧
     (attackResolutionPlay s []).2.currentPlayer = (yieldAttackResolution s).2.currentPlayer) ∧
    (0 < s.currentEnemyAttack - s.shieldAmount →
      (yieldAttackResolution s).2.discardNeeded = s.currentEnemyAttack - s.shieldAmount ∧
      (yieldAttackResolution s).2.discardedSoFar = [] ∧
      ((yieldAttackResolution s).2.phase = .gameover ↔
        (∀ h ∈ s.hands, h = []) ∧ s.tavern = []) ∧
      (¬ ((∀ h ∈ s.hands, h = []) ∧ s.tavern = []) →
        (yieldAttackResolution s).2.phase = .discard)) ∧
    (s.currentEnemyAttack - s.shieldAmount = 0 →
      (yieldAttackResolution s).2.currentPlayer = (s.currentPlayer + 1) % s.playerCount ∧
      (yieldAttackResolution s).2.phase = .play) := by
  have hiff := allEmpty_cond s.hands s.currentPlayer s.tavern hcur
  simp only [List.getD_eq_getElem?_getD] at hiff
  refine ⟨?_, ?_, ?_⟩
  · by_cases heff : 0 < s.currentEnemyAttack - s.shieldAmount
    · by_cases hemp : (s.hands[s.currentPlayer]?.getD []).length = 0
      · by_cases hA : ∀ h ∈ s.hands, h = []
        · by_cases hT : s.tavern = []
          · refine ⟨?_, ?_, ?_, ?_⟩ <;>
              simp [attackResolutionPlay, yieldAttackResolution, getHand, heff, hemp,
                eq_true hA, hT]
          · refine ⟨?_, ?_, ?_, ?_⟩ <;>
              simp [attackResolutionPlay, yieldAttackResolution, getHand, heff, hemp,
                eq_true hA, hT]
        · refine ⟨?_, ?_, ?_, ?_⟩ <;>
            simp [attackResolutionPlay, yieldAttackResolution, getHand, heff, hemp,
              eq_false hA]
      · refine ⟨?_, ?_, ?_, ?_⟩ <;>
          simp [attackResolutionPlay, yieldAttackResolution, getHand, heff, hemp, apply_ite]
    · refine ⟨?_, ?_, ?_, ?_⟩ <;>
        simp [attackResolutionPlay, yieldAttackResolution, getHand, heff]
  · intro heff
    by_cases hemp : (s.hands[s.currentPlayer]?.getD []).length = 0
    · by_cases hA : ∀ h ∈ s.hands, h = []
      · by_cases hT : s.tavern = []
        · have hres : (yieldAttackResolution s).2.phase = Phase.gameover ∧
              (yieldAttackResolution s).2.discardNeeded =
                s.currentEnemyAttack - s.shieldAmount ∧
              (yieldAttackResolution s).2.discardedSoFar = [] := by
            simp [yieldAttackResolution, getHand, heff, hemp, eq_true hA, hT]
          refine ⟨hres.2.1, hres.2.2, ?_, ?_⟩
          · rw [hres.1]
            simp only [true_iff]
            exact ⟨hA, hT⟩
          · intro hno
            exact absurd ⟨hA, hT⟩ hno
        · have hres : (yieldAttackResolution s).2.phase = Phase.discard ∧
              (yieldAttackResolution s).2.discardNeeded =
                s.currentEnemyAttack - s.shieldAmount ∧
              (yieldAttackResolution s).2.discardedSoFar = [] := by
            simp [yieldAttackResolution, getHand, heff, hemp, eq_true hA, hT]
          refine ⟨hres.2.1, hres.2.2, ?_, fun _ => hres.1⟩
          rw [hres.1]
          constructor
          · intro h
            exact absurd h (by simp)
          · intro h
            exact absurd h.2 hT
      · have hres : (yieldAttackResolution s).2.phase = Phase.discard ∧
            (yieldAttackResolution s).2.discardNeeded =
              s.currentEnemyAttack - s.shieldAmount ∧
            (yieldAttackResolution s).2.discardedSoFar = [] := by
          simp [yieldAttackResolution, getHand, heff, hemp, eq_false hA]
        refine ⟨hres.2.1, hres.2.2, ?_, fun _ => hres.1⟩
        rw [hres.1]
        constructor
        · intro h
          exact absurd h (by simp)
        · intro h
          exact absurd h.1 hA
    · have hres : (yieldAttackResolution s).2.phase = Phase.discard ∧
          (yieldAttackResolution s).2.discardNeeded =
            s.currentEnemyAttack - s.shieldAmount ∧
          (yieldAttackResolution s).2.discardedSoFar = [] := by
        simp [yieldAttackResolution, getHand, heff, hemp]
      refine ⟨hres.2.1, hres.2.2, ?_, fun _ => hres.1⟩
      rw [hres.1]
      constructor
      · intro h
        exact absurd h (by simp)
      · intro h
        exact absurd (hiff.mpr h).1 hemp
  · intro h0
    have hres : (yieldAttackResolution s).2.currentPlayer =
        (s.currentPlayer + 1) % s.playerCount ∧
        (yieldAttackResolution s).2.phase = s.phase := by
      simp [yieldAttackResolution, h0]
    exact ⟨hres.1, hres.2.trans hphase⟩

set_option maxHeartbeats 1600000 in
/-- CLAIM C7 witness: the equivalence instantiated at the concrete fresh
2-player game `s0two` (in the play phase with two dealt hands). -/
theorem C7_yield_play_resolution_witness :
    (attackResolutionPlay s0two []).2.phase = (yieldAttackResolution s0two).2.phase ∧
    (yieldAttackResolution s0two).2.discardNeeded = 10 := by
  have h := C7_yield_play_resolution_equiv s0two (by decide)
    (by show 0 < s0two.hands.length; decide)
  refine ⟨h.1.1, ?_⟩
  have h2 := (h.2.1 (by show 0 < s0two.currentEnemyAttack - s0two.shieldAmount; decide)).1
  rw [h2]
  decide

set_option maxHeartbeats 1600000 in
theorem attackResolutionPlay_discard_case (s : GameState) (events : List GEvent)
    (heff : 0 < s.currentEnemyAttack - s.shieldAmount)
    (hnemp : ¬ (s.hands[s.currentPlayer]?.getD []).length = 0) :
    (attackResolutionPlay s events).1.success = true ∧
    (attackResolutionPlay s events).1.events =
      events ++ [GEvent.enemyAttack (s.currentEnemyAttack - s.shieldAmount)] ∧
    (attackResolutionPlay s events).2.phase = Phase.discard ∧
    (attackResolutionPlay s events).2.discardNeeded =
      s.currentEnemyAttack - s.shieldAmount ∧
    (attackResolutionPlay s events).2.discardedSoFar = [] ∧
    (attackResolutionPlay s events).2.shieldAmount = s.shieldAmount ∧
    (attackResolutionPlay s events).2.currentEnemyHP = s.currentEnemyHP ∧
    (attackResolutionPlay s events).2.currentEnemyAttack = s.currentEnemyAttack ∧
    (attackResolutionPlay s events).2.currentPlayer = s.currentPlayer ∧
    (attackResolutionPlay s events).2.hands = s.hands ∧
    (attackResolutionPlay s events).2.discard = s.discard := by
  refine ⟨?_, ?_, ?_, ?_, ?_, ?_, ?_, ?_, ?_, ?_, ?_⟩ <;>
    simp [attackResolutionPlay, getHand, heff, hnemp, apply_ite]

set_option maxHeartbeats 1600000 in
/-- CLAIM C1: in a 2-player play-phase state against a freshly revealed
Jack of hearts (HP 20, attack 10, shield 0), player 0 playing the single
ace of spades succeeds with no immunity event, raises the shield to 1,
leaves the enemy at 19 HP and effective attack 9, and enters the discard
phase with `discardNeeded = 9`. -/
theorem C1_scenario (s : GameState)
    (hphase : s.phase = .play) (hpc : s.playerCount = 2)
    (hcur : s.currentPlayer = 0) (hen : s.currentEnemy = some jackHearts)
    (hhp : s.currentEnemyHP = 20) (hatk : s.currentEnemyAttack = 10)
    (hsh : s.shieldAmount = 0)
    (hfind : (s.hands.getD 0 []).find? (fun c => c.id = "A_spades") = some aceSpades)
    (hlen : 1 < (s.hands.getD 0 []).length) :
    (playCards s 0 ["A_spades"]).1.success = true ∧
    (∀ e ∈ (playCards s 0 ["A_spades"]).1.events, e.isImmunity = false) ∧
    (playCards s 0 ["A_spades"]).2.shieldAmount = 1 ∧
    (playCards s 0 ["A_spades"]).2.currentEnemyHP = 19 ∧
    (playCards s 0 ["A_spades"]).2.currentEnemyAttack -
      (playCards s 0 ["A_spades"]).2.shieldAmount = 9 ∧
    (playCards s 0 ["A_spades"]).2.phase = .discard ∧
    (playCards s 0 ["A_spades"]).2.discardNeeded = 9 := by
  have hlen0 : 0 < s.hands.length := by
    by_contra h
    have h2 : s.hands = [] := by
      cases hh : s.hands
      · rfl
      · rw [hh] at h; simp at h
    rw [h2] at hlen
    simp at hlen
  simp only [List.getD_eq_getElem?_getD] at hfind hlen
  have hmem : aceSpades ∈ s.hands[0]?.getD [] := List.mem_of_find?_eq_some hfind
  have herase : 0 < ((s.hands[0]?.getD []).erase aceSpades).length := by
    rw [List.length_erase_of_mem hmem]
    omega
  have hsel : selectCards (s.hands[0]?.getD []) ["A_spades"] = [aceSpades] := by
    simp [selectCards, hfind]
  have hvalid : isValidCombo [aceSpades] = true := by decide
  have hred : playCards s 0 ["A_spades"] = playCardsGo s 0 [aceSpades] := by
    simp [playCards, hphase, hcur, getHand, hsel, hvalid]
  have happ : (applyPowers s 0 [aceSpades]).1.currentEnemyHP = 19 ∧
      (applyPowers s 0 [aceSpades]).1.shieldAmount = 1 ∧
      (applyPowers s 0 [aceSpades]).1.currentEnemyAttack = 10 ∧
      (applyPowers s 0 [aceSpades]).1.currentPlayer = s.currentPlayer ∧
      (applyPowers s 0 [aceSpades]).1.hands =
        s.hands.set 0 ((s.hands[0]?.getD []).erase aceSpades) ∧
      (applyPowers s 0 [aceSpades]).2 = [GEvent.damage 1, GEvent.spades 9] := by
    refine ⟨?_, ?_, ?_, ?_, ?_, ?_⟩ <;>
      simp [applyPowers, removalStage, clubsStage, damageStage, diamondsStage,
        spadesStage, heartsStage, getHand, setHand, removeCards, enemyOf,
        comboValue, comboSuits, cardValue, hen, hhp, hatk, hsh, aceSpades, jackHearts]
  obtain ⟨happ1, happ2, happ3, happ4, happ5, happ6⟩ := happ
  have hsurv : playCardsGo s 0 [aceSpades] =
      surviveFinish (applyPowers s 0 [aceSpades]).1 [aceSpades]
        (applyPowers s 0 [aceSpades]).2 := by
    rw [playCardsGo]
    rw [if_neg (by rw [happ1]; decide)]
  rw [hred, hsurv, surviveFinish]
  have hspec := attackResolutionPlay_discard_case
    { (applyPowers s 0 [aceSpades]).1 with
        discard := (applyPowers s 0 [aceSpades]).1.discard ++ [aceSpades] }
    (applyPowers s 0 [aceSpades]).2
    (by simp [happ2, happ3])
    (by
      rw [happ4, happ5, hcur]
      have hne : (s.hands[0]?.getD []).erase aceSpades ≠ [] :=
        List.length_pos.mp herase
      simp [List.getElem?_set, hlen0, hne, List.length_eq_zero]
      have hget : s.hands[0]?.getD [] = s.hands[0] := by
        simp [List.getElem?_eq_getElem hlen0]
      rw [hget] at hlen
      constructor
      · intro hx
        rw [hx] at hlen
        simp at hlen
      · intro hx
        rw [hx] at hlen
        simp at hlen)
  obtain ⟨hs1, hs2, hs3, hs4, hs5, hs6, hs7, hs8, hs9, hs10, hs11⟩ := hspec
  refine ⟨hs1, ?_, ?_, ?_, ?_, hs3, ?_⟩
  · rw [hs2, happ6]
    simp [happ2, happ3]
    decide
  · rw [hs6]
    simpa using happ2
  · rw [hs7]
    simpa using happ1
  · rw [hs8, hs6]
    simp [happ2, happ3]
  · rw [hs4]
    simp [happ2, happ3]

/-- CLAIM C1 witness: the scenario instantiated at the concrete state
`sC1`. -/
theorem C1_scenario_witness :
    (playCards sC1 0 ["A_spades"]).1.success = true ∧
    (playCards sC1 0 ["A_spades"]).2.shieldAmount = 1 ∧
    (playCards sC1 0 ["A_spades"]).2.currentEnemyHP = 19 ∧
    (playCards sC1 0 ["A_spades"]).2.phase = .discard ∧
    (playCards sC1 0 ["A_spades"]).2.discardNeeded = 9 := by
  have h := C1_scenario sC1 rfl rfl rfl rfl rfl rfl rfl (by decide) (by decide)
  exact ⟨h.1, h.2.2.1, h.2.2.2.1, h.2.2.2.2.2.1, h.2.2.2.2.2.2⟩

theorem selectCards_length_ne (hand : List Card) (ids : List String)
    (h : ∃ j ∈ ids, hand.find? (fun c => c.id = j) = none) :
    ¬ (selectCards hand ids).length = ids.length := by
  induction ids with
  | nil => simp at h
  | cons j0 rest ih =>
    obtain ⟨j, hj, hnone⟩ := h
    rw [selectCards, List.filterMap_cons]
    rcases List.mem_cons.mp hj with h0 | h0
    · subst h0
      rw [hnone]
      have := List.length_filterMap_le (fun i => hand.find? (fun c => c.id = i)) rest
      simp only [List.length_cons]
      omega
    · cases hf : hand.find? (fun c => c.id = j0) with
      | none =>
        have := List.length_filterMap_le (fun i => hand.find? (fun c => c.id = i)) rest
        simp only [List.length_cons]
        omega
      | some c =>
        have := ih ⟨j, h0, hnone⟩
        rw [selectCards] at this
        simp only [List.length_cons]
        omega

theorem selectCards_eq_nil (hand : List Card) (ids : List String)
    (h : ∀ j ∈ ids, hand.find? (fun c => c.id = j) = none) :
    selectCards hand ids = [] := by
  induction ids with
  | nil => rfl
  | cons j0 rest ih =>
    rw [selectCards, List.filterMap_cons, h j0 (by simp)]
    exact ih (fun j hj => h j (by simp [hj]))

/-- CLAIM C4 (amended): wrong-phase and wrong-turn calls to all four
operations, `playCards` calls naming an unknown id or an illegal combo,
and `discardCards` calls in which no named id is in the hand, all return a
failure result and leave the state unchanged; a `yieldTurn` call naming an
unknown id, however, silently skips the discard and proceeds with the
enemy attack resolution (it is not rejected). -/
theorem C4_rejections (s : GameState) (p : Nat) (ids : List String)
    (oid : Option String) (i : String) :
    ((¬ s.phase = .play ∨ ¬ p = s.currentPlayer ∨
        (∃ j ∈ ids, ∀ c ∈ getHand s p, ¬ c.id = j) ∨
        isValidCombo (selectCards (getHand s p) ids) = false) →
      (playCards s p ids).1.success = false ∧ (playCards s p ids).2 = s) ∧
    ((¬ s.phase = .discard ∨ ¬ p = s.currentPlayer ∨
        (∀ j ∈ ids, ∀ c ∈ getHand s p, ¬ c.id = j)) →
      (discardCards s p ids).1.success = false ∧ (discardCards s p ids).2 = s) ∧
    ((¬ s.phase = .play ∨ ¬ p = s.currentPlayer) →
      (yieldTurn s p oid).1.success = false ∧ (yieldTurn s p oid).2 = s ∧
      (playJoker s p).1.success = false ∧ (playJoker s p).2 = s) ∧
    (s.phase = .play → p = s.currentPlayer → (∀ c ∈ getHand s p, ¬ c.id = i) →
      yieldTurn s p (some i) = yieldAttackResolution s) := by
  refine ⟨?_, ?_, ?_, ?_⟩
  · intro h
    by_cases h1 : s.phase = .play
    · by_cases h2 : p = s.currentPlayer
      · rcases h with h | h | h | h
        · exact absurd h1 h
        · exact absurd h2 h
        · obtain ⟨j, hj, hnone⟩ := h
          have hne := selectCards_length_ne (getHand s p) ids
            ⟨j, hj, List.find?_eq_none.mpr (by simpa using hnone)⟩
          rw [h2] at hne
          simp [playCards, h1, h2, hne, failRes, baseRes]
        · by_cases hlen : (selectCards (getHand s p) ids).length = ids.length
          · rw [h2] at hlen h
            simp [playCards, h1, h2, hlen, h, failRes, baseRes]
          · rw [h2] at hlen
            simp [playCards, h1, h2, hlen, failRes, baseRes]
      · simp [playCards, h1, h2, failRes, baseRes]
    · simp [playCards, h1, failRes, baseRes]
  · intro h
    by_cases h1 : s.phase = .discard
    · by_cases h2 : p = s.currentPlayer
      · rcases h with h | h | h
        · exact absurd h1 h
        · exact absurd h2 h
        · have hnil := selectCards_eq_nil (getHand s p) ids
            (fun j hj => List.find?_eq_none.mpr (by simpa using h j hj))
          rw [h2] at hnil
          simp [discardCards, h1, h2, hnil, failRes, baseRes]
      · simp [discardCards, h1, h2, failRes, baseRes]
    · simp [discardCards, h1, failRes, baseRes]
  · intro h
    rcases h with h | h
    · refine ⟨?_, ?_, ?_, ?_⟩ <;> simp [yieldTurn, playJoker, h, failRes, baseRes]
    · by_cases h1 : s.phase = .play
      · refine ⟨?_, ?_, ?_, ?_⟩ <;> simp [yieldTurn, playJoker, h1, h, failRes, baseRes]
      · refine ⟨?_, ?_, ?_, ?_⟩ <;> simp [yieldTurn, playJoker, h1, failRes, baseRes]
  · intro h1 h2 h3
    have hnone : (getHand s p).find? (fun c => c.id = i) = none :=
      List.find?_eq_none.mpr (by simpa using h3)
    rw [h2] at hnone
    simp [yieldTurn, h1, h2, hnone]

set_option maxHeartbeats 1600000 in
/-- CLAIM C4 counterexample: a `yieldTurn` naming an id not in the hand is
not rejected: it succeeds and mutates the state (the phase moves to
`discard`); and a `discardCards` naming one valid and one unknown id also
succeeds and mutates the state, contradicting the claimed uniform
rejection with zero mutation. -/
theorem C4_counterexample :
    (yieldTurn s0two 0 (some ("nope"))).1.success = true ∧
    (yieldTurn s0two 0 (some ("nope"))).2.phase = Phase.discard ∧
    s0two.phase = Phase.play ∧
    (discardCards yState 0 ["9_spades", "nope"]).1.success = true ∧
    ¬ (discardCards yState 0 ["9_spades", "nope"]).2.discardedSoFar =
      yState.discardedSoFar := by
  refine ⟨?_, ?_, ?_, ?_, ?_⟩ <;> decide

set_option maxHeartbeats 1600000 in
/-- CLAIM C4 witness: the amended statement instantiated at concrete
states: a wrong-phase `playCards`, a wrong-phase `discardCards`, a
wrong-turn `yieldTurn`/`playJoker`, and a `yieldTurn` with an unknown id. -/
theorem C4_rejections_witness :
    ((playCards yState 0 ["10_spades"]).1.success = false ∧
      (playCards yState 0 ["10_spades"]).2 = yState) ∧
    ((discardCards s0two 0 ["10_spades"]).1.success = false ∧
      (discardCards s0two 0 ["10_spades"]).2 = s0two) ∧
    ((yieldTurn s0two 1 none).1.success = false ∧
      (yieldTurn s0two 1 none).2 = s0two ∧
      (playJoker s0two 1).1.success = false ∧ (playJoker s0two 1).2 = s0two) ∧
    yieldTurn s0two 0 (some ("nope")) = yieldAttackResolution s0two := by
  refine ⟨?_, ?_, ?_, ?_⟩
  · exact (C4_rejections yState 0 ["10_spades"] none ("x")).1
      (Or.inl (by decide))
  · exact (C4_rejections s0two 0 ["10_spades"] none ("x")).2.1
      (Or.inl (by decide))
  · exact (C4_rejections s0two 1 [] none ("x")).2.2.1
      (Or.inr (by decide))
  · exact (C4_rejections s0two 0 [] none ("nope")).2.2.2
      (by decide) (by decide) (by decide)

theorem getD_set_self (l : List (List Card)) (t : Nat) (x : List Card)
    (h : t < l.length) : (l.set t x).getD t [] = x := by
  simp [List.getD_eq_getElem?_getD, List.getElem?_set, h]

theorem getD_set_ne (l : List (List Card)) (t k : Nat) (x : List Card)
    (h : ¬ t = k) : (l.set t x).getD k [] = l.getD k [] := by
  simp [List.getD_eq_getElem?_getD, List.getElem?_set, h]

theorem countP_range_shift (f : Nat → Bool) (n : Nat) :
    (List.range (n + 1)).countP f =
      (if f 0 then 1 else 0) + (List.range n).countP (fun j => f (j + 1)) := by
  rw [List.range_succ_eq_map, List.countP_cons, List.countP_map]
  simp only [Function.comp_def]
  by_cases h0 : f 0 = true
  · simp [h0, Nat.add_comm]
  · simp [h0]

theorem diamondsDraw_loop (pc maxHand p : Nat) (hpc : 0 < pc) :
    ∀ (n i : Nat) (hands : List (List Card)) (tavern : List Card) (drawn : Nat),
      hands.length = pc →
      (diamondsDraw pc maxHand p i n hands tavern drawn).2.2 =
        drawn + (tavern.length -
          (diamondsDraw pc maxHand p i n hands tavern drawn).2.1.length) ∧
      (diamondsDraw pc maxHand p i n hands tavern drawn).2.1.length ≤ tavern.length ∧
      tavern.length - n ≤
        (diamondsDraw pc maxHand p i n hands tavern drawn).2.1.length ∧
      (diamondsDraw pc maxHand p i n hands tavern drawn).1.length = pc ∧
      (∀ k, maxHand ≤ (hands.getD k []).length →
        (diamondsDraw pc maxHand p i n hands tavern drawn).1.getD k [] =
          hands.getD k []) ∧
      (n ≤ tavern.length →
        (∀ k, k < pc → (hands.getD k []).length + n ≤ maxHand) →
        (diamondsDraw pc maxHand p i n hands tavern drawn).2.1.length =
          tavern.length - n ∧
        ∀ k, k < pc →
          ((diamondsDraw pc maxHand p i n hands tavern drawn).1.getD k []).length =
            (hands.getD k []).length +
              (List.range n).countP (fun j => (p + i + j) % pc = k)) := by
  intro n
  induction n with
  | zero =>
    intro i hands tavern drawn hlen
    refine ⟨by simp [diamondsDraw], by simp [diamondsDraw], by simp [diamondsDraw],
      by simpa [diamondsDraw] using hlen, fun k _ => by simp [diamondsDraw], ?_⟩
    intro _ _
    exact ⟨by simp [diamondsDraw], fun k _ => by simp [diamondsDraw]⟩
  | succ n ih =>
    intro i hands tavern drawn hlen
    cases hb : tavern.getLast? with
    | none =>
      have htn : tavern = [] := by
        cases tavern
        · rfl
        · simp at hb
      subst htn
      rw [show diamondsDraw pc maxHand p i (n + 1) hands [] drawn =
          diamondsDraw pc maxHand p (i + 1) n hands [] drawn from by
        simp [diamondsDraw]]
      obtain ⟨ha, hb2, hc, hd, he, hf⟩ := ih (i + 1) hands [] drawn hlen
      exact ⟨ha, hb2, by simp, hd, he, fun hn => by simp at hn⟩
    | some c =>
      have hne : tavern ≠ [] := by
        intro hx
        rw [hx] at hb
        simp at hb
      have hlenpos : 0 < tavern.length := List.length_pos.mpr hne
      have hdl : tavern.dropLast.length = tavern.length - 1 := by
        simp [List.length_dropLast]
      set t := (p + i) % pc with ht
      have htlt : t < pc := Nat.mod_lt _ hpc
      rw [show diamondsDraw pc maxHand p i (n + 1) hands tavern drawn =
          (if (hands.getD t []).length < maxHand then
            diamondsDraw pc maxHand p (i + 1) n
              (hands.set t ((hands.getD t []) ++ [c])) tavern.dropLast (drawn + 1)
          else diamondsDraw pc maxHand p (i + 1) n hands tavern drawn) from by
        rw [diamondsDraw, hb]]
      by_cases hroom : (hands.getD t []).length < maxHand
      · rw [if_pos hroom]
        have hlen2 : (hands.set t ((hands.getD t []) ++ [c])).length = pc := by
          simpa using hlen
        obtain ⟨ha, hb2, hc2, hd, he, hf⟩ := ih (i + 1)
          (hands.set t ((hands.getD t []) ++ [c])) tavern.dropLast (drawn + 1) hlen2
        refine ⟨?_, ?_, ?_, hd, ?_, ?_⟩
        · rw [ha]
          rw [hdl] at hb2
          omega
        · rw [hdl] at hb2
          omega
        · rw [hdl] at hc2
          omega
        · intro k hk
          have hkt : ¬ t = k := by
            intro hx
            rw [hx] at hroom
            omega
          rw [he k (by rwa [getD_set_ne hands t k _ hkt])]
          exact getD_set_ne hands t k _ hkt
        · intro hn hroomall
          have hn2 : n ≤ tavern.dropLast.length := by omega
          have hroomall2 : ∀ k, k < pc →
              ((hands.set t ((hands.getD t []) ++ [c])).getD k []).length + n ≤ maxHand := by
            intro k hk
            by_cases hkt : t = k
            · subst hkt
              rw [getD_set_self hands t _ (by omega)]
              have := hroomall t htlt
              simp only [List.length_append, List.length_cons, List.length_nil]
              omega
            · rw [getD_set_ne hands t k _ hkt]
              have := hroomall k hk
              omega
          obtain ⟨hf1, hf2⟩ := hf hn2 hroomall2
          constructor
          · rw [hf1, hdl]
            omega
          · intro k hk
            rw [hf2 k hk]
            rw [countP_range_shift]
            have hshift : (fun j => decide ((p + (i + 1) + j) % pc = k)) =
                (fun j => decide ((p + i + (j + 1)) % pc = k)) := by
              funext j
              have : p + (i + 1) + j = p + i + (j + 1) := by omega
              rw [this]
            rw [← hshift]
            by_cases hkt : t = k
            · subst hkt
              rw [getD_set_self hands t _ (by omega)]
              have hf0 : (p + i + 0) % pc = t := by rw [Nat.add_zero, ← ht]
              rw [if_pos (by simpa using hf0)]
              simp only [List.length_append, List.length_cons, List.length_nil]
              omega
            · rw [getD_set_ne hands t k _ hkt]
              have hf0 : ¬ (p + i + 0) % pc = k := by
                rw [Nat.add_zero, ← ht]
                exact hkt
              rw [if_neg (by simpa using hf0)]
              simp
      · rw [if_neg hroom]
        obtain ⟨ha, hb2, hc2, hd, he, hf⟩ := ih (i + 1) hands tavern drawn hlen
        refine ⟨ha, hb2, by omega, hd, he, ?_⟩
        intro hn hroomall
        have := hroomall t htlt
        omega

/-- CLAIM C5 (amended): the diamonds power processes exactly
min(baseDamage, tavernRemaining) round-robin slots starting at the acting
player; each drawn card leaves the tavern top, a slot whose target hand is
at maximum size draws nothing (the card is neither drawn nor passed to a
later player, and that hand receives nothing), so the number drawn is at
most min(baseDamage, tavernRemaining) with equality when every hand has
room, in which case each player receives one card per round-robin slot
assigned to it. -/
theorem C5_diamonds_spec (pc maxHand p dmg : Nat) (hands : List (List Card))
    (tavern : List Card) (hpc : 0 < pc) (hlen : hands.length = pc) :
    (diamondsDraw pc maxHand p 0 (min dmg tavern.length) hands tavern 0).2.2 =
      tavern.length -
        (diamondsDraw pc maxHand p 0 (min dmg tavern.length) hands tavern 0).2.1.length ∧
    (diamondsDraw pc maxHand p 0 (min dmg tavern.length) hands tavern 0).2.2 ≤
      min dmg tavern.length ∧
    (∀ k, maxHand ≤ (hands.getD k []).length →
      (diamondsDraw pc maxHand p 0 (min dmg tavern.length) hands tavern 0).1.getD k [] =
        hands.getD k []) ∧
    ((∀ k, k < pc → (hands.getD k []).length + min dmg tavern.length ≤ maxHand) →
      (diamondsDraw pc maxHand p 0 (min dmg tavern.length) hands tavern 0).2.2 =
        min dmg tavern.length ∧
      ∀ k, k < pc →
        ((diamondsDraw pc maxHand p 0 (min dmg tavern.length) hands tavern 0).1.getD
            k []).length =
          (hands.getD k []).length +
            (List.range (min dmg tavern.length)).countP (fun j => (p + j) % pc = k)) := by
  obtain ⟨ha, hb, hc, hd, he, hf⟩ :=
    diamondsDraw_loop pc maxHand p hpc (min dmg tavern.length) 0 hands tavern 0 hlen
  have hmin : min dmg tavern.length ≤ tavern.length := Nat.min_le_right _ _
  refine ⟨by omega, by omega, he, ?_⟩
  intro hroom
  obtain ⟨hf1, hf2⟩ := hf hmin hroom
  refine ⟨by omega, ?_⟩
  intro k hk
  have := hf2 k hk
  simpa using this

set_option maxHeartbeats 1600000 in
/-- CLAIM C5 counterexample: player 0 plays the 2 of diamonds (base damage
2) with 3 cards in the tavern, but player 1 already holds the maximum 7
cards: only 1 card is drawn instead of the claimed min(2, 3) = 2, and the
skipped card goes to no player at all (player 1's hand is unchanged and
the card stays in the tavern). -/
theorem C5_counterexample :
    comboValue [⟨.diamonds, .n2, "2_diamonds"⟩] = 2 ∧
    sC5.tavern.length = 3 ∧
    (playCards sC5 0 ["2_diamonds"]).1.success = true ∧
    (playCards sC5 0 ["2_diamonds"]).2.tavern.length = 2 ∧
    (playCards sC5 0 ["2_diamonds"]).2.hands.getD 1 [] = fullHand7 := by
  refine ⟨?_, ?_, ?_, ?_, ?_⟩ <;> decide

/-- CLAIM C5 witness: the amended statement instantiated at a 2-player
position in which both hands have room: both slots draw, one card per
player. -/
theorem C5_diamonds_witness :
    (diamondsDraw 2 7 0 0
      (min 2 [(⟨.clubs, .n3, "3_clubs"⟩ : Card), ⟨.clubs, .n4, "4_clubs"⟩].length)
      [[], []] [⟨.clubs, .n3, "3_clubs"⟩, ⟨.clubs, .n4, "4_clubs"⟩] 0).2.2 = 2 := by
  have h := (C5_diamonds_spec 2 7 0 2 [[], []]
    [⟨.clubs, .n3, "3_clubs"⟩, ⟨.clubs, .n4, "4_clubs"⟩]
    (by decide) (by decide)).2.2.2 (by decide)
  rw [h.1]
  decide

theorem getLast?_decomp (l : List Card) (c : Card) (h : l.getLast? = some c) :
    l.dropLast ++ [c] = l := by
  cases hl : l with
  | nil => rw [hl] at h; simp at h
  | cons a t =>
    have hne : l ≠ [] := by rw [hl]; simp
    rw [← hl] at *
    rw [List.getLast?_eq_getLast l hne] at h
    have hc : l.getLast hne = c := by simpa using h
    rw [← hc]
    exact List.dropLast_append_getLast hne

theorem removeCards_count (cards : List Card) :
    ∀ (hand : List Card), (∀ x, cards.count x ≤ hand.count x) →
      ∀ x, (removeCards hand cards).count x + cards.count x = hand.count x := by
  induction cards with
  | nil => intro hand _ x; simp [removeCards]
  | cons c rest ih =>
    intro hand hle x
    have hc : c ∈ hand := by
      have := hle c
      simp [List.count_cons_self] at this
      exact List.count_pos_iff_mem.mp (by omega)
    have hle2 : ∀ y, rest.count y ≤ (hand.erase c).count y := by
      intro y
      have := hle y
      rw [List.count_cons] at this
      rw [List.count_erase]
      by_cases hyc : y = c
      · subst hyc; simp at this ⊢; omega
      · simp [hyc] at this ⊢
        omega
    rw [removeCards]
    have := ih (hand.erase c) hle2 x
    rw [List.count_cons]
    rw [List.count_erase] at this
    by_cases hxc : x = c
    · subst hxc
      simp at this ⊢
      have hpos : 1 ≤ hand.count x := List.count_pos_iff_mem.mpr hc
      omega
    · have hcx : ¬ c = x := fun h => hxc h.symm
      simp [hxc, hcx] at this ⊢
      omega

theorem removeCards_mem (cards : List Card) :
    ∀ (hand : List Card) (x : Card), x ∈ removeCards hand cards → x ∈ hand := by
  induction cards with
  | nil => intro hand x hx; simpa [removeCards] using hx
  | cons c rest ih =>
    intro hand x hx
    rw [removeCards] at hx
    exact (hand.erase_subset c) (ih _ x hx)

theorem drawUpTo_count (n : Nat) :
    ∀ (hand tavern : List Card) (x : Card),
      (drawUpTo n hand tavern).1.count x + (drawUpTo n hand tavern).2.count x =
        hand.count x + tavern.count x := by
  induction n with
  | zero => intro hand tavern x; simp [drawUpTo]
  | succ n ih =>
    intro hand tavern x
    rw [drawUpTo]
    cases hb : tavern.getLast? with
    | none => exact ih hand tavern x
    | some c =>
      have hdec := getLast?_decomp tavern c hb
      have := ih (hand ++ [c]) tavern.dropLast x
      rw [this]
      conv_rhs => rw [← hdec]
      simp [List.count_append]
      omega

theorem drawUpTo_mem1 (n : Nat) :
    ∀ (hand tavern : List Card) (x : Card),
      x ∈ (drawUpTo n hand tavern).1 → x ∈ hand ∨ x ∈ tavern := by
  induction n with
  | zero => intro hand tavern x hx; exact Or.inl (by simpa [drawUpTo] using hx)
  | succ n ih =>
    intro hand tavern x hx
    rw [drawUpTo] at hx
    cases hb : tavern.getLast? with
    | none => rw [hb] at hx; exact ih hand tavern x hx
    | some c =>
      rw [hb] at hx
      rcases ih _ _ x hx with h | h
      · rcases List.mem_append.mp h with h2 | h2
        · exact Or.inl h2
        · right
          have := getLast?_decomp tavern c hb
          rw [← this]
          simp at h2
          simp [h2]
      · right
        exact List.dropLast_subset tavern h

theorem drawUpTo_mem2 (n : Nat) :
    ∀ (hand tavern : List Card) (x : Card),
      x ∈ (drawUpTo n hand tavern).2 → x ∈ tavern := by
  induction n with
  | zero => intro hand tavern x hx; simpa [drawUpTo] using hx
  | succ n ih =>
    intro hand tavern x hx
    rw [drawUpTo] at hx
    cases hb : tavern.getLast? with
    | none => rw [hb] at hx; exact ih hand tavern x hx
    | some c =>
      rw [hb] at hx
      exact List.dropLast_subset tavern (ih _ _ x hx)

theorem heartsHeal_count (n : Nat) :
    ∀ (tavern discard : List Card) (x : Card),
      (heartsHeal n tavern discard).1.count x + (heartsHeal n tavern discard).2.count x =
        tavern.count x + discard.count x := by
  induction n with
  | zero => intro tavern discard x; simp [heartsHeal]
  | succ n ih =>
    intro tavern discard x
    rw [heartsHeal]
    cases hb : discard.getLast? with
    | none => exact ih tavern discard x
    | some c =>
      have hdec := getLast?_decomp discard c hb
      have := ih (c :: tavern) discard.dropLast x
      rw [this]
      conv_rhs => rw [← hdec]
      simp [List.count_append, List.count_cons]
      omega

theorem heartsHeal_mem1 (n : Nat) :
    ∀ (tavern discard : List Card) (x : Card),
      x ∈ (heartsHeal n tavern discard).1 → x ∈ tavern ∨ x ∈ discard := by
  induction n with
  | zero => intro tavern discard x hx; exact Or.inl (by simpa [heartsHeal] using hx)
  | succ n ih =>
    intro tavern discard x hx
    rw [heartsHeal] at hx
    cases hb : discard.getLast? with
    | none => rw [hb] at hx; exact ih _ _ x hx
    | some c =>
      rw [hb] at hx
      rcases ih _ _ x hx with h | h
      · rcases List.mem_cons.mp h with h2 | h2
        · right
          have := getLast?_decomp discard c hb
          rw [← this]
          simp [h2]
        · exact Or.inl h2
      · right
        exact List.dropLast_subset discard h

theorem heartsHeal_mem2 (n : Nat) :
    ∀ (tavern discard : List Card) (x : Card),
      x ∈ (heartsHeal n tavern discard).2 → x ∈ discard := by
  induction n with
  | zero => intro tavern discard x hx; simpa [heartsHeal] using hx
  | succ n ih =>
    intro tavern discard x hx
    rw [heartsHeal] at hx
    cases hb : discard.getLast? with
    | none => rw [hb] at hx; exact ih _ _ x hx
    | some c =>
      rw [hb] at hx
      exact List.dropLast_subset discard (ih _ _ x hx)

theorem discardLoop_count (cards : List Card) :
    ∀ (hand discard dsf : List Card) (x : Card),
      (discardLoop cards hand discard dsf).1.count x +
        (discardLoop cards hand discard dsf).2.1.count x =
      hand.count x + discard.count x := by
  induction cards with
  | nil => intro hand discard dsf x; simp [discardLoop]
  | cons c rest ih =>
    intro hand discard dsf x
    rw [discardLoop]
    by_cases hc : c ∈ hand
    · rw [if_pos hc]
      have := ih (hand.erase c) (discard ++ [c]) (dsf ++ [c]) x
      rw [this]
      rw [List.count_erase]
      simp [List.count_append]
      by_cases hxc : x = c
      · subst hxc
        have hpos : 1 ≤ hand.count x := List.count_pos_iff_mem.mpr hc
        simp
        omega
      · have hcx : ¬ c = x := fun h => hxc h.symm
        simp [hxc, hcx]
    · rw [if_neg hc]
      exact ih hand discard dsf x

theorem discardLoop_mem1 (cards : List Card) :
    ∀ (hand discard dsf : List Card) (x : Card),
      x ∈ (discardLoop cards hand discard dsf).1 → x ∈ hand := by
  induction cards with
  | nil => intro hand discard dsf x hx; simpa [discardLoop] using hx
  | cons c rest ih =>
    intro hand discard dsf x hx
    rw [discardLoop] at hx
    by_cases hc : c ∈ hand
    · rw [if_pos hc] at hx
      exact (hand.erase_subset c) (ih _ _ _ x hx)
    · rw [if_neg hc] at hx
      exact ih _ _ _ x hx

theorem discardLoop_mem2 (cards : List Card) :
    ∀ (hand discard dsf : List Card) (x : Card),
      x ∈ (discardLoop cards hand discard dsf).2.1 → x ∈ discard ∨ x ∈ hand := by
  induction cards with
  | nil => intro hand discard dsf x hx; exact Or.inl (by simpa [discardLoop] using hx)
  | cons c rest ih =>
    intro hand discard dsf x hx
    rw [discardLoop] at hx
    by_cases hc : c ∈ hand
    · rw [if_pos hc] at hx
      rcases ih _ _ _ x hx with h | h
      · rcases List.mem_append.mp h with h2 | h2
        · exact Or.inl h2
        · simp at h2
          subst h2
          exact Or.inr hc
      · exact Or.inr ((hand.erase_subset c) h)
    · rw [if_neg hc] at hx
      exact ih _ _ _ x hx

theorem discardLoop_mem3 (cards : List Card) :
    ∀ (hand discard dsf : List Card) (x : Card),
      x ∈ (discardLoop cards hand discard dsf).2.2 → x ∈ dsf ∨ x ∈ hand := by
  induction cards with
  | nil => intro hand discard dsf x hx; exact Or.inl (by simpa [discardLoop] using hx)
  | cons c rest ih =>
    intro hand discard dsf x hx
    rw [discardLoop] at hx
    by_cases hc : c ∈ hand
    · rw [if_pos hc] at hx
      rcases ih _ _ _ x hx with h | h
      · rcases List.mem_append.mp h with h2 | h2
        · exact Or.inl h2
        · simp at h2
          subst h2
          exact Or.inr hc
      · exact Or.inr ((hand.erase_subset c) h)
    · rw [if_neg hc] at hx
      exact ih _ _ _ x hx

theorem flatten_set_count (hands : List (List Card)) :
    ∀ (t : Nat) (new : List Card), t < hands.length → ∀ x,
      ((hands.set t new).flatten).count x + (hands.getD t []).count x =
        hands.flatten.count x + new.count x := by
  induction hands with
  | nil => intro t new ht; simp at ht
  | cons h rest ih =>
    intro t new ht x
    cases t with
    | zero =>
      simp [List.count_append]
      omega
    | succ k =>
      have := ih k new (by simpa using ht) x
      simp [List.count_append] at this ⊢
      omega

theorem flatten_set_mem (hands : List (List Card)) (t : Nat) (new : List Card)
    (x : Card) (hx : x ∈ (hands.set t new).flatten) :
    x ∈ hands.flatten ∨ x ∈ new := by
  obtain ⟨l, hl, hxl⟩ := List.mem_flatten.mp hx
  rcases List.mem_or_eq_of_mem_set hl with h | h
  · exact Or.inl (List.mem_flatten.mpr ⟨l, h, hxl⟩)
  · subst h
    exact Or.inr hxl

theorem dealHands_count (k : Nat) :
    ∀ (hs : Nat) (tavern : List Card) (x : Card),
      (dealHands k hs tavern).1.flatten.count x + (dealHands k hs tavern).2.count x =
        tavern.count x := by
  induction k with
  | zero => intro hs tavern x; simp [dealHands]
  | succ k ih =>
    intro hs tavern x
    rw [dealHands]
    have h1 := drawUpTo_count hs [] tavern x
    have h2 := ih hs (drawUpTo hs [] tavern).2 x
    simp [List.count_append] at h1 ⊢
    omega

theorem dealHands_length (k : Nat) :
    ∀ (hs : Nat) (tavern : List Card), (dealHands k hs tavern).1.length = k := by
  induction k with
  | zero => intro hs tavern; simp [dealHands]
  | succ k ih =>
    intro hs tavern
    rw [dealHands]
    simpa using ih hs (drawUpTo hs [] tavern).2

theorem dealHands_mem1 (k : Nat) :
    ∀ (hs : Nat) (tavern : List Card) (x : Card),
      x ∈ (dealHands k hs tavern).1.flatten → x ∈ tavern := by
  induction k with
  | zero => intro hs tavern x hx; simp [dealHands] at hx
  | succ k ih =>
    intro hs tavern x hx
    rw [dealHands] at hx
    simp only [List.flatten_cons, List.mem_append] at hx
    rcases hx with h | h
    · rcases drawUpTo_mem1 hs [] tavern x h with h2 | h2
      · simp at h2
      · exact h2
    · exact drawUpTo_mem2 hs [] tavern x (ih hs _ x h)

theorem dealHands_mem2 (k : Nat) :
    ∀ (hs : Nat) (tavern : List Card) (x : Card),
      x ∈ (dealHands k hs tavern).2 → x ∈ tavern := by
  induction k with
  | zero => intro hs tavern x hx; simpa [dealHands] using hx
  | succ k ih =>
    intro hs tavern x hx
    rw [dealHands] at hx
    exact drawUpTo_mem2 hs [] tavern x (ih hs _ x hx)

theorem mem_getD_flatten (hands : List (List Card)) (t : Nat) (x : Card)
    (hx : x ∈ hands.getD t []) : x ∈ hands.flatten := by
  by_cases ht : t < hands.length
  · rw [List.getD_eq_getElem hands [] ht] at hx
    exact List.mem_flatten.mpr ⟨_, List.getElem_mem ht, hx⟩
  · rw [List.getD_eq_default hands [] (by omega)] at hx
    simp at hx

theorem diamondsDraw_count (pc maxHand p : Nat) (hpc : 0 < pc) :
    ∀ (n i : Nat) (hands : List (List Card)) (tavern : List Card) (drawn : Nat),
      hands.length = pc → ∀ x,
      (diamondsDraw pc maxHand p i n hands tavern drawn).1.flatten.count x +
        (diamondsDraw pc maxHand p i n hands tavern drawn).2.1.count x =
      hands.flatten.count x + tavern.count x := by
  intro n
  induction n with
  | zero => intro i hands tavern drawn hlen x; simp [diamondsDraw]
  | succ n ih =>
    intro i hands tavern drawn hlen x
    cases hb : tavern.getLast? with
    | none =>
      rw [show diamondsDraw pc maxHand p i (n + 1) hands tavern drawn =
          diamondsDraw pc maxHand p (i + 1) n hands tavern drawn from by
        rw [diamondsDraw, hb]]
      exact ih (i + 1) hands tavern drawn hlen x
    | some c =>
      have hdec := getLast?_decomp tavern c hb
      set t := (p + i) % pc with ht
      have htlt : t < pc := Nat.mod_lt _ hpc
      rw [show diamondsDraw pc maxHand p i (n + 1) hands tavern drawn =
          (if (hands.getD t []).length < maxHand then
            diamondsDraw pc maxHand p (i + 1) n
              (hands.set t ((hands.getD t []) ++ [c])) tavern.dropLast (drawn + 1)
          else diamondsDraw pc maxHand p (i + 1) n hands tavern drawn) from by
        rw [diamondsDraw, hb]]
      by_cases hroom : (hands.getD t []).length < maxHand
      · rw [if_pos hroom]
        have hlen2 : (hands.set t ((hands.getD t []) ++ [c])).length = pc := by
          simpa using hlen
        have hih := ih (i + 1) (hands.set t ((hands.getD t []) ++ [c]))
          tavern.dropLast (drawn + 1) hlen2 x
        have hfs := flatten_set_count hands t ((hands.getD t []) ++ [c]) (by omega) x
        have htav : tavern.count x =
            tavern.dropLast.count x + (if x = c then 1 else 0) := by
          conv_lhs => rw [← hdec]
          rw [List.count_append]
          congr 1
          by_cases hxc : x = c
          · subst hxc; simp
          · have hcx : ¬ c = x := fun h => hxc h.symm
            simp [hxc, hcx]
        simp only [List.count_append, List.count_cons, List.count_nil] at hfs
        rw [hih]
        by_cases hxc : x = c
        · subst hxc
          simp at hfs htav ⊢
          omega
        · have hcx : ¬ c = x := fun h => hxc h.symm
          simp [hxc, hcx] at hfs htav ⊢
          omega
      · rw [if_neg hroom]
        exact ih (i + 1) hands tavern drawn hlen x

theorem diamondsDraw_mem (pc maxHand p : Nat) :
    ∀ (n i : Nat) (hands : List (List Card)) (tavern : List Card) (drawn : Nat)
      (x : Card),
      (x ∈ (diamondsDraw pc maxHand p i n hands tavern drawn).1.flatten →
        x ∈ hands.flatten ∨ x ∈ tavern) ∧
      (x ∈ (diamondsDraw pc maxHand p i n hands tavern drawn).2.1 → x ∈ tavern) := by
  intro n
  induction n with
  | zero =>
    intro i hands tavern drawn x
    constructor
    · intro hx; exact Or.inl (by simpa [diamondsDraw] using hx)
    · intro hx; simpa [diamondsDraw] using hx
  | succ n ih =>
    intro i hands tavern drawn x
    cases hb : tavern.getLast? with
    | none =>
      rw [show diamondsDraw pc maxHand p i (n + 1) hands tavern drawn =
          diamondsDraw pc maxHand p (i + 1) n hands tavern drawn from by
        rw [diamondsDraw, hb]]
      exact ih (i + 1) hands tavern drawn x
    | some c =>
      have hdec := getLast?_decomp tavern c hb
      have hcmem : c ∈ tavern := by
        rw [← hdec]; simp
      set t := (p + i) % pc with ht
      rw [show diamondsDraw pc maxHand p i (n + 1) hands tavern drawn =
          (if (hands.getD t []).length < maxHand then
            diamondsDraw pc maxHand p (i + 1) n
              (hands.set t ((hands.getD t []) ++ [c])) tavern.dropLast (drawn + 1)
          else diamondsDraw pc maxHand p (i + 1) n hands tavern drawn) from by
        rw [diamondsDraw, hb]]
      by_cases hroom : (hands.getD t []).length < maxHand
      · rw [if_pos hroom]
        obtain ⟨ih1, ih2⟩ := ih (i + 1) (hands.set t ((hands.getD t []) ++ [c]))
          tavern.dropLast (drawn + 1) x
        constructor
        · intro hx
          rcases ih1 hx with h | h
          · rcases flatten_set_mem hands t _ x h with h2 | h2
            · exact Or.inl h2
            · rcases List.mem_append.mp h2 with h3 | h3
              · exact Or.inl (mem_getD_flatten hands t x h3)
              · simp at h3
                subst h3
                exact Or.inr hcmem
          · exact Or.inr (List.dropLast_subset tavern h)
        · intro hx
          exact List.dropLast_subset tavern (ih2 hx)
      · rw [if_neg hroom]
        exact ih (i + 1) hands tavern drawn x

theorem diamondsDraw_length (pc maxHand p : Nat) :
    ∀ (n i : Nat) (hands : List (List Card)) (tavern : List Card) (drawn : Nat),
      (diamondsDraw pc maxHand p i n hands tavern drawn).1.length = hands.length := by
  intro n
  induction n with
  | zero => intro i hands tavern drawn; simp [diamondsDraw]
  | succ n ih =>
    intro i hands tavern drawn
    cases hb : tavern.getLast? with
    | none =>
      rw [show diamondsDraw pc maxHand p i (n + 1) hands tavern drawn =
          diamondsDraw pc maxHand p (i + 1) n hands tavern drawn from by
        rw [diamondsDraw, hb]]
      exact ih (i + 1) hands tavern drawn
    | some c =>
      rw [show diamondsDraw pc maxHand p i (n + 1) hands tavern drawn =
          (if (hands.getD ((p + i) % pc) []).length < maxHand then
            diamondsDraw pc maxHand p (i + 1) n
              (hands.set ((p + i) % pc) ((hands.getD ((p + i) % pc) []) ++ [c]))
              tavern.dropLast (drawn + 1)
          else diamondsDraw pc maxHand p (i + 1) n hands tavern drawn) from by
        rw [diamondsDraw, hb]]
      by_cases hroom : (hands.getD ((p + i) % pc) []).length < maxHand
      · rw [if_pos hroom, ih]
        simp
      · rw [if_neg hroom]
        exact ih (i + 1) hands tavern drawn

theorem removalStage_spec (s : GameState) (p : Nat) (cards : List Card) :
    ∃ lg, removalStage s p cards =
      { s with hands := s.hands.set p (removeCards (getHand s p) cards), log := lg } :=
  ⟨_, rfl⟩

theorem clubsStage_spec (d : Nat) (su : List Suit) (s : GameState) :
    ∃ lg, (clubsStage d su s).2.1 = { s with log := lg } := by
  rw [clubsStage]
  split_ifs <;> exact ⟨_, rfl⟩

theorem damageStage_spec (d : Nat) (s : GameState) :
    ∃ lg, damageStage d s =
      { s with currentEnemyHP := s.currentEnemyHP - (d : Int), log := lg } :=
  ⟨_, rfl⟩

theorem spadesStage_spec (d : Nat) (su : List Suit) (s : GameState) :
    ∃ sh lg, (spadesStage d su s).1 = { s with shieldAmount := sh, log := lg } := by
  rw [spadesStage]
  split_ifs <;> exact ⟨_, _, rfl⟩

theorem diamondsStage_spec (d : Nat) (su : List Suit) (p : Nat) (s : GameState) :
    ∃ hands2 tavern2 lg,
      (diamondsStage d su p s).1 =
        { s with hands := hands2, tavern := tavern2, log := lg } ∧
      hands2.length = s.hands.length ∧
      (0 < s.playerCount → s.hands.length = s.playerCount →
        ∀ x, hands2.flatten.count x + tavern2.count x =
          s.hands.flatten.count x + s.tavern.count x) ∧
      (∀ x, x ∈ hands2.flatten → x ∈ s.hands.flatten ∨ x ∈ s.tavern) ∧
      (∀ x, x ∈ tavern2 → x ∈ s.tavern) := by
  rw [diamondsStage]
  by_cases h1 : su.contains Suit.diamonds
  · rw [if_pos h1]
    by_cases h2 : (enemyOf s).suit = Suit.diamonds
    · rw [if_pos h2]
      exact ⟨s.hands, s.tavern, _, rfl, rfl, fun _ _ x => rfl,
        fun x hx => Or.inl hx, fun x hx => hx⟩
    · rw [if_neg h2]
      simp only []
      have hfacts : (diamondsDraw s.playerCount (getMaxHandSize s.playerCount) p 0
            (min d s.tavern.length) s.hands s.tavern 0).1.length = s.hands.length ∧
          (0 < s.playerCount → s.hands.length = s.playerCount →
            ∀ x, (diamondsDraw s.playerCount (getMaxHandSize s.playerCount) p 0
                (min d s.tavern.length) s.hands s.tavern 0).1.flatten.count x +
              (diamondsDraw s.playerCount (getMaxHandSize s.playerCount) p 0
                (min d s.tavern.length) s.hands s.tavern 0).2.1.count x =
              s.hands.flatten.count x + s.tavern.count x) ∧
          (∀ x, x ∈ (diamondsDraw s.playerCount (getMaxHandSize s.playerCount) p 0
              (min d s.tavern.length) s.hands s.tavern 0).1.flatten →
            x ∈ s.hands.flatten ∨ x ∈ s.tavern) ∧
          (∀ x, x ∈ (diamondsDraw s.playerCount (getMaxHandSize s.playerCount) p 0
              (min d s.tavern.length) s.hands s.tavern 0).2.1 → x ∈ s.tavern) := by
        refine ⟨diamondsDraw_length _ _ _ _ _ _ _ _, ?_, ?_, ?_⟩
        · intro hpc hlen x
          exact diamondsDraw_count s.playerCount (getMaxHandSize s.playerCount) p hpc
            (min d s.tavern.length) 0 s.hands s.tavern 0 hlen x
        · intro x hx
          exact (diamondsDraw_mem s.playerCount (getMaxHandSize s.playerCount) p
            (min d s.tavern.length) 0 s.hands s.tavern 0 x).1 hx
        · intro x hx
          exact (diamondsDraw_mem s.playerCount (getMaxHandSize s.playerCount) p
            (min d s.tavern.length) 0 s.hands s.tavern 0 x).2 hx
      obtain ⟨hL, hC, hM1, hM2⟩ := hfacts
      by_cases h3 : (diamondsDraw s.playerCount (getMaxHandSize s.playerCount) p 0
          (min d s.tavern.length) s.hands s.tavern 0).2.2 > 0
      · rw [if_pos h3]
        exact ⟨_, _, _, rfl, hL, hC, hM1, hM2⟩
      · rw [if_neg h3]
        exact ⟨_, _, _, rfl, hL, hC, hM1, hM2⟩
  · rw [if_neg h1]
    exact ⟨s.hands, s.tavern, _, rfl, rfl, fun _ _ x => rfl,
      fun x hx => Or.inl hx, fun x hx => hx⟩

theorem heartsStage_spec (d : Nat) (su : List Suit) (s : GameState) :
    ∃ tavern2 discard2 lg,
      (heartsStage d su s).1 =
        { s with tavern := tavern2, discard := discard2, log := lg } ∧
      (∀ x, tavern2.count x + discard2.count x =
        s.tavern.count x + s.discard.count x) ∧
      (∀ x, x ∈ tavern2 → x ∈ s.tavern ∨ x ∈ s.discard) ∧
      (∀ x, x ∈ discard2 → x ∈ s.discard) := by
  rw [heartsStage]
  by_cases h1 : su.contains Suit.hearts
  · rw [if_pos h1]
    by_cases h2 : (enemyOf s).suit = Suit.hearts
    · rw [if_pos h2]
      exact ⟨s.tavern, s.discard, _, rfl, fun x => rfl,
        fun x hx => Or.inl hx, fun x hx => hx⟩
    · rw [if_neg h2]
      simp only []
      by_cases h3 : min d s.discard.length > 0
      · rw [if_pos h3]
        exact ⟨_, _, _, rfl,
          fun x => heartsHeal_count (min d s.discard.length) s.tavern s.discard x,
          fun x hx => heartsHeal_mem1 (min d s.discard.length) s.tavern s.discard x hx,
          fun x hx => heartsHeal_mem2 (min d s.discard.length) s.tavern s.discard x hx⟩
      · rw [if_neg h3]
        exact ⟨_, _, _, rfl,
          fun x => heartsHeal_count (min d s.discard.length) s.tavern s.discard x,
          fun x hx => heartsHeal_mem1 (min d s.discard.length) s.tavern s.discard x hx,
          fun x hx => heartsHeal_mem2 (min d s.discard.length) s.tavern s.discard x hx⟩
  · rw [if_neg h1]
    exact ⟨s.tavern, s.discard, _, rfl, fun x => rfl,
      fun x hx => Or.inl hx, fun x hx => hx⟩

theorem applyPowers_spec (s : GameState) (p : Nat) (cards : List Card) :
    ∃ hands2 tavern2 discard2 sh hp lg,
      (applyPowers s p cards).1 =
        { s with hands := hands2, tavern := tavern2, discard := discard2,
                 shieldAmount := sh, currentEnemyHP := hp, log := lg } ∧
      hands2.length = s.hands.length ∧
      (0 < s.playerCount → s.hands.length = s.playerCount → p < s.hands.length →
        (∀ x, cards.count x ≤ (getHand s p).count x) →
        ∀ x, hands2.flatten.count x + tavern2.count x + discard2.count x +
            cards.count x =
          s.hands.flatten.count x + s.tavern.count x + s.discard.count x) ∧
      (∀ x, (x ∈ hands2.flatten ∨ x ∈ tavern2 ∨ x ∈ discard2) →
        (x ∈ s.hands.flatten ∨ x ∈ s.tavern ∨ x ∈ s.discard)) := by
  obtain ⟨l1, h1⟩ := removalStage_spec s p cards
  obtain ⟨l2, h2⟩ := clubsStage_spec (comboValue cards) (comboSuits cards)
    (removalStage s p cards)
  obtain ⟨l3, h3⟩ := damageStage_spec
    (clubsStage (comboValue cards) (comboSuits cards) (removalStage s p cards)).1
    (clubsStage (comboValue cards) (comboSuits cards) (removalStage s p cards)).2.1
  obtain ⟨hands4, tav4, l4, h4, hlen4, hcnt4, hmh4, hmt4⟩ :=
    diamondsStage_spec (comboValue cards) (comboSuits cards) p
      (damageStage
        (clubsStage (comboValue cards) (comboSuits cards) (removalStage s p cards)).1
        (clubsStage (comboValue cards) (comboSuits cards) (removalStage s p cards)).2.1)
  obtain ⟨sh5, l5, h5⟩ := spadesStage_spec (comboValue cards) (comboSuits cards)
    (diamondsStage (comboValue cards) (comboSuits cards) p
      (damageStage
        (clubsStage (comboValue cards) (comboSuits cards) (removalStage s p cards)).1
        (clubsStage (comboValue cards) (comboSuits cards) (removalStage s p cards)).2.1)).1
  obtain ⟨tav6, dis6, l6, h6, hcnt6, hmt6, hmd6⟩ :=
    heartsStage_spec (comboValue cards) (comboSuits cards)
      (spadesStage (comboValue cards) (comboSuits cards)
        (diamondsStage (comboValue cards) (comboSuits cards) p
          (damageStage
            (clubsStage (comboValue cards) (comboSuits cards)
              (removalStage s p cards)).1
            (clubsStage (comboValue cards) (comboSuits cards)
              (removalStage s p cards)).2.1)).1).1
  have happ : (applyPowers s p cards).1 =
      (heartsStage (comboValue cards) (comboSuits cards)
        (spadesStage (comboValue cards) (comboSuits cards)
          (diamondsStage (comboValue cards) (comboSuits cards) p
            (damageStage
              (clubsStage (comboValue cards) (comboSuits cards)
                (removalStage s p cards)).1
              (clubsStage (comboValue cards) (comboSuits cards)
                (removalStage s p cards)).2.1)).1).1).1 := rfl
  rw [h1] at happ h2 h3 h4 hlen4 hcnt4 hmh4 hmt4 h5 h6 hcnt6 hmt6 hmd6
  rw [h2] at happ h3 h4 hlen4 hcnt4 hmh4 hmt4 h5 h6 hcnt6 hmt6 hmd6
  rw [h3] at happ h4 hlen4 hcnt4 hmh4 hmt4 h5 h6 hcnt6 hmt6 hmd6
  rw [h4] at happ h5 h6 hcnt6 hmt6 hmd6
  rw [h5] at happ h6 hcnt6 hmt6 hmd6
  rw [h6] at happ
  simp only [] at happ hlen4 hcnt4 hmh4 hmt4 hcnt6 hmt6 hmd6
  have hcount : 0 < s.playerCount → s.hands.length = s.playerCount →
      p < s.hands.length → (∀ x, cards.count x ≤ (getHand s p).count x) →
      ∀ x, hands4.flatten.count x + tav6.count x + dis6.count x + cards.count x =
        s.hands.flatten.count x + s.tavern.count x + s.discard.count x := by
    intro hpc hlen hplt hsub x
    have hc6 := hcnt6 x
    have hc4 := hcnt4 hpc (by simpa using hlen) x
    have hfs := flatten_set_count s.hands p (removeCards (getHand s p) cards) hplt x
    have hrc := removeCards_count cards (getHand s p) hsub x
    have hg : (getHand s p).count x = (s.hands.getD p []).count x := rfl
    omega
  have hmem : ∀ x, (x ∈ hands4.flatten ∨ x ∈ tav6 ∨ x ∈ dis6) →
      (x ∈ s.hands.flatten ∨ x ∈ s.tavern ∨ x ∈ s.discard) := by
    intro x hx
    rcases hx with hx | hx | hx
    · rcases hmh4 x hx with h | h
      · rcases flatten_set_mem s.hands p _ x h with h2 | h2
        · exact Or.inl h2
        · have h3 : x ∈ s.hands.getD p [] := removeCards_mem cards (getHand s p) x h2
          exact Or.inl (mem_getD_flatten s.hands p x h3)
      · exact Or.inr (Or.inl h)
    · rcases hmt6 x hx with h | h
      · exact Or.inr (Or.inl (hmt4 x h))
      · exact Or.inr (Or.inr h)
    · exact Or.inr (Or.inr (hmd6 x hx))
  exact ⟨hands4, tav6, dis6, sh5, _, l6, happ, by simpa using hlen4, hcount, hmem⟩

theorem trackedCount_spec (s : GameState) (x : Card) :
    (presentCards s ++ s.removed).count x = trackedCount s x := by
  simp [presentCards, trackedCount, List.count_append]
  omega

theorem trackedIds_eq_of_count (s t : GameState)
    (h : ∀ x, trackedCount t x = trackedCount s x) : trackedIds t = trackedIds s := by
  have hperm : (presentCards t ++ t.removed).Perm (presentCards s ++ s.removed) := by
    rw [List.perm_iff_count]
    intro x
    rw [trackedCount_spec, trackedCount_spec]
    exact h x
  show (((presentCards t ++ t.removed).map (fun c => c.id) : List String) : Multiset String) = _
  exact Multiset.coe_eq_coe.mpr (hperm.map (fun c => c.id))

theorem selectCards_mem (hand : List Card) (ids : List String) (x : Card)
    (hx : x ∈ selectCards hand ids) : x ∈ hand := by
  rw [selectCards] at hx
  obtain ⟨i, _, hf⟩ := List.mem_filterMap.mp hx
  exact List.mem_of_find?_eq_some hf

theorem selectCards_nodup (hand : List Card) (ids : List String)
    (h : ids.Nodup) : (selectCards hand ids).Nodup := by
  rw [selectCards]
  refine List.Nodup.filterMap ?_ h
  intro a b c hca hcb
  have ha := List.find?_some hca
  have hb := List.find?_some hcb
  simp at ha hb
  rw [← ha, hb]

theorem selectCards_count_le (hand : List Card) (ids : List String)
    (h : ids.Nodup) : ∀ x, (selectCards hand ids).count x ≤ hand.count x := by
  intro x
  by_cases hx : x ∈ selectCards hand ids
  · have h1 : (selectCards hand ids).count x ≤ 1 :=
      List.nodup_iff_count_le_one.mp (selectCards_nodup hand ids h) x
    have h2 : 1 ≤ hand.count x :=
      List.count_pos_iff.mpr (selectCards_mem hand ids x hx)
    omega
  · rw [List.count_eq_zero_of_not_mem hx]
    exact Nat.zero_le _

theorem revealEnemy_empty (u : GameState) (h : u.castle = []) :
    ∃ lg, revealEnemy u = { u with phase := .victory, log := lg } := by
  rw [revealEnemy, h]
  exact ⟨_, rfl⟩

theorem revealEnemy_cons (u : GameState) (e : Card) (rest : List Card)
    (h : u.castle = e :: rest) :
    ∃ lg, revealEnemy u =
      { u with castle := rest, currentEnemy := some e,
               currentEnemyHP := (enemyMaxHP e : Int),
               currentEnemyMaxHP := (enemyMaxHP e : Int),
               currentEnemyAttack := enemyAttack e, shieldAmount := 0,
               log := lg } := by
  rw [revealEnemy, h]
  exact ⟨_, rfl⟩

theorem defeatFinish_res (u : GameState) (cards : List Card) (ev : List GEvent) :
    (defeatFinish u cards ev).1 =
      { baseRes with success := true, events := ev ++ [GEvent.defeat],
                     defeated := true } := rfl

theorem defeatFinish_spec (u : GameState) (cards : List Card) (ev : List GEvent) :
    ∃ lg, (defeatFinish u cards ev).2 = revealEnemy
      { u with enemiesDefeated := u.enemiesDefeated + 1,
               discard := if u.currentEnemyHP = 0
                 then (u.discard ++ cards) ++ [enemyOf u]
                 else u.discard ++ cards,
               removed := if u.currentEnemyHP = 0
                 then u.removed
                 else u.removed ++ [enemyOf u],
               phase := .play,
               currentPlayer := (u.currentPlayer + 1) % u.playerCount,
               log := lg } := by
  rw [defeatFinish]
  simp only []
  by_cases h : u.currentEnemyHP = 0
  · rw [if_pos h, if_pos h, if_pos h]
    exact ⟨_, rfl⟩
  · rw [if_neg h, if_neg h, if_neg h]
    exact ⟨_, rfl⟩

theorem revealEnemy_facts (v : GameState) :
    (revealEnemy v).playerCount = v.playerCount ∧
    (revealEnemy v).hands = v.hands ∧
    (revealEnemy v).currentPlayer = v.currentPlayer ∧
    (revealEnemy v).discard = v.discard ∧
    (revealEnemy v).removed = v.removed ∧
    (revealEnemy v).enemiesDefeated = v.enemiesDefeated ∧
    (v.currentEnemy.isSome = true → (revealEnemy v).currentEnemy.isSome = true) ∧
    (v.castle = [] → (revealEnemy v).phase = .victory ∧
      (revealEnemy v).currentEnemy = v.currentEnemy ∧
      (revealEnemy v).castle = v.castle) ∧
    (∀ e2 rest, v.castle = e2 :: rest → (revealEnemy v).phase = v.phase ∧
      (revealEnemy v).castle = rest ∧ (revealEnemy v).currentEnemy = some e2) ∧
    (v.phase = .play → ∀ x, trackedCount (revealEnemy v) x +
      (v.currentEnemy.toList).count x = trackedCount v x) ∧
    (∀ x, x ∈ fullCards (revealEnemy v) → x ∈ fullCards v) ∧
    (revealEnemy v).tavern = v.tavern ∧
    (revealEnemy v).discardedSoFar = v.discardedSoFar := by
  cases hc : v.castle with
  | nil =>
    obtain ⟨lg, hre⟩ := revealEnemy_empty v hc
    rw [hre]
    refine ⟨rfl, rfl, rfl, rfl, rfl, rfl, fun h => h, fun _ => ⟨rfl, rfl, hc⟩,
      fun e2 rest hcc => absurd hcc.symm (List.cons_ne_nil e2 rest), ?_, ?_, rfl, rfl⟩
    · intro hph x
      simp [trackedCount, enemySlot, hph, hc]
      omega
    · intro x hx
      simpa [fullCards] using hx
  | cons e2 rest =>
    obtain ⟨lg, hre⟩ := revealEnemy_cons v e2 rest hc
    rw [hre]
    refine ⟨rfl, rfl, rfl, rfl, rfl, rfl, fun h => rfl,
      fun hcc => absurd hcc (List.cons_ne_nil e2 rest),
      ?_, ?_, ?_, rfl, rfl⟩
    · intro e3 rest3 hcc
      injection hcc with h1 h2
      subst h1
      subst h2
      exact ⟨rfl, rfl, rfl⟩
    · intro hph x
      simp [trackedCount, enemySlot, hph, hc, List.count_cons]
      rcases eq_or_ne x e2 with hxe | hxe
      · try simp [hxe]
        all_goals omega
      · try simp [hxe, Ne.symm hxe]
        all_goals omega
    · intro x hx
      simp only [fullCards, List.mem_append, Option.toList_some, List.mem_singleton] at hx ⊢
      rcases hx with ((((h | h) | h) | h) | h) | h
      · exact Or.inl (Or.inl (Or.inl (Or.inl (Or.inl h))))
      · refine Or.inl (Or.inl (Or.inl (Or.inl (Or.inr ?_))))
        rw [hc]
        exact List.mem_cons_of_mem _ h
      · exact Or.inl (Or.inl (Or.inl (Or.inr h)))
      · exact Or.inl (Or.inl (Or.inr h))
      · subst h
        refine Or.inl (Or.inl (Or.inl (Or.inl (Or.inr ?_))))
        rw [hc]
        exact List.mem_cons_self _ _
      · exact Or.inr h

theorem defeatFinish_facts (u : GameState) (cards : List Card) (ev : List GEvent)
    (e : Card) (he : u.currentEnemy = some e) :
    (defeatFinish u cards ev).2.playerCount = u.playerCount ∧
    (defeatFinish u cards ev).2.hands = u.hands ∧
    (0 < u.playerCount → (defeatFinish u cards ev).2.currentPlayer < u.playerCount) ∧
    (defeatFinish u cards ev).2.currentEnemy.isSome = true ∧
    (∀ x, x ∈ fullCards (defeatFinish u cards ev).2 → x ∈ fullCards u ∨ x ∈ cards) ∧
    (u.phase = .play → ∀ x, trackedCount (defeatFinish u cards ev).2 x =
      trackedCount u x + cards.count x) ∧
    (defeatFinish u cards ev).2.enemiesDefeated = u.enemiesDefeated + 1 ∧
    (defeatFinish u cards ev).2.currentPlayer = (u.currentPlayer + 1) % u.playerCount ∧
    (u.castle = [] → (defeatFinish u cards ev).2.phase = .victory ∧
      (defeatFinish u cards ev).2.castle = u.castle ∧
      (defeatFinish u cards ev).2.currentEnemy = some e) ∧
    (∀ e2 rest, u.castle = e2 :: rest → (defeatFinish u cards ev).2.phase = .play ∧
      (defeatFinish u cards ev).2.currentEnemy = some e2 ∧
      (defeatFinish u cards ev).2.castle = rest) ∧
    (u.currentEnemyHP = 0 →
      (defeatFinish u cards ev).2.discard = (u.discard ++ cards) ++ [e] ∧
      (defeatFinish u cards ev).2.removed = u.removed) ∧
    (¬ u.currentEnemyHP = 0 →
      (defeatFinish u cards ev).2.discard = u.discard ++ cards ∧
      (defeatFinish u cards ev).2.removed = u.removed ++ [e]) ∧
    (defeatFinish u cards ev).2.tavern = u.tavern ∧
    (defeatFinish u cards ev).2.discardedSoFar = u.discardedSoFar := by
  obtain ⟨lg, hdf⟩ := defeatFinish_spec u cards ev
  have hofe : enemyOf u = e := by simp [enemyOf, he]
  rw [hofe] at hdf
  by_cases hHP : u.currentEnemyHP = 0
  · rw [if_pos hHP, if_pos hHP] at hdf
    obtain ⟨f1, f2, f3, f4, f5, f6, f7, f8, f9, f10, f11, f12, f13⟩ := revealEnemy_facts
      { u with enemiesDefeated := u.enemiesDefeated + 1,
               discard := (u.discard ++ cards) ++ [e],
               removed := u.removed,
               phase := .play,
               currentPlayer := (u.currentPlayer + 1) % u.playerCount,
               log := lg }
    rw [hdf]
    refine ⟨f1, f2, ?_, f7 (by simpa using congrArg Option.isSome he), ?_, ?_, f6, f3,
      fun hcc => ⟨(f8 hcc).1, (f8 hcc).2.2, ((f8 hcc).2.1).trans he⟩,
      fun e2 rest hcc => ⟨(f9 e2 rest hcc).1, (f9 e2 rest hcc).2.2, (f9 e2 rest hcc).2.1⟩,
      fun _ => ⟨f4, f5⟩, fun hc2 => absurd hHP hc2, f12, f13⟩
    · intro h
      rw [f3]
      exact Nat.mod_lt _ h
    · intro x hx
      have hmem := f11 x hx
      simp only [fullCards, List.mem_append, List.mem_singleton] at hmem ⊢
      rcases hmem with ((((h | h) | h) | h) | h) | h
      · exact Or.inl (Or.inl (Or.inl (Or.inl (Or.inl (Or.inl h)))))
      · exact Or.inl (Or.inl (Or.inl (Or.inl (Or.inl (Or.inr h)))))
      · rcases h with (h | h) | h
        · exact Or.inl (Or.inl (Or.inl (Or.inl (Or.inr h))))
        · exact Or.inr h
        · subst h
          exact Or.inl (Or.inl (Or.inr (by simp [he])))
      · exact Or.inl (Or.inl (Or.inl (Or.inr h)))
      · exact Or.inl (Or.inl (Or.inr h))
      · exact Or.inl (Or.inr h)
    · intro hph x
      have hkey := f10 rfl x
      simp only [trackedCount, enemySlot, he, Option.toList_some] at hkey
      simp only [trackedCount, enemySlot, hph, he, Option.toList_some]
      simp only [List.count_append] at hkey ⊢
      simp at hkey ⊢
      omega
  · rw [if_neg hHP, if_neg hHP] at hdf
    obtain ⟨f1, f2, f3, f4, f5, f6, f7, f8, f9, f10, f11, f12, f13⟩ := revealEnemy_facts
      { u with enemiesDefeated := u.enemiesDefeated + 1,
               discard := u.discard ++ cards,
               removed := u.removed ++ [e],
               phase := .play,
               currentPlayer := (u.currentPlayer + 1) % u.playerCount,
               log := lg }
    rw [hdf]
    refine ⟨f1, f2, ?_, f7 (by simpa using congrArg Option.isSome he), ?_, ?_, f6, f3,
      fun hcc => ⟨(f8 hcc).1, (f8 hcc).2.2, ((f8 hcc).2.1).trans he⟩,
      fun e2 rest hcc => ⟨(f9 e2 rest hcc).1, (f9 e2 rest hcc).2.2, (f9 e2 rest hcc).2.1⟩,
      fun hc2 => absurd hc2 hHP, fun _ => ⟨f4, f5⟩, f12, f13⟩
    · intro h
      rw [f3]
      exact Nat.mod_lt _ h
    · intro x hx
      have hmem := f11 x hx
      simp only [fullCards, List.mem_append, List.mem_singleton] at hmem ⊢
      rcases hmem with ((((h | h) | h) | h) | h) | h
      · exact Or.inl (Or.inl (Or.inl (Or.inl (Or.inl (Or.inl h)))))
      · exact Or.inl (Or.inl (Or.inl (Or.inl (Or.inl (Or.inr h)))))
      · rcases h with h | h
        · exact Or.inl (Or.inl (Or.inl (Or.inl (Or.inr h))))
        · exact Or.inr h
      · exact Or.inl (Or.inl (Or.inl (Or.inr h)))
      · exact Or.inl (Or.inl (Or.inr h))
      · exact Or.inl (Or.inr h)
    · intro hph x
      have hkey := f10 rfl x
      simp only [trackedCount, enemySlot, he, Option.toList_some] at hkey
      simp only [trackedCount, enemySlot, hph, he, Option.toList_some]
      simp only [List.count_append] at hkey ⊢
      simp at hkey ⊢
      omega

theorem arp_facts (u : GameState) (ev : List GEvent) :
    (attackResolutionPlay u ev).2.playerCount = u.playerCount ∧
    (attackResolutionPlay u ev).2.hands = u.hands ∧
    (0 < u.playerCount → u.currentPlayer < u.playerCount →
      (attackResolutionPlay u ev).2.currentPlayer < u.playerCount) ∧
    (attackResolutionPlay u ev).2.currentEnemy = u.currentEnemy ∧
    (∀ x, x ∈ fullCards (attackResolutionPlay u ev).2 → x ∈ fullCards u) ∧
    (¬ u.phase = .victory → ∀ x, trackedCount (attackResolutionPlay u ev).2 x =
      trackedCount u x) := by
  rw [attackResolutionPlay]
  simp only []
  by_cases h1 : u.currentEnemyAttack - u.shieldAmount > 0
  · rw [if_pos h1]
    simp only []
    split_ifs with h2 h3 h4
    all_goals refine ⟨rfl, rfl, fun _ hcp => hcp, rfl, fun x hx => ?_, fun hph x => ?_⟩
    all_goals first
      | (simp only [fullCards, List.mem_append, List.not_mem_nil, or_false] at hx ⊢
         tauto)
      | (simp [trackedCount, enemySlot, hph]
         all_goals omega)
  · rw [if_neg h1]
    refine ⟨rfl, rfl, fun hpc _ => Nat.mod_lt _ hpc, rfl, fun x hx => ?_, fun hph x => ?_⟩
    · simpa [fullCards] using hx
    · simp [trackedCount, enemySlot, hph]

theorem yar_facts (u : GameState) :
    (yieldAttackResolution u).2.playerCount = u.playerCount ∧
    (yieldAttackResolution u).2.hands = u.hands ∧
    (0 < u.playerCount → u.currentPlayer < u.playerCount →
      (yieldAttackResolution u).2.currentPlayer < u.playerCount) ∧
    (yieldAttackResolution u).2.currentEnemy = u.currentEnemy ∧
    (∀ x, x ∈ fullCards (yieldAttackResolution u).2 → x ∈ fullCards u) ∧
    (¬ u.phase = .victory → ∀ x, trackedCount (yieldAttackResolution u).2 x =
      trackedCount u x) := by
  rw [yieldAttackResolution]
  simp only []
  by_cases h1 : u.currentEnemyAttack - u.shieldAmount > 0
  · rw [if_pos h1]
    try simp only []
    split_ifs with h2 h3
    all_goals refine ⟨rfl, rfl, fun _ hcp => hcp, rfl, fun x hx => ?_, fun hph x => ?_⟩
    all_goals first
      | (simp only [fullCards, List.mem_append, List.not_mem_nil, or_false] at hx ⊢
         tauto)
      | (simp [trackedCount, enemySlot, hph]
         all_goals omega)
  · rw [if_neg h1]
    refine ⟨rfl, rfl, fun hpc _ => Nat.mod_lt _ hpc, rfl, fun x hx => ?_, fun hph x => ?_⟩
    · simpa [fullCards] using hx
    · simp [trackedCount, enemySlot, hph]

set_option maxHeartbeats 1600000 in
theorem playCards_facts (s : GameState) (p : Nat) (ids : List String)
    (hsome : s.currentEnemy.isSome = true) :
    (playCards s p ids).2.playerCount = s.playerCount ∧
    (playCards s p ids).2.hands.length = s.hands.length ∧
    (0 < s.playerCount → s.currentPlayer < s.playerCount →
      (playCards s p ids).2.currentPlayer < s.playerCount) ∧
    (playCards s p ids).2.currentEnemy.isSome = true ∧
    (∀ x, x ∈ fullCards (playCards s p ids).2 → x ∈ fullCards s) ∧
    (ids.Nodup → 0 < s.playerCount → s.hands.length = s.playerCount →
      s.currentPlayer < s.playerCount →
      ∀ x, trackedCount (playCards s p ids).2 x = trackedCount s x) := by
  by_cases h1 : s.phase = .play
  swap
  · have ht : (playCards s p ids).2 = s := by simp [playCards, h1]
    rw [ht]
    exact ⟨rfl, rfl, fun _ h => h, hsome, fun x hx => hx, fun _ _ _ _ x => rfl⟩
  by_cases h2 : p = s.currentPlayer
  swap
  · have ht : (playCards s p ids).2 = s := by simp [playCards, h1, h2]
    rw [ht]
    exact ⟨rfl, rfl, fun _ h => h, hsome, fun x hx => hx, fun _ _ _ _ x => rfl⟩
  by_cases h3 : (selectCards (getHand s s.currentPlayer) ids).length = ids.length
  swap
  · have ht : (playCards s p ids).2 = s := by simp [playCards, h1, h2, h3]
    rw [ht]
    exact ⟨rfl, rfl, fun _ h => h, hsome, fun x hx => hx, fun _ _ _ _ x => rfl⟩
  by_cases h4 : isValidCombo (selectCards (getHand s s.currentPlayer) ids) = true
  swap
  · have ht : (playCards s p ids).2 = s := by simp [playCards, h1, h2, h3, h4]
    rw [ht]
    exact ⟨rfl, rfl, fun _ h => h, hsome, fun x hx => hx, fun _ _ _ _ x => rfl⟩
  have ht : (playCards s p ids).2 =
      (playCardsGo s s.currentPlayer (selectCards (getHand s s.currentPlayer) ids)).2 := by
    simp [playCards, h1, h2, h3, h4]
  rw [ht]
  obtain ⟨hands2, tav2, dis2, sh, hpv, lg, hA, hAlen, hAcnt, hAmem⟩ :=
    applyPowers_spec s s.currentPlayer (selectCards (getHand s s.currentPlayer) ids)
  obtain ⟨e, he⟩ := Option.isSome_iff_exists.mp hsome
  have hApc : (applyPowers s s.currentPlayer (selectCards (getHand s s.currentPlayer) ids)).1.playerCount =
      s.playerCount := by rw [hA]
  have hAph : (applyPowers s s.currentPlayer (selectCards (getHand s s.currentPlayer) ids)).1.phase = .play := by
    rw [hA]
    exact h1
  have hAue : (applyPowers s s.currentPlayer (selectCards (getHand s s.currentPlayer) ids)).1.currentEnemy =
      some e := by
    rw [hA]
    exact he
  have hcdsmem : ∀ x, x ∈ selectCards (getHand s s.currentPlayer) ids → x ∈ fullCards s := by
    intro x hx
    have h5 := mem_getD_flatten s.hands s.currentPlayer x (selectCards_mem _ _ x hx)
    simp only [fullCards, List.mem_append]
    tauto
  have hAfull : ∀ y, y ∈ fullCards (applyPowers s s.currentPlayer (selectCards (getHand s s.currentPlayer) ids)).1 →
      y ∈ fullCards s := by
    intro y hy
    rw [hA] at hy
    simp only [fullCards, List.mem_append] at hy ⊢
    rcases hy with ((((h | h) | h) | h) | h) | h
    · rcases hAmem y (Or.inr (Or.inl h)) with h6 | h6 | h6 <;> tauto
    · tauto
    · rcases hAmem y (Or.inr (Or.inr h)) with h6 | h6 | h6 <;> tauto
    · rcases hAmem y (Or.inl h) with h6 | h6 | h6 <;> tauto
    · tauto
    · tauto
  have hAtracked : ids.Nodup → 0 < s.playerCount → s.hands.length = s.playerCount →
      s.currentPlayer < s.playerCount → ∀ x,
      trackedCount (applyPowers s s.currentPlayer (selectCards (getHand s s.currentPlayer) ids)).1 x +
        (selectCards (getHand s s.currentPlayer) ids).count x = trackedCount s x := by
    intro hnd hpc hlen hcp x
    have hc := hAcnt hpc hlen (by omega) (selectCards_count_le _ _ hnd) x
    have htc : trackedCount (applyPowers s s.currentPlayer (selectCards (getHand s s.currentPlayer) ids)).1 x =
        tav2.count x + s.castle.count x + dis2.count x + hands2.flatten.count x +
          (s.currentEnemy.toList).count x + s.removed.count x := by
      rw [hA]
      simp [trackedCount, enemySlot, h1]
    have hts : trackedCount s x = s.tavern.count x + s.castle.count x +
        s.discard.count x + s.hands.flatten.count x +
        (s.currentEnemy.toList).count x + s.removed.count x := by
      simp [trackedCount, enemySlot, h1]
    omega
  by_cases h5 : (applyPowers s s.currentPlayer (selectCards (getHand s s.currentPlayer) ids)).1.currentEnemyHP ≤ 0
  · have ht2 : (playCardsGo s s.currentPlayer (selectCards (getHand s s.currentPlayer) ids)).2 =
        (defeatFinish (applyPowers s s.currentPlayer (selectCards (getHand s s.currentPlayer) ids)).1
          (selectCards (getHand s s.currentPlayer) ids)
          (applyPowers s s.currentPlayer (selectCards (getHand s s.currentPlayer) ids)).2).2 := by
      rw [playCardsGo]
      try simp only []
      rw [if_pos h5]
    rw [ht2]
    obtain ⟨df1, df2, df3, df4, df5, df6, df7, df8, df9, df10, df11, df12, df13,
      df14⟩ :=
      defeatFinish_facts (applyPowers s s.currentPlayer (selectCards (getHand s s.currentPlayer) ids)).1
        (selectCards (getHand s s.currentPlayer) ids)
        (applyPowers s s.currentPlayer (selectCards (getHand s s.currentPlayer) ids)).2 e hAue
    refine ⟨?_, ?_, ?_, df4, ?_, ?_⟩
    · rw [df1, hApc]
    · rw [df2, hA]
      exact hAlen
    · intro hpc hcp
      have h6 := df3 (by rw [hApc]; exact hpc)
      rw [hApc] at h6
      exact h6
    · intro x hx
      rcases df5 x hx with h6 | h6
      · exact hAfull x h6
      · exact hcdsmem x h6
    · intro hnd hpc hlen hcp x
      have h6 := df6 hAph x
      have h7 := hAtracked hnd hpc hlen hcp x
      omega
  · have ht2 : (playCardsGo s s.currentPlayer (selectCards (getHand s s.currentPlayer) ids)).2 =
        (attackResolutionPlay
          { (applyPowers s s.currentPlayer (selectCards (getHand s s.currentPlayer) ids)).1 with
            discard := (applyPowers s s.currentPlayer (selectCards (getHand s s.currentPlayer) ids)).1.discard ++
              selectCards (getHand s s.currentPlayer) ids }
          (applyPowers s s.currentPlayer (selectCards (getHand s s.currentPlayer) ids)).2).2 := by
      rw [playCardsGo]
      try simp only []
      rw [if_neg h5, surviveFinish]
    rw [ht2]
    obtain ⟨a1, a2, a3, a4, a5, a6⟩ := arp_facts
      { (applyPowers s s.currentPlayer (selectCards (getHand s s.currentPlayer) ids)).1 with
        discard := (applyPowers s s.currentPlayer (selectCards (getHand s s.currentPlayer) ids)).1.discard ++
          selectCards (getHand s s.currentPlayer) ids }
      (applyPowers s s.currentPlayer (selectCards (getHand s s.currentPlayer) ids)).2
    have hu2pc : ({ (applyPowers s s.currentPlayer (selectCards (getHand s s.currentPlayer) ids)).1 with
        discard := (applyPowers s s.currentPlayer (selectCards (getHand s s.currentPlayer) ids)).1.discard ++
          selectCards (getHand s s.currentPlayer) ids } : GameState).playerCount = s.playerCount := by
      rw [hA]
    have hu2cp : ({ (applyPowers s s.currentPlayer (selectCards (getHand s s.currentPlayer) ids)).1 with
        discard := (applyPowers s s.currentPlayer (selectCards (getHand s s.currentPlayer) ids)).1.discard ++
          selectCards (getHand s s.currentPlayer) ids } : GameState).currentPlayer =
        s.currentPlayer := by
      rw [hA]
    have hu2hands : ({ (applyPowers s s.currentPlayer (selectCards (getHand s s.currentPlayer) ids)).1 with
        discard := (applyPowers s s.currentPlayer (selectCards (getHand s s.currentPlayer) ids)).1.discard ++
          selectCards (getHand s s.currentPlayer) ids } : GameState).hands = hands2 := by
      rw [hA]
    have hu2ph : ¬ ({ (applyPowers s s.currentPlayer (selectCards (getHand s s.currentPlayer) ids)).1 with
        discard := (applyPowers s s.currentPlayer (selectCards (getHand s s.currentPlayer) ids)).1.discard ++
          selectCards (getHand s s.currentPlayer) ids } : GameState).phase = .victory := by
      show ¬ (applyPowers s s.currentPlayer (selectCards (getHand s s.currentPlayer) ids)).1.phase = .victory
      rw [hAph]
      simp
    have hu2ue : ({ (applyPowers s s.currentPlayer (selectCards (getHand s s.currentPlayer) ids)).1 with
        discard := (applyPowers s s.currentPlayer (selectCards (getHand s s.currentPlayer) ids)).1.discard ++
          selectCards (getHand s s.currentPlayer) ids } : GameState).currentEnemy = some e := hAue
    have hu2tr : ∀ x, trackedCount
        ({ (applyPowers s s.currentPlayer (selectCards (getHand s s.currentPlayer) ids)).1 with
           discard := (applyPowers s s.currentPlayer (selectCards (getHand s s.currentPlayer) ids)).1.discard ++
             selectCards (getHand s s.currentPlayer) ids } : GameState) x =
        trackedCount (applyPowers s s.currentPlayer (selectCards (getHand s s.currentPlayer) ids)).1 x +
          (selectCards (getHand s s.currentPlayer) ids).count x := by
      intro x
      simp [trackedCount, enemySlot, List.count_append]
      split_ifs <;> omega
    have hu2mem : ∀ y, y ∈ fullCards
        ({ (applyPowers s s.currentPlayer (selectCards (getHand s s.currentPlayer) ids)).1 with
           discard := (applyPowers s s.currentPlayer (selectCards (getHand s s.currentPlayer) ids)).1.discard ++
             selectCards (getHand s s.currentPlayer) ids } : GameState) →
        y ∈ fullCards (applyPowers s s.currentPlayer (selectCards (getHand s s.currentPlayer) ids)).1 ∨
          y ∈ selectCards (getHand s s.currentPlayer) ids := by
      intro y hy
      simp only [fullCards, List.mem_append] at hy ⊢
      rcases hy with ((((h | h) | h | h) | h) | h) | h
      · exact Or.inl (Or.inl (Or.inl (Or.inl (Or.inl (Or.inl h)))))
      · exact Or.inl (Or.inl (Or.inl (Or.inl (Or.inl (Or.inr h)))))
      · exact Or.inl (Or.inl (Or.inl (Or.inl (Or.inr h))))
      · exact Or.inr h
      · exact Or.inl (Or.inl (Or.inl (Or.inr h)))
      · exact Or.inl (Or.inl (Or.inr h))
      · exact Or.inl (Or.inr h)
    refine ⟨?_, ?_, ?_, ?_, ?_, ?_⟩
    · rw [a1, hu2pc]
    · rw [a2, hu2hands]
      exact hAlen
    · intro hpc hcp
      have h6 := a3 (by rw [hu2pc]; exact hpc) (by rw [hu2cp, hu2pc]; exact hcp)
      rw [hu2pc] at h6
      exact h6
    · rw [a4, hu2ue]
      rfl
    · intro x hx
      rcases hu2mem x (a5 x hx) with h6 | h6
      · exact hAfull x h6
      · exact hcdsmem x h6
    · intro hnd hpc hlen hcp x
      have h6 := a6 hu2ph x
      have h7 := hu2tr x
      have h8 := hAtracked hnd hpc hlen hcp x
      omega

set_option maxHeartbeats 1600000 in
theorem discardCards_facts (s : GameState) (p : Nat) (ids : List String) :
    (discardCards s p ids).2.playerCount = s.playerCount ∧
    (discardCards s p ids).2.hands.length = s.hands.length ∧
    (0 < s.playerCount → s.currentPlayer < s.playerCount →
      (discardCards s p ids).2.currentPlayer < s.playerCount) ∧
    (discardCards s p ids).2.currentEnemy = s.currentEnemy ∧
    (∀ x, x ∈ fullCards (discardCards s p ids).2 → x ∈ fullCards s) ∧
    (0 < s.playerCount → s.hands.length = s.playerCount →
      s.currentPlayer < s.playerCount →
      ∀ x, trackedCount (discardCards s p ids).2 x = trackedCount s x) := by
  by_cases h1 : s.phase = .discard
  swap
  · have ht : (discardCards s p ids).2 = s := by simp [discardCards, h1]
    rw [ht]
    exact ⟨rfl, rfl, fun _ h => h, rfl, fun x hx => hx, fun _ _ _ x => rfl⟩
  by_cases h2 : p = s.currentPlayer
  swap
  · have ht : (discardCards s p ids).2 = s := by simp [discardCards, h1, h2]
    rw [ht]
    exact ⟨rfl, rfl, fun _ h => h, rfl, fun x hx => hx, fun _ _ _ x => rfl⟩
  by_cases h3 : (selectCards (getHand s s.currentPlayer) ids).length = 0
  · have ht : (discardCards s p ids).2 = s := by simp [discardCards, h1, h2, h3]
    rw [ht]
    exact ⟨rfl, rfl, fun _ h => h, rfl, fun x hx => hx, fun _ _ _ x => rfl⟩
  subst h2
  have hshape : ∃ ph cp2 dn2 dsf2 lgx,
      (discardCards s s.currentPlayer ids).2 =
        { s with
          hands := s.hands.set s.currentPlayer
            (discardLoop (selectCards (getHand s s.currentPlayer) ids)
              (getHand s s.currentPlayer) s.discard s.discardedSoFar).1,
          discard := (discardLoop (selectCards (getHand s s.currentPlayer) ids)
            (getHand s s.currentPlayer) s.discard s.discardedSoFar).2.1,
          discardedSoFar := dsf2, phase := ph, currentPlayer := cp2,
          discardNeeded := dn2, log := lgx } ∧
      ¬ ph = .victory ∧
      (cp2 = s.currentPlayer ∨ cp2 = (s.currentPlayer + 1) % s.playerCount) ∧
      (dsf2 = (discardLoop (selectCards (getHand s s.currentPlayer) ids)
        (getHand s s.currentPlayer) s.discard s.discardedSoFar).2.2 ∨ dsf2 = []) := by
    rw [discardCards]
    rw [if_neg (by simp [h1]), if_neg (by simp), if_neg (by simp [h3])]
    simp only []
    split_ifs with h4 h5
    · exact ⟨_, _, _, _, _, rfl, by simp [h1], Or.inr (by simp [setHand]),
        Or.inr (by simp [setHand])⟩
    · exact ⟨_, _, _, _, _, rfl, by simp [h1], Or.inl (by simp [setHand]),
        Or.inl (by simp [setHand])⟩
    · exact ⟨_, _, _, _, _, rfl, by simp [setHand, h1], Or.inl (by simp [setHand]),
        Or.inl (by simp [setHand])⟩
  obtain ⟨ph, cp2, dn2, dsf2, lgx, hts, hph, hcp2, hdsf2⟩ := hshape
  rw [hts]
  refine ⟨rfl, by simp, ?_, rfl, ?_, ?_⟩
  · intro hpc hcp
    show cp2 < s.playerCount
    rcases hcp2 with h | h
    · rw [h]
      exact hcp
    · rw [h]
      exact Nat.mod_lt _ hpc
  · intro x hx
    simp only [fullCards, List.mem_append] at hx ⊢
    rcases hx with ((((h | h) | h) | h) | h) | h
    · exact Or.inl (Or.inl (Or.inl (Or.inl (Or.inl h))))
    · exact Or.inl (Or.inl (Or.inl (Or.inl (Or.inr h))))
    · rcases discardLoop_mem2 _ _ _ _ x h with h6 | h6
      · exact Or.inl (Or.inl (Or.inl (Or.inr h6)))
      · exact Or.inl (Or.inl (Or.inr (mem_getD_flatten _ _ _ h6)))
    · rcases flatten_set_mem _ _ _ x h with h6 | h6
      · exact Or.inl (Or.inl (Or.inr h6))
      · exact Or.inl (Or.inl (Or.inr
          (mem_getD_flatten _ _ _ (discardLoop_mem1 _ _ _ _ x h6))))
    · exact Or.inl (Or.inr h)
    · rcases hdsf2 with hd | hd
      · rw [hd] at h
        rcases discardLoop_mem3 _ _ _ _ x h with h6 | h6
        · exact Or.inr h6
        · exact Or.inl (Or.inl (Or.inr (mem_getD_flatten _ _ _ h6)))
      · rw [hd] at h
        simp at h
  · intro hpc hlen hcp x
    have hfs := flatten_set_count s.hands s.currentPlayer
      (discardLoop (selectCards (getHand s s.currentPlayer) ids)
        (getHand s s.currentPlayer) s.discard s.discardedSoFar).1 (by omega) x
    have hdl := discardLoop_count (selectCards (getHand s s.currentPlayer) ids)
      (getHand s s.currentPlayer) s.discard s.discardedSoFar x
    have hg : (getHand s s.currentPlayer).count x =
        (s.hands.getD s.currentPlayer []).count x := rfl
    simp only [trackedCount, enemySlot, h1]
    simp [hph]
    omega

set_option maxHeartbeats 1600000 in
theorem yieldTurn_facts (s : GameState) (p : Nat) (oid : Option String) :
    (yieldTurn s p oid).2.playerCount = s.playerCount ∧
    (yieldTurn s p oid).2.hands.length = s.hands.length ∧
    (0 < s.playerCount → s.currentPlayer < s.playerCount →
      (yieldTurn s p oid).2.currentPlayer < s.playerCount) ∧
    (yieldTurn s p oid).2.currentEnemy = s.currentEnemy ∧
    (∀ x, x ∈ fullCards (yieldTurn s p oid).2 → x ∈ fullCards s) ∧
    (0 < s.playerCount → s.hands.length = s.playerCount →
      s.currentPlayer < s.playerCount →
      ∀ x, trackedCount (yieldTurn s p oid).2 x = trackedCount s x) := by
  by_cases h1 : s.phase = .play
  swap
  · have ht : (yieldTurn s p oid).2 = s := by simp [yieldTurn, h1]
    rw [ht]
    exact ⟨rfl, rfl, fun _ h => h, rfl, fun x hx => hx, fun _ _ _ x => rfl⟩
  by_cases h2 : p = s.currentPlayer
  swap
  · have ht : (yieldTurn s p oid).2 = s := by simp [yieldTurn, h1, h2]
    rw [ht]
    exact ⟨rfl, rfl, fun _ h => h, rfl, fun x hx => hx, fun _ _ _ x => rfl⟩
  subst h2
  have hshape : ∃ hands1 dis1 lg1,
      (yieldTurn s s.currentPlayer oid).2 = (yieldAttackResolution
        { s with hands := hands1, discard := dis1, log := lg1 }).2 ∧
      hands1.length = s.hands.length ∧
      (∀ x, x ∈ hands1.flatten → x ∈ s.hands.flatten) ∧
      (∀ x, x ∈ dis1 → x ∈ s.discard ∨ x ∈ s.hands.flatten) ∧
      (s.currentPlayer < s.hands.length →
        ∀ x, hands1.flatten.count x + dis1.count x =
          s.hands.flatten.count x + s.discard.count x) := by
    rw [yieldTurn]
    rw [if_neg (by simp [h1]), if_neg (by simp)]
    simp only []
    cases oid with
    | none =>
      exact ⟨s.hands, s.discard, _, rfl, rfl, fun x hx => hx,
        fun x hx => Or.inl hx, fun _ x => rfl⟩
    | some cid =>
      simp only []
      split
      · rename_i card heq
        have hcard : card ∈ getHand s s.currentPlayer := List.mem_of_find?_eq_some heq
        refine ⟨s.hands.set s.currentPlayer ((getHand s s.currentPlayer).erase card),
          s.discard ++ [card], _, rfl, by simp, ?_, ?_, ?_⟩
        · intro x hx
          rcases flatten_set_mem _ _ _ x hx with h | h
          · exact h
          · exact mem_getD_flatten _ _ _
              ((getHand s s.currentPlayer).erase_subset card h)
        · intro x hx
          rcases List.mem_append.mp hx with h | h
          · exact Or.inl h
          · simp at h
            subst h
            exact Or.inr (mem_getD_flatten _ _ _ hcard)
        · intro hlt x
          have h01 := flatten_set_count s.hands s.currentPlayer
            ((getHand s s.currentPlayer).erase card) hlt x
          have h02 : ((getHand s s.currentPlayer).erase card).count x +
              List.count x [card] = (getHand s s.currentPlayer).count x := by
            rcases eq_or_ne x card with he | he
            · subst he
              rw [List.count_erase_self]
              have := List.count_pos_iff.mpr hcard
              simp
              omega
            · rw [List.count_erase_of_ne he]
              simp [List.count_cons, he]
          have hg : (getHand s s.currentPlayer).count x =
              (s.hands.getD s.currentPlayer []).count x := rfl
          rw [List.count_append]
          omega
      · exact ⟨s.hands, s.discard, s.log, rfl, rfl, fun x hx => hx,
          fun x hx => Or.inl hx, fun _ x => rfl⟩
  obtain ⟨hands1, dis1, lg1, hts, hlen1, hmh1, hmd1, hcnt1⟩ := hshape
  rw [hts]
  obtain ⟨a1, a2, a3, a4, a5, a6⟩ := yar_facts
    { s with hands := hands1, discard := dis1, log := lg1 }
  refine ⟨a1, ?_, ?_, a4, ?_, ?_⟩
  · rw [a2]
    exact hlen1
  · intro hpc hcp
    exact a3 hpc hcp
  · intro x hx
    have h5 := a5 x hx
    simp only [fullCards, List.mem_append] at h5 ⊢
    rcases h5 with ((((h | h) | h) | h) | h) | h
    · exact Or.inl (Or.inl (Or.inl (Or.inl (Or.inl h))))
    · exact Or.inl (Or.inl (Or.inl (Or.inl (Or.inr h))))
    · rcases hmd1 x h with h6 | h6
      · exact Or.inl (Or.inl (Or.inl (Or.inr h6)))
      · exact Or.inl (Or.inl (Or.inr h6))
    · exact Or.inl (Or.inl (Or.inr (hmh1 x h)))
    · exact Or.inl (Or.inr h)
    · exact Or.inr h
  · intro hpc hlen hcp x
    have h5 := a6 (by show ¬ s.phase = .victory; rw [h1]; simp) x
    have h6 := hcnt1 (by omega) x
    have hsl : enemySlot { s with hands := hands1, discard := dis1, log := lg1 } =
        enemySlot s := by
      simp [enemySlot]
    have h7 : trackedCount { s with hands := hands1, discard := dis1, log := lg1 } x =
        hands1.flatten.count x + dis1.count x + s.tavern.count x + s.castle.count x +
          (enemySlot s).count x + s.removed.count x := by
      simp [trackedCount, hsl]
      omega
    have h8 : trackedCount s x = s.hands.flatten.count x + s.discard.count x +
        s.tavern.count x + s.castle.count x + (enemySlot s).count x +
        s.removed.count x := by
      simp [trackedCount]
      omega
    omega

set_option maxHeartbeats 1600000 in
theorem playJoker_facts (s : GameState) (p : Nat) :
    (playJoker s p).2.playerCount = s.playerCount ∧
    (playJoker s p).2.hands.length = s.hands.length ∧
    (0 < s.playerCount → s.currentPlayer < s.playerCount →
      (playJoker s p).2.currentPlayer < s.playerCount) ∧
    (playJoker s p).2.currentEnemy = s.currentEnemy ∧
    (∀ x, x ∈ fullCards (playJoker s p).2 → x ∈ fullCards s) ∧
    (0 < s.playerCount → s.hands.length = s.playerCount →
      s.currentPlayer < s.playerCount →
      ∀ x, trackedCount (playJoker s p).2 x = trackedCount s x) := by
  by_cases h1 : s.phase = .play
  swap
  · have ht : (playJoker s p).2 = s := by simp [playJoker, h1]
    rw [ht]
    exact ⟨rfl, rfl, fun _ h => h, rfl, fun x hx => hx, fun _ _ _ x => rfl⟩
  by_cases h2 : p = s.currentPlayer
  swap
  · have ht : (playJoker s p).2 = s := by simp [playJoker, h1, h2]
    rw [ht]
    exact ⟨rfl, rfl, fun _ h => h, rfl, fun x hx => hx, fun _ _ _ x => rfl⟩
  subst h2
  have hshape : (playJoker s s.currentPlayer).2 = s ∨
      ∃ hnd2 tav2 dis2 ja ju lg,
        (playJoker s s.currentPlayer).2 =
          { s with hands := hnd2, tavern := tav2, discard := dis2,
                   jokersAvailable := ja, jokersUsed := ju, log := lg } ∧
        hnd2.length = s.hands.length ∧
        (s.currentPlayer < s.hands.length → ∀ x,
          hnd2.flatten.count x + tav2.count x +
            (getHand s s.currentPlayer).count x =
          s.hands.flatten.count x + s.tavern.count x) ∧
        (∀ x, x ∈ hnd2.flatten → x ∈ s.hands.flatten ∨ x ∈ s.tavern) ∧
        (∀ x, x ∈ tav2 → x ∈ s.tavern) ∧
        (∀ x, dis2.count x = s.discard.count x +
          (getHand s s.currentPlayer).count x) ∧
        (∀ x, x ∈ dis2 → x ∈ s.discard ∨ x ∈ s.hands.flatten) := by
    rw [playJoker]
    rw [if_neg (by simp [h1]), if_neg (by simp)]
    simp only [setHand]
    by_cases hpc1 : s.playerCount = 1
    · rw [if_pos hpc1]
      by_cases hj : s.jokersAvailable ≤ 0
      · rw [if_pos hj]
        exact Or.inl rfl
      · rw [if_neg hj]
        simp only [setHand]
        right
        refine ⟨_, _, _, _, _, _, rfl, by simp, ?_, ?_, ?_,
          fun x => List.count_append x _ _, ?_⟩
        · intro hlt x
          have e1 := flatten_set_count (s.hands.set s.currentPlayer []) s.currentPlayer
            (drawUpTo (getMaxHandSize s.playerCount) [] s.tavern).1 (by simpa using hlt) x
          have e2 := flatten_set_count s.hands s.currentPlayer [] hlt x
          have e3 := drawUpTo_count (getMaxHandSize s.playerCount) [] s.tavern x
          have e4 : (s.hands.set s.currentPlayer []).getD s.currentPlayer [] = [] :=
            getD_set_self _ _ _ hlt
          rw [e4] at e1
          simp only [List.count_nil] at e1 e2 e3
          have hg : (getHand s s.currentPlayer).count x =
              (s.hands.getD s.currentPlayer []).count x := rfl
          omega
        · intro x hx
          rcases flatten_set_mem _ _ _ x hx with h | h
          · rcases flatten_set_mem _ _ _ x h with h5 | h5
            · exact Or.inl h5
            · simp at h5
          · rcases drawUpTo_mem1 _ _ _ x h with h5 | h5
            · simp at h5
            · exact Or.inr h5
        · intro x hx
          exact drawUpTo_mem2 _ _ _ x hx
        · intro x hx
          rcases List.mem_append.mp hx with h | h
          · exact Or.inl h
          · exact Or.inr (mem_getD_flatten _ _ _ h)
    · rw [if_neg hpc1]
      split
      · exact Or.inl rfl
      · rename_i jokerCard heq
        have hjc : jokerCard ∈ getHand s s.currentPlayer :=
          List.mem_of_find?_eq_some heq
        simp only [setHand]
        right
        refine ⟨_, _, _, _, _, _, rfl, by simp, ?_, ?_, ?_, ?_, ?_⟩
        · intro hlt x
          have e1 := flatten_set_count (s.hands.set s.currentPlayer []) s.currentPlayer
            (drawUpTo (getMaxHandSize s.playerCount) [] s.tavern).1 (by simpa using hlt) x
          have e2 := flatten_set_count s.hands s.currentPlayer [] hlt x
          have e3 := drawUpTo_count (getMaxHandSize s.playerCount) [] s.tavern x
          have e4 : (s.hands.set s.currentPlayer []).getD s.currentPlayer [] = [] :=
            getD_set_self _ _ _ hlt
          rw [e4] at e1
          simp only [List.count_nil] at e1 e2 e3
          have hg : (getHand s s.currentPlayer).count x =
              (s.hands.getD s.currentPlayer []).count x := rfl
          omega
        · intro x hx
          rcases flatten_set_mem _ _ _ x hx with h | h
          · rcases flatten_set_mem _ _ _ x h with h5 | h5
            · exact Or.inl h5
            · simp at h5
          · rcases drawUpTo_mem1 _ _ _ x h with h5 | h5
            · simp at h5
            · exact Or.inr h5
        · intro x hx
          exact drawUpTo_mem2 _ _ _ x hx
        · intro x
          rw [List.count_append, List.count_append]
          have e5 : ((getHand s s.currentPlayer).erase jokerCard).count x +
              List.count x [jokerCard] = (getHand s s.currentPlayer).count x := by
            rcases eq_or_ne x jokerCard with he | he
            · subst he
              rw [List.count_erase_self]
              have := List.count_pos_iff.mpr hjc
              simp
              omega
            · rw [List.count_erase_of_ne he]
              simp [List.count_cons, he]
          omega
        · intro x hx
          rcases List.mem_append.mp hx with h | h
          · rcases List.mem_append.mp h with h5 | h5
            · exact Or.inl h5
            · simp at h5
              subst h5
              exact Or.inr (mem_getD_flatten _ _ _ hjc)
          · exact Or.inr (mem_getD_flatten _ _ _
              ((getHand s s.currentPlayer).erase_subset jokerCard h))
  rcases hshape with ht | ⟨hnd2, tav2, dis2, ja, ju, lg, hts, hlen2, hcnt2, hmh2, hmt2,
    hcd2, hmd2⟩
  · rw [ht]
    exact ⟨rfl, rfl, fun _ h => h, rfl, fun x hx => hx, fun _ _ _ x => rfl⟩
  · rw [hts]
    refine ⟨rfl, by simpa using hlen2, fun _ h => h, rfl, ?_, ?_⟩
    · intro x hx
      simp only [fullCards, List.mem_append] at hx ⊢
      rcases hx with ((((h | h) | h) | h) | h) | h
      · exact Or.inl (Or.inl (Or.inl (Or.inl (Or.inl (hmt2 x h)))))
      · exact Or.inl (Or.inl (Or.inl (Or.inl (Or.inr h))))
      · rcases hmd2 x h with h5 | h5
        · exact Or.inl (Or.inl (Or.inl (Or.inr h5)))
        · exact Or.inl (Or.inl (Or.inr h5))
      · rcases hmh2 x h with h5 | h5
        · exact Or.inl (Or.inl (Or.inr h5))
        · exact Or.inl (Or.inl (Or.inl (Or.inl (Or.inl h5))))
      · exact Or.inl (Or.inr h)
      · exact Or.inr h
    · intro hpc hlen hcp x
      have hc2 := hcnt2 (by omega) x
      have hd2 := hcd2 x
      have hsl : enemySlot ({ s with
          hands := hnd2, tavern := tav2, discard := dis2,
          jokersAvailable := ja, jokersUsed := ju, log := lg } : GameState) =
          enemySlot s := by
        simp [enemySlot]
      simp [trackedCount, hsl]
      omega

theorem step_victory_stuck (s t : GameState) (h : s.phase = .victory)
    (hst : Step s t) : t = s := by
  rcases hst with ⟨p, ids, ht⟩ | ⟨p, ids, ht⟩ | ⟨p, oid, ht⟩ | ⟨p, ht⟩
  · rw [ht]
    simp [playCards, h]
  · rw [ht]
    simp [discardCards, h]
  · rw [ht]
    simp [yieldTurn, h]
  · rw [ht]
    simp [playJoker, h]

theorem stepND_preserves (s t : GameState) (hst : StepND s t) (hWF : WF s) :
    WF t ∧ t.playerCount = s.playerCount ∧
    (∀ x, trackedCount t x = trackedCount s x) := by
  obtain ⟨hpc, hlen, hcp, hsome⟩ := hWF
  rcases hst with ⟨p, ids, hnd, ht⟩ | ⟨p, ids, ht⟩ | ⟨p, oid, ht⟩ | ⟨p, ht⟩
  · obtain ⟨f1, f2, f3, f4, f5, f6⟩ := playCards_facts s p ids hsome
    subst ht
    exact ⟨⟨by rw [f1]; exact hpc, by rw [f2, f1]; exact hlen,
      by rw [f1]; exact f3 hpc hcp, f4⟩, f1, f6 hnd hpc hlen hcp⟩
  · obtain ⟨f1, f2, f3, f4, f5, f6⟩ := discardCards_facts s p ids
    subst ht
    exact ⟨⟨by rw [f1]; exact hpc, by rw [f2, f1]; exact hlen,
      by rw [f1]; exact f3 hpc hcp, by rw [f4]; exact hsome⟩, f1, f6 hpc hlen hcp⟩
  · obtain ⟨f1, f2, f3, f4, f5, f6⟩ := yieldTurn_facts s p oid
    subst ht
    exact ⟨⟨by rw [f1]; exact hpc, by rw [f2, f1]; exact hlen,
      by rw [f1]; exact f3 hpc hcp, by rw [f4]; exact hsome⟩, f1, f6 hpc hlen hcp⟩
  · obtain ⟨f1, f2, f3, f4, f5, f6⟩ := playJoker_facts s p
    subst ht
    exact ⟨⟨by rw [f1]; exact hpc, by rw [f2, f1]; exact hlen,
      by rw [f1]; exact f3 hpc hcp, by rw [f4]; exact hsome⟩, f1, f6 hpc hlen hcp⟩

theorem step_mono (s t : GameState) (hst : Step s t) (hWF : WF s) :
    WF t ∧ t.playerCount = s.playerCount ∧
    (∀ x, x ∈ fullCards t → x ∈ fullCards s) := by
  obtain ⟨hpc, hlen, hcp, hsome⟩ := hWF
  rcases hst with ⟨p, ids, ht⟩ | ⟨p, ids, ht⟩ | ⟨p, oid, ht⟩ | ⟨p, ht⟩
  · obtain ⟨f1, f2, f3, f4, f5, f6⟩ := playCards_facts s p ids hsome
    subst ht
    exact ⟨⟨by rw [f1]; exact hpc, by rw [f2, f1]; exact hlen,
      by rw [f1]; exact f3 hpc hcp, f4⟩, f1, f5⟩
  · obtain ⟨f1, f2, f3, f4, f5, f6⟩ := discardCards_facts s p ids
    subst ht
    exact ⟨⟨by rw [f1]; exact hpc, by rw [f2, f1]; exact hlen,
      by rw [f1]; exact f3 hpc hcp, by rw [f4]; exact hsome⟩, f1, f5⟩
  · obtain ⟨f1, f2, f3, f4, f5, f6⟩ := yieldTurn_facts s p oid
    subst ht
    exact ⟨⟨by rw [f1]; exact hpc, by rw [f2, f1]; exact hlen,
      by rw [f1]; exact f3 hpc hcp, by rw [f4]; exact hsome⟩, f1, f5⟩
  · obtain ⟨f1, f2, f3, f4, f5, f6⟩ := playJoker_facts s p
    subst ht
    exact ⟨⟨by rw [f1]; exact hpc, by rw [f2, f1]; exact hlen,
      by rw [f1]; exact f3 hpc hcp, by rw [f4]; exact hsome⟩, f1, f5⟩

theorem enemyCards_eq : enemyCards = jackCards ++ queenCards ++ kingCards := by
  decide

set_option maxHeartbeats 1600000 in
theorem initialState_facts (pc : Nat) (hpc : 0 < pc) (s0 : GameState)
    (h : InitialState pc s0) :
    WF s0 ∧ s0.playerCount = pc ∧
    (∀ x, trackedCount s0 x = (createDeck pc).count x + enemyCards.count x) ∧
    (∀ x, x ∈ fullCards s0 → x ∈ createDeck pc ∨ x ∈ enemyCards) := by
  obtain ⟨tav, cas, hperm, hcas, hs0⟩ := h
  obtain ⟨js, qs, ks, hj, hq, hk, hcase⟩ := hcas
  have hcasperm : cas.Perm enemyCards := by
    rw [hcase, enemyCards_eq]
    exact ((hj.append hq).append hk)
  cases js with
  | nil =>
    have := hj.length_eq
    simp [jackCards, SUITS] at this
  | cons e js2 =>
    have hcc : cas = e :: (js2 ++ qs ++ ks) := by
      rw [hcase]
      simp
    subst hs0
    have hrs : resetState pc tav cas = revealEnemy (preRevealState pc tav cas) := rfl
    rw [hrs]
    obtain ⟨g1, g2, g3, g4, g5, g6, g7, g8, g9, g10, g11, g12, g13⟩ :=
      revealEnemy_facts (preRevealState pc tav cas)
    obtain ⟨g9a, g9b, g9c⟩ := g9 e (js2 ++ qs ++ ks)
      (by show cas = _; exact hcc)
    have hdl : (dealHands pc (handSizeFor pc) tav).1.length = pc :=
      dealHands_length pc (handSizeFor pc) tav
    refine ⟨⟨?_, ?_, ?_, ?_⟩, ?_, ?_, ?_⟩
    · rw [g1]
      exact hpc
    · rw [g2, g1]
      show (dealHands pc (handSizeFor pc) tav).1.length = pc
      exact hdl
    · rw [g3, g1]
      show 0 < pc
      exact hpc
    · rw [g9c]
      rfl
    · rw [g1]
      rfl
    · intro x
      have h1 := dealHands_count pc (handSizeFor pc) tav x
      have h2 : tav.count x = (createDeck pc).count x := hperm.count_eq x
      have h3 : cas.count x = enemyCards.count x := hcasperm.count_eq x
      have h4 := g10 rfl x
      have h5 : trackedCount (preRevealState pc tav cas) x =
          (dealHands pc (handSizeFor pc) tav).2.count x + cas.count x +
          (dealHands pc (handSizeFor pc) tav).1.flatten.count x := by
        simp [trackedCount, preRevealState, enemySlot]
      have h6 : ((preRevealState pc tav cas).currentEnemy.toList).count x = 0 := by
        simp [preRevealState]
      omega
    · intro x hx
      have h2 : ∀ y, y ∈ tav → y ∈ createDeck pc := fun y hy => hperm.mem_iff.mp hy
      have h3 : ∀ y, y ∈ cas → y ∈ enemyCards := fun y hy => hcasperm.mem_iff.mp hy
      have h4 := g11 x hx
      simp only [fullCards, preRevealState, List.mem_append, List.not_mem_nil,
        or_false, Option.toList_none] at h4
      rcases h4 with (h5 | h5) | h5
      · exact Or.inl (h2 x (dealHands_mem2 pc (handSizeFor pc) tav x h5))
      · exact Or.inr (h3 x h5)
      · exact Or.inl (h2 x (dealHands_mem1 pc (handSizeFor pc) tav x h5))

theorem reachableND_invariant (pc : Nat) (hpc : 0 < pc) (s : GameState)
    (h : ReachableND pc s) :
    WF s ∧ ∀ x, trackedCount s x = (createDeck pc).count x + enemyCards.count x := by
  obtain ⟨s0, hinit, hchain⟩ := h
  obtain ⟨hWF0, _, hcnt0, _⟩ := initialState_facts pc hpc s0 hinit
  induction hchain with
  | refl => exact ⟨hWF0, hcnt0⟩
  | tail hab hbc ih =>
    obtain ⟨hWFb, _, hstep⟩ := stepND_preserves _ _ hbc ih.1
    exact ⟨hWFb, fun x => (hstep x).trans (ih.2 x)⟩

theorem reachable_invariant (pc : Nat) (hpc : 0 < pc) (s : GameState)
    (h : Reachable pc s) :
    WF s ∧ s.playerCount = pc ∧
    (∀ x, x ∈ fullCards s → x ∈ createDeck pc ∨ x ∈ enemyCards) := by
  obtain ⟨s0, hinit, hchain⟩ := h
  obtain ⟨hWF0, hpc0, _, hmem0⟩ := initialState_facts pc hpc s0 hinit
  induction hchain with
  | refl => exact ⟨hWF0, hpc0, hmem0⟩
  | tail hab hbc ih =>
    obtain ⟨hWFb, hpcb, hmemb⟩ := step_mono _ _ hbc ih.1
    exact ⟨hWFb, hpcb.trans ih.2.1, fun x hx => ih.2.2 x (hmemb x hx)⟩

theorem victory_chain (t0 t : GameState) (hch : Relation.ReflTransGen Step t0 t)
    (h : t0.phase = .victory) : t = t0 := by
  induction hch with
  | refl => rfl
  | tail hab hbc ih =>
    have hcb := step_victory_stuck _ _ (by rw [ih]; exact h) hbc
    exact hcb.trans ih

theorem absent_chain (t0 t : GameState) (e : Card)
    (hch : Relation.ReflTransGen Step t0 t) (hWF : WF t0)
    (he : ¬ e ∈ fullCards t0) : WF t ∧ ¬ e ∈ fullCards t := by
  induction hch with
  | refl => exact ⟨hWF, he⟩
  | tail hab hbc ih =>
    obtain ⟨hWFb, _, hmemb⟩ := step_mono _ _ hbc ih.1
    exact ⟨hWFb, fun hx => ih.2 (hmemb e hx)⟩

theorem presentCards_sub_fullCards (t : GameState) (x : Card)
    (hx : x ∈ presentCards t) : x ∈ fullCards t := by
  simp only [presentCards, fullCards, List.mem_append, enemySlot] at hx ⊢
  rcases hx with (((h | h) | h) | h) | h
  · tauto
  · tauto
  · tauto
  · tauto
  · split_ifs at h
    · simp at h
    · tauto

theorem tracked_perm_init (pc : Nat) (s : GameState)
    (h : ∀ x, trackedCount s x = (createDeck pc).count x + enemyCards.count x) :
    trackedIds s = initialIds pc := by
  have hperm : (presentCards s ++ s.removed).Perm (createDeck pc ++ enemyCards) := by
    rw [List.perm_iff_count]
    intro y
    rw [trackedCount_spec, List.count_append]
    exact h y
  show (((presentCards s ++ s.removed).map (fun c => c.id) : List String) :
    Multiset String) = _
  exact Multiset.coe_eq_coe.mpr (hperm.map (fun c => c.id))

theorem createDeck_jokerless (pc : Nat) (h2 : ¬ pc = 2) (h3 : ¬ pc = 3) :
    createDeck pc =
      SUITS.flatMap (fun su => RANKS.map (fun r => ⟨su, r, mkId r su⟩)) := by
  rw [createDeck]
  try simp only []
  have hz : (if pc ≥ 2 then if pc = 2 then 2 else if pc = 3 then 1 else 0 else 0) = 0 := by
    split_ifs <;> omega
  rw [hz]
  rfl

theorem initialIds_nodup (pc : Nat) : (initialIds pc).Nodup := by
  show (((createDeck pc ++ enemyCards).map (fun c => c.id) : List String) :
    Multiset String).Nodup
  rw [Multiset.coe_nodup]
  by_cases h2 : pc = 2
  · subst h2
    decide
  by_cases h3 : pc = 3
  · subst h3
    decide
  rw [createDeck_jokerless pc h2 h3]
  decide

/-- CLAIM C3 counterexample: `dupState` is reachable from a fresh 2-player
game by a yield, a discard, and a `playCards` call listing the ace of
spades twice; the duplicate-id `playCards` call removes the ace from the
hand once but pushes it onto the discard pile twice, so its id appears
twice in the conservation multiset while the initial deck holds it once —
the claimed conservation fails. -/
theorem C3_counterexample :
    Reachable 2 dupState ∧
    Multiset.count "A_spades" (trackedIds dupState) = 2 ∧
    Multiset.count "A_spades" (initialIds 2) = 1 := by
  refine ⟨⟨s0two, ⟨createDeck 2, enemyCards, List.Perm.refl _,
    ⟨jackCards, queenCards, kingCards, List.Perm.refl _, List.Perm.refl _,
      List.Perm.refl _, enemyCards_eq⟩, rfl⟩, ?_⟩, by decide, by decide⟩
  have step1 : Step s0two yState := Or.inr (Or.inr (Or.inl ⟨0, none, rfl⟩))
  have step2 : Step yState dState := Or.inr (Or.inl ⟨0, ["10_spades"], rfl⟩)
  have step3 : Step dState dupState := Or.inl ⟨1, ["A_spades", "A_spades"], rfl⟩
  exact Relation.ReflTransGen.tail
    (Relation.ReflTransGen.tail
      (Relation.ReflTransGen.tail Relation.ReflTransGen.refl step1) step2) step3

/-- CLAIM C3 (amended): card conservation holds for every state reachable
through engine calls whose `playCards` id lists are duplicate-free: the
multiset of card ids across tavern, castle, the unresolved active enemy,
discard, and all hands, together with the overkill-removed enemies,
equals the initial deck plus the 12 enemy cards, and no id appears
twice. -/
theorem C3_amended (pc : Nat) (hpc : 0 < pc) (s : GameState)
    (h : ReachableND pc s) :
    trackedIds s = initialIds pc ∧ (trackedIds s).Nodup := by
  obtain ⟨hWF, hcnt⟩ := reachableND_invariant pc hpc s h
  have he := tracked_perm_init pc s hcnt
  refine ⟨he, ?_⟩
  rw [he]
  exact initialIds_nodup pc

/-- CLAIM C3 witness: the amended conservation statement instantiated at
the fresh identity-shuffled 2-player game. -/
theorem C3_amended_witness :
    0 < 2 ∧ ReachableND 2 s0two ∧
    (trackedIds s0two = initialIds 2 ∧ (trackedIds s0two).Nodup) :=
  ⟨by decide,
   ⟨s0two, ⟨createDeck 2, enemyCards, List.Perm.refl _,
     ⟨jackCards, queenCards, kingCards, List.Perm.refl _, List.Perm.refl _,
       List.Perm.refl _, enemyCards_eq⟩, rfl⟩, Relation.ReflTransGen.refl⟩,
   C3_amended 2 (by decide) s0two
     ⟨s0two, ⟨createDeck 2, enemyCards, List.Perm.refl _,
       ⟨jackCards, queenCards, kingCards, List.Perm.refl _, List.Perm.refl _,
         List.Perm.refl _, enemyCards_eq⟩, rfl⟩, Relation.ReflTransGen.refl⟩⟩

/-- CLAIM C10: a 4-player deck contains no Jokers, so for every reachable
4-player state every `playJoker` call fails and leaves the state
unchanged. -/
theorem C10_no_joker (s : GameState) (h : Reachable 4 s) (p : Nat) :
    (playJoker s p).1.success = false ∧ (playJoker s p).2 = s := by
  obtain ⟨hWF, hpc4, hmem⟩ := reachable_invariant 4 (by decide) s h
  have hdeck : ∀ c, c ∈ createDeck 4 → ¬ c.rank = .Joker := by decide
  have hene : ∀ c, c ∈ enemyCards → ¬ c.rank = .Joker := by decide
  have hnoJ : ∀ c, c ∈ fullCards s → ¬ c.rank = .Joker := by
    intro c hc
    rcases hmem c hc with h4 | h4
    · exact hdeck c h4
    · exact hene c h4
  by_cases h1 : s.phase = .play
  swap
  · constructor <;> simp [playJoker, h1, failRes, baseRes]
  by_cases h2 : p = s.currentPlayer
  swap
  · constructor <;> simp [playJoker, h1, h2, failRes, baseRes]
  have hpc1 : ¬ s.playerCount = 1 := by
    rw [hpc4]
    simp
  have hfind : (getHand s s.currentPlayer).find? (fun c => c.rank = Rank.Joker) =
      none := by
    rw [List.find?_eq_none]
    intro c hc
    have hfl := mem_getD_flatten s.hands s.currentPlayer c hc
    have hful : c ∈ fullCards s := by
      simp only [fullCards, List.mem_append]
      tauto
    simpa using hnoJ c hful
  constructor <;> simp [playJoker, h1, h2, hpc1, hfind, failRes, baseRes]

/-- CLAIM C10 witness: the failure conclusion instantiated at the fresh
identity-shuffled 4-player game with a `playJoker` call by player 0. -/
theorem C10_witness :
    Reachable 4 s0four ∧
    (playJoker s0four 0).1.success = false ∧ (playJoker s0four 0).2 = s0four :=
  ⟨⟨s0four, ⟨createDeck 4, enemyCards, List.Perm.refl _,
     ⟨jackCards, queenCards, kingCards, List.Perm.refl _, List.Perm.refl _,
       List.Perm.refl _, enemyCards_eq⟩, rfl⟩, Relation.ReflTransGen.refl⟩,
   C10_no_joker s0four
     ⟨s0four, ⟨createDeck 4, enemyCards, List.Perm.refl _,
       ⟨jackCards, queenCards, kingCards, List.Perm.refl _, List.Perm.refl _,
         List.Perm.refl _, enemyCards_eq⟩, rfl⟩, Relation.ReflTransGen.refl⟩ 0⟩

set_option maxHeartbeats 1600000 in
/-- CLAIM C6: a guard-passing `playCards` call whose damage brings the
active enemy to HP ≤ 0 defeats it: the result reports success and defeat,
`enemiesDefeated` increments, the turn passes to the next player, and the
next castle card is revealed (victory when the castle is empty).  At HP
exactly 0 the enemy card is appended to the discard pile right after the
played cards; on overkill (HP < 0) the enemy card goes to the ghost
`removed` list and — provided it sat nowhere else — never appears in any
pile or hand of any later reachable state. -/
theorem C6_defeat (s : GameState) (ids : List String) (e : Card)
    (hph : s.phase = .play) (he : s.currentEnemy = some e)
    (hlen : (selectCards (getHand s s.currentPlayer) ids).length = ids.length)
    (hcombo : isValidCombo (selectCards (getHand s s.currentPlayer) ids) = true)
    (hkill : (applyPowers s s.currentPlayer
      (selectCards (getHand s s.currentPlayer) ids)).1.currentEnemyHP ≤ 0) :
    (playCards s s.currentPlayer ids).1.success = true ∧
    (playCards s s.currentPlayer ids).1.defeated = true ∧
    (playCards s s.currentPlayer ids).2.enemiesDefeated = s.enemiesDefeated + 1 ∧
    (playCards s s.currentPlayer ids).2.currentPlayer =
      (s.currentPlayer + 1) % s.playerCount ∧
    ((applyPowers s s.currentPlayer
        (selectCards (getHand s s.currentPlayer) ids)).1.currentEnemyHP = 0 →
      (playCards s s.currentPlayer ids).2.discard =
        ((applyPowers s s.currentPlayer
          (selectCards (getHand s s.currentPlayer) ids)).1.discard ++
          selectCards (getHand s s.currentPlayer) ids) ++ [e]) ∧
    ((applyPowers s s.currentPlayer
        (selectCards (getHand s s.currentPlayer) ids)).1.currentEnemyHP < 0 →
      (playCards s s.currentPlayer ids).2.removed = s.removed ++ [e] ∧
      (playCards s s.currentPlayer ids).2.discard =
        (applyPowers s s.currentPlayer
          (selectCards (getHand s s.currentPlayer) ids)).1.discard ++
          selectCards (getHand s s.currentPlayer) ids ∧
      (0 < s.playerCount → s.hands.length = s.playerCount →
        s.currentPlayer < s.playerCount →
        ¬ e ∈ s.tavern → ¬ e ∈ s.castle → ¬ e ∈ s.discard →
        ¬ e ∈ s.hands.flatten → ¬ e ∈ s.discardedSoFar →
        ∀ t, Relation.ReflTransGen Step (playCards s s.currentPlayer ids).2 t →
          ¬ e ∈ presentCards t)) ∧
    (s.castle = [] → (playCards s s.currentPlayer ids).2.phase = .victory) ∧
    (∀ e2 rest, s.castle = e2 :: rest →
      (playCards s s.currentPlayer ids).2.phase = .play ∧
      (playCards s s.currentPlayer ids).2.currentEnemy = some e2 ∧
      (playCards s s.currentPlayer ids).2.castle = rest) := by
  have htp : playCards s s.currentPlayer ids =
      playCardsGo s s.currentPlayer (selectCards (getHand s s.currentPlayer) ids) := by
    simp [playCards, hph, hlen, hcombo]
  have htg : playCardsGo s s.currentPlayer
        (selectCards (getHand s s.currentPlayer) ids) =
      defeatFinish
        (applyPowers s s.currentPlayer
          (selectCards (getHand s s.currentPlayer) ids)).1
        (selectCards (getHand s s.currentPlayer) ids)
        (applyPowers s s.currentPlayer
          (selectCards (getHand s s.currentPlayer) ids)).2 := by
    rw [playCardsGo]
    try simp only []
    rw [if_pos hkill]
  obtain ⟨hands2, tav2, dis2, sh, hpv, lg, hA, hAlen, hAcnt, hAmem⟩ :=
    applyPowers_spec s s.currentPlayer (selectCards (getHand s s.currentPlayer) ids)
  have hAue : (applyPowers s s.currentPlayer
      (selectCards (getHand s s.currentPlayer) ids)).1.currentEnemy = some e := by
    rw [hA]
    exact he
  have hAcastle : (applyPowers s s.currentPlayer
      (selectCards (getHand s s.currentPlayer) ids)).1.castle = s.castle := by
    rw [hA]
  obtain ⟨df1, df2, df3, df4, df5, df6, df7, df8, df9, df10, df11, df12, df13, df14⟩ :=
    defeatFinish_facts
      (applyPowers s s.currentPlayer (selectCards (getHand s s.currentPlayer) ids)).1
      (selectCards (getHand s s.currentPlayer) ids)
      (applyPowers s s.currentPlayer (selectCards (getHand s s.currentPlayer) ids)).2
      e hAue
  rw [htp, htg]
  refine ⟨?_, ?_, ?_, ?_, ?_, ?_, ?_, ?_⟩
  · rw [defeatFinish_res]
  · rw [defeatFinish_res]
  · rw [df7, hA]
  · rw [df8, hA]
  · intro h0
    exact (df11 h0).1
  · intro hlt
    have hne : ¬ (applyPowers s s.currentPlayer
        (selectCards (getHand s s.currentPlayer) ids)).1.currentEnemyHP = 0 := by
      omega
    have hdisc0 : (defeatFinish
        (applyPowers s s.currentPlayer (selectCards (getHand s s.currentPlayer) ids)).1
        (selectCards (getHand s s.currentPlayer) ids)
        (applyPowers s s.currentPlayer
          (selectCards (getHand s s.currentPlayer) ids)).2).2.discard =
        dis2 ++ selectCards (getHand s s.currentPlayer) ids := by
      rw [(df12 hne).1, hA]
    have htav0 : (defeatFinish
        (applyPowers s s.currentPlayer (selectCards (getHand s s.currentPlayer) ids)).1
        (selectCards (getHand s s.currentPlayer) ids)
        (applyPowers s s.currentPlayer
          (selectCards (getHand s s.currentPlayer) ids)).2).2.tavern = tav2 := by
      rw [df13, hA]
    have hhands0 : (defeatFinish
        (applyPowers s s.currentPlayer (selectCards (getHand s s.currentPlayer) ids)).1
        (selectCards (getHand s s.currentPlayer) ids)
        (applyPowers s s.currentPlayer
          (selectCards (getHand s s.currentPlayer) ids)).2).2.hands = hands2 := by
      rw [df2, hA]
    have hdsf0 : (defeatFinish
        (applyPowers s s.currentPlayer (selectCards (getHand s s.currentPlayer) ids)).1
        (selectCards (getHand s s.currentPlayer) ids)
        (applyPowers s s.currentPlayer
          (selectCards (getHand s s.currentPlayer) ids)).2).2.discardedSoFar =
        s.discardedSoFar := by
      rw [df14, hA]
    refine ⟨?_, (df12 hne).1, ?_⟩
    · rw [(df12 hne).2, hA]
    · intro hpc hlenh hcp hnt hnc hnd hnh hns t hcht
      have hecds : ¬ e ∈ selectCards (getHand s s.currentPlayer) ids := fun hx =>
        hnh (mem_getD_flatten _ _ _ (selectCards_mem _ _ e hx))
      have heT : ¬ e ∈ tav2 := fun hx => by
        rcases hAmem e (Or.inr (Or.inl hx)) with h | h | h
        · exact hnh h
        · exact hnt h
        · exact hnd h
      have heD : ¬ e ∈ dis2 := fun hx => by
        rcases hAmem e (Or.inr (Or.inr hx)) with h | h | h
        · exact hnh h
        · exact hnt h
        · exact hnd h
      have heH : ¬ e ∈ hands2.flatten := fun hx => by
        rcases hAmem e (Or.inl hx) with h | h | h
        · exact hnh h
        · exact hnt h
        · exact hnd h
      cases hcs : s.castle with
      | nil =>
        have h9 := df9 (by rw [hAcastle]; exact hcs)
        have ht0 := victory_chain _ t hcht h9.1
        rw [ht0]
        intro hx
        simp only [presentCards, List.mem_append] at hx
        rcases hx with (((h | h) | h) | h) | h
        · rw [htav0] at h
          exact heT h
        · rw [h9.2.1, hAcastle, hcs] at h
          simp at h
        · rw [hdisc0] at h
          rcases List.mem_append.mp h with h5 | h5
          · exact heD h5
          · exact hecds h5
        · rw [hhands0] at h
          exact heH h
        · rw [enemySlot, if_pos h9.1] at h
          simp at h
      | cons e2 rest =>
        have h10 := df10 e2 rest (by rw [hAcastle]; exact hcs)
        have hWF0 : WF (defeatFinish
            (applyPowers s s.currentPlayer
              (selectCards (getHand s s.currentPlayer) ids)).1
            (selectCards (getHand s s.currentPlayer) ids)
            (applyPowers s s.currentPlayer
              (selectCards (getHand s s.currentPlayer) ids)).2).2 := by
          refine ⟨?_, ?_, ?_, df4⟩
          · rw [df1, hA]
            exact hpc
          · rw [df2, df1, hA]
            exact hAlen.trans hlenh
          · rw [df1]
            exact df3 (by rw [hA]; exact hpc)
        have heF : ¬ e ∈ fullCards (defeatFinish
            (applyPowers s s.currentPlayer
              (selectCards (getHand s s.currentPlayer) ids)).1
            (selectCards (getHand s s.currentPlayer) ids)
            (applyPowers s s.currentPlayer
              (selectCards (getHand s s.currentPlayer) ids)).2).2 := by
          intro hx
          simp only [fullCards, List.mem_append] at hx
          rcases hx with ((((h | h) | h) | h) | h) | h
          · rw [htav0] at h
            exact heT h
          · rw [h10.2.2] at h
            refine hnc ?_
            rw [hcs]
            exact List.mem_cons_of_mem _ h
          · rw [hdisc0] at h
            rcases List.mem_append.mp h with h5 | h5
            · exact heD h5
            · exact hecds h5
          · rw [hhands0] at h
            exact heH h
          · rw [h10.2.1] at h
            simp at h
            subst h
            refine hnc ?_
            rw [hcs]
            exact List.mem_cons_self _ _
          · rw [hdsf0] at h
            exact hns h
        have habs := absent_chain _ t e hcht hWF0 heF
        exact fun hx => habs.2 (presentCards_sub_fullCards t e hx)
  · intro hcs
    exact (df9 (by rw [hAcastle]; exact hcs)).1
  · intro e2 rest hcs
    exact df10 e2 rest (by rw [hAcastle]; exact hcs)

/-- CLAIM C6 witness: at `sC6` (Jack of hearts at 1 HP) player 0 plays the
ace of spades for an exact kill: success, defeat, the defeat counter
increments, and the Jack lands in discard right after the ace. -/
theorem C6_defeat_witness :
    (playCards sC6 0 ["A_spades"]).1.success = true ∧
    (playCards sC6 0 ["A_spades"]).1.defeated = true ∧
    (playCards sC6 0 ["A_spades"]).2.enemiesDefeated = sC6.enemiesDefeated + 1 ∧
    (playCards sC6 0 ["A_spades"]).2.discard =
      ((applyPowers sC6 0 (selectCards (getHand sC6 0) ["A_spades"])).1.discard ++
        selectCards (getHand sC6 0) ["A_spades"]) ++ [jackHearts] :=
  have h := C6_defeat sC6 ["A_spades"] jackHearts rfl rfl (by decide) (by decide)
    (by decide)
  ⟨h.1, h.2.1, h.2.2.1, h.2.2.2.2.1 (by decide)⟩
